import Mathlib

/-!
# Buzztrax machine core (`src/lib/core/machine.c`)

A shallow embedding of the machine's internal element chain (the splice
algorithm of `bt_machine_insert_element` and its callers) and of the playback
state machine (`bt_machine_change_state`), with the properties proved about
them.

Machine integers: `BtMachinePart` values are naturals below `PART_COUNT`; the
`gint` locals `pre` and `post` of `bt_machine_insert_element` are integers and
take the value `-1`.
-/

namespace Buzztrax

/-! ## The element chain -/

/-- Part PART_ADDER of BtMachinePart. -/
abbrev PART_ADDER : Nat := 0
/-- Part PART_CAPS_FILTER of BtMachinePart. -/
abbrev PART_CAPS_FILTER : Nat := 1
/-- Part PART_ADDER_CONVERT of BtMachinePart. -/
abbrev PART_ADDER_CONVERT : Nat := 2
/-- Part PART_INPUT_PRE_LEVEL of BtMachinePart. -/
abbrev PART_INPUT_PRE_LEVEL : Nat := 3
/-- Part PART_INPUT_GAIN of BtMachinePart. -/
abbrev PART_INPUT_GAIN : Nat := 4
/-- Part PART_INPUT_POST_LEVEL of BtMachinePart. -/
abbrev PART_INPUT_POST_LEVEL : Nat := 5
/-- Part PART_MACHINE of BtMachinePart. -/
abbrev PART_MACHINE : Nat := 6
/-- Part PART_OUTPUT_PRE_LEVEL of BtMachinePart. -/
abbrev PART_OUTPUT_PRE_LEVEL : Nat := 7
/-- Part PART_OUTPUT_GAIN of BtMachinePart. -/
abbrev PART_OUTPUT_GAIN : Nat := 8
/-- Part PART_OUTPUT_POST_LEVEL of BtMachinePart. -/
abbrev PART_OUTPUT_POST_LEVEL : Nat := 9
/-- Part PART_SPREADER of BtMachinePart. -/
abbrev PART_SPREADER : Nat := 10
/-- Part PART_COUNT of BtMachinePart: how many elements are used. -/
abbrev PART_COUNT : Nat := 11

/-- A GstPad pointer. `src i` is `src_pads[i]`, `sink i` is `sink_pads[i]`; the index
is the C array index, an integer, so that an access at `-1` is visible.
`ext n` is a pad that is not held in the two arrays (the `peer` argument: a
ghost pad proxy or a pad of a wire). -/
inductive Pad where
  | src (i : Int)
  | sink (i : Int)
  | ext (n : Nat)
  deriving DecidableEq, Repr

/-- One call into the pad API, as recorded in the machine's call log. -/
inductive PadOp where
  | link (s k : Pad)
  | unlink (s k : Pad)
  deriving DecidableEq, Repr

/-- The class of a machine: `BT_IS_SOURCE_MACHINE`, `BT_IS_PROCESSOR_MACHINE`,
`BT_IS_SINK_MACHINE`. -/
inductive BtMachineKind where
  | source
  | processor
  | sink
  deriving DecidableEq, Repr

/-- The part of `BtMachine` / `BtMachinePrivate` the chain code reads and
writes. `machines i` is `machines[i] != NULL`; `links` holds the pad links
`(src, sink)` that currently exist; `dst_wires` / `src_wires` say whether the
lists of that name are non-empty; `nlink` counts the `gst_pad_link` calls made
so far and `log` records every `gst_pad_link` / `gst_pad_unlink` call with the
pads it was given. -/
structure Machine where
  kind : BtMachineKind
  machines : Nat → Bool
  links : List (Pad × Pad)
  dst_wires : Bool
  src_wires : Bool
  nlink : Nat
  log : List PadOp

/-- What the code asks of its collaborators. `link_ok n` is whether the `n`-th
`gst_pad_link` call returns `GST_PAD_LINK_OK` (the outcome is given from
outside, so a property proved for every `link_ok` holds for every outcome the
pad library can produce); `factory_ok part` is whether
`gst_element_factory_make` returns an element for that part;
`wire_reconnect` is `bt_wire_reconnect` (in `wire.c`), given as its result and
its effect on the link set; `adder_has_caps` is whether the adder class has a
`caps` property; `can_intersect` is whether `bt_default_caps` intersects the pad
template caps of `sink_pads[PART_MACHINE]`. -/
structure Env where
  link_ok : Nat → Bool
  factory_ok : Nat → Bool
  wire_reconnect : List (Pad × Pad) → Bool × List (Pad × Pad)
  adder_has_caps : Bool
  can_intersect : Bool

/-- Assignment `machines[part] = value`. -/
def set_part (machines : Nat → Bool) (part : Nat) (value : Bool) : Nat → Bool :=
  fun i => if i = part then value else machines i

/-- Call gst_pad_unlink(src, sink): the link between the two pads, if there is
one, is removed; nothing else changes. -/
def gst_pad_unlink (self : Machine) (src sink : Pad) : Machine :=
  { self with
    links := self.links.filter (fun l => decide (l ≠ (src, sink)))
    log := self.log ++ [PadOp.unlink src sink] }

/-- Function bt_machine_link_elements, that is gst_pad_link(src, sink): `TRUE` and the link
exists when the call returns `GST_PAD_LINK_OK`, `FALSE` and no new link
otherwise. -/
def bt_machine_link_elements (env : Env) (self : Machine) (src sink : Pad) :
    Bool × Machine :=
  if env.link_ok self.nlink then
    (true, { self with
      links := self.links ++ [(src, sink)]
      nlink := self.nlink + 1
      log := self.log ++ [PadOp.link src sink] })
  else
    (false, { self with
      nlink := self.nlink + 1
      log := self.log ++ [PadOp.link src sink] })

/-- Result of gst_pad_get_peer on a sink pad: the pad linked to it, or `NULL`. -/
def peer_of_sink (self : Machine) (sink : Pad) : Option Pad :=
  (self.links.find? (fun l => decide (l.2 = sink))).map Prod.fst

/-- Result of gst_pad_get_peer on a src pad: the pad linked to it, or `NULL`. -/
def peer_of_src (self : Machine) (src : Pad) : Option Pad :=
  (self.links.find? (fun l => decide (l.1 = src))).map Prod.snd

/-- The loop `for(i=pos-1;i>-1;i--) if(machines[i]) { pre=i; break; }` with
`pre` starting at `-1`; the argument counts the indices still to visit, so
`scan_pre machines pos` is the loop of `bt_machine_insert_element`. -/
def scan_pre (machines : Nat → Bool) : Nat → Int
  | 0 => -1
  | i + 1 => if machines i then (i : Int) else scan_pre machines i

/-- The loop `for(i=...;i<PART_COUNT;i++) if(machines[i]) { post=i; break; }`
with `post` starting at `-1`: `i` is the current index and the last argument
the number of indices still to visit. -/
def scan_post (machines : Nat → Bool) (i : Nat) : Nat → Int
  | 0 => -1
  | n + 1 => if machines i then (i : Int) else scan_post machines (i + 1) n

/-- An upward loop `for(i=...;i<=PART_MACHINE;i++) if(machines[i]) { tix=i; break; }`
with `tix` starting at `PART_MACHINE`. -/
def scan_tix_up (machines : Nat → Bool) (i : Nat) : Nat → Nat
  | 0 => PART_MACHINE
  | n + 1 => if machines i then i else scan_tix_up machines (i + 1) n

/-- A downward loop `for(i=...;i>=PART_MACHINE;i--) if(machines[i]) { tix=i; break; }`
with `tix` starting at `PART_MACHINE`: the second argument is the number of
indices still to visit, the indices being `PART_MACHINE + n - 1` down to
`PART_MACHINE`. -/
def scan_tix_down (machines : Nat → Bool) : Nat → Nat
  | 0 => PART_MACHINE
  | n + 1 => if machines (PART_MACHINE + n) then PART_MACHINE + n
      else scan_tix_down machines n

/-- Function bt_machine_insert_element(self, peer, pos). The result is the return
value and the machine afterwards. -/
def bt_machine_insert_element (env : Env) (self : Machine) (peer : Pad) (pos : Nat) :
    Bool × Machine :=
  let pre : Int := scan_pre self.machines pos
  let post : Int := scan_post self.machines (pos + 1) (PART_COUNT - (pos + 1))
  if pre ≠ -1 ∧ post ≠ -1 then
    let s0 := gst_pad_unlink self (Pad.src pre) (Pad.sink post)
    let l1 := bt_machine_link_elements env s0 (Pad.src pre) (Pad.sink pos)
    let l2 := bt_machine_link_elements env l1.2 (Pad.src pos) (Pad.sink post)
    let res := l1.1 && l2.1
    if !res then
      let s1 := gst_pad_unlink l2.2 (Pad.src pre) (Pad.sink pos)
      let s2 := gst_pad_unlink s1 (Pad.src pos) (Pad.sink post)
      (res, (bt_machine_link_elements env s2 (Pad.src pre) (Pad.sink post)).2)
    else (res, l2.2)
  else if pre = -1 then
    let s0 := gst_pad_unlink self peer (Pad.sink post)
    let l1 := bt_machine_link_elements env s0 peer (Pad.sink pos)
    let l2 := bt_machine_link_elements env l1.2 (Pad.src pos) (Pad.sink post)
    let res := l1.1 && l2.1
    if !res then
      let s1 := gst_pad_unlink l2.2 peer (Pad.sink pos)
      let s2 := gst_pad_unlink s1 (Pad.src pos) (Pad.sink post)
      let l3 := bt_machine_link_elements env s2 (Pad.src pos) (Pad.sink post)
      if l3.1 then
        if l3.2.dst_wires then
          let w := env.wire_reconnect l3.2.links
          (w.1, { l3.2 with links := w.2 })
        else (l3.1, l3.2)
      else (l3.1, l3.2)
    else (res, l2.2)
  else if post = -1 then
    let s0 := gst_pad_unlink self (Pad.src pre) peer
    let l1 := bt_machine_link_elements env s0 (Pad.src pre) (Pad.sink pos)
    let l2 := bt_machine_link_elements env l1.2 (Pad.src pos) peer
    let res := l1.1 && l2.1
    if !res then
      let s1 := gst_pad_unlink l2.2 (Pad.src pre) (Pad.sink pos)
      let s2 := gst_pad_unlink s1 (Pad.src pos) peer
      let l3 := bt_machine_link_elements env s2 (Pad.src pre) (Pad.sink pos)
      if l3.1 then
        if l3.2.src_wires then
          let w := env.wire_reconnect l3.2.links
          (w.1, { l3.2 with links := w.2 })
        else (l3.1, l3.2)
      else (l3.1, l3.2)
    else (res, l2.2)
  else
    (false, self)

/-- Function bt_machine_make_internal_element: the element is made from its factory
and stored in `machines[part]` (`NULL`, and `FALSE`, when the factory gives
none); its pads are taken into `src_pads[part]` / `sink_pads[part]`. -/
def bt_machine_make_internal_element (env : Env) (self : Machine) (part : Nat) :
    Bool × Machine :=
  if env.factory_ok part then
    (true, { self with machines := set_part self.machines part true })
  else
    (false, { self with machines := set_part self.machines part false })

/-- Function bt_machine_add_input_element. -/
def bt_machine_add_input_element (env : Env) (self : Machine) (part : Nat) :
    Bool × Machine :=
  let tix := scan_tix_up self.machines (part + 1) (PART_MACHINE + 1 - (part + 1))
  match peer_of_sink self (Pad.sink tix) with
  | none => bt_machine_link_elements env self (Pad.src part) (Pad.sink tix)
  | some peer => bt_machine_insert_element env self peer part

/-- Function bt_machine_add_output_element (called with `part >= PART_MACHINE`). -/
def bt_machine_add_output_element (env : Env) (self : Machine) (part : Nat) :
    Bool × Machine :=
  let tix := scan_tix_down self.machines (part - PART_MACHINE)
  match peer_of_src self (Pad.src tix) with
  | none => bt_machine_link_elements env self (Pad.src tix) (Pad.sink part)
  | some peer => bt_machine_insert_element env self peer part

/-- Function bt_machine_enable_part. The `g_object_set` of the level properties does
not touch the chain and is left out. -/
def bt_machine_enable_part (env : Env) (self : Machine) (part : Nat) : Bool × Machine :=
  if self.machines part then (true, self)
  else
    let mk := bt_machine_make_internal_element env self part
    if !mk.1 then (false, mk.2)
    else if part < PART_MACHINE then bt_machine_add_input_element env mk.2 part
    else bt_machine_add_output_element env mk.2 part

/-- Function bt_machine_enable_input_pre_level, with its `g_return_val_if_fail`
guard on the machine class. -/
def bt_machine_enable_input_pre_level (env : Env) (self : Machine) : Bool × Machine :=
  if self.kind = BtMachineKind.source then (false, self)
  else bt_machine_enable_part env self PART_INPUT_PRE_LEVEL

/-- Function bt_machine_enable_input_post_level. -/
def bt_machine_enable_input_post_level (env : Env) (self : Machine) : Bool × Machine :=
  if self.kind = BtMachineKind.source then (false, self)
  else bt_machine_enable_part env self PART_INPUT_POST_LEVEL

/-- Function bt_machine_enable_output_pre_level. -/
def bt_machine_enable_output_pre_level (env : Env) (self : Machine) : Bool × Machine :=
  if self.kind = BtMachineKind.sink then (false, self)
  else bt_machine_enable_part env self PART_OUTPUT_PRE_LEVEL

/-- Function bt_machine_enable_output_post_level. -/
def bt_machine_enable_output_post_level (env : Env) (self : Machine) : Bool × Machine :=
  if self.kind = BtMachineKind.sink then (false, self)
  else bt_machine_enable_part env self PART_OUTPUT_POST_LEVEL

/-- Function bt_machine_enable_input_gain. -/
def bt_machine_enable_input_gain (env : Env) (self : Machine) : Bool × Machine :=
  if self.kind = BtMachineKind.source then (false, self)
  else bt_machine_enable_part env self PART_INPUT_GAIN

/-- Function bt_machine_enable_output_gain. -/
def bt_machine_enable_output_gain (env : Env) (self : Machine) : Bool × Machine :=
  if self.kind = BtMachineKind.sink then (false, self)
  else bt_machine_enable_part env self PART_OUTPUT_GAIN

/-- Function bt_machine_activate_adder. The `g_object_set` calls (caps,
dithering) do not touch the chain and are left out; `skip_convert` is computed
as in the source: `FALSE` for a sink machine, the caps intersection test
otherwise. -/
def bt_machine_activate_adder (env : Env) (self : Machine) : Bool × Machine :=
  if self.kind = BtMachineKind.source then (false, self)
  else if !self.machines PART_ADDER then
    let tix := scan_tix_up self.machines PART_INPUT_PRE_LEVEL
      (PART_MACHINE + 1 - PART_INPUT_PRE_LEVEL)
    let a := bt_machine_make_internal_element env self PART_ADDER
    if !a.1 then (false, a.2)
    else
      let c := if !env.adder_has_caps then
          bt_machine_make_internal_element env a.2 PART_CAPS_FILTER
        else (true, a.2)
      if !c.1 then (false, c.2)
      else
        let skip_convert :=
          if self.kind ≠ BtMachineKind.sink then env.can_intersect else false
        if skip_convert then
          if !c.2.machines PART_CAPS_FILTER then
            bt_machine_link_elements env c.2 (Pad.src PART_ADDER) (Pad.sink tix)
          else
            let l1 := bt_machine_link_elements env c.2
              (Pad.src PART_ADDER) (Pad.sink PART_CAPS_FILTER)
            let l2 := bt_machine_link_elements env l1.2
              (Pad.src PART_CAPS_FILTER) (Pad.sink tix)
            if !(l1.1 && l2.1) then
              let s1 := gst_pad_unlink l2.2 (Pad.src PART_ADDER) (Pad.sink PART_CAPS_FILTER)
              (false, gst_pad_unlink s1 (Pad.src PART_CAPS_FILTER) (Pad.sink tix))
            else (true, l2.2)
        else
          let v := bt_machine_make_internal_element env c.2 PART_ADDER_CONVERT
          if !v.1 then (false, v.2)
          else if !v.2.machines PART_CAPS_FILTER then
            let l1 := bt_machine_link_elements env v.2
              (Pad.src PART_ADDER) (Pad.sink PART_ADDER_CONVERT)
            let l2 := bt_machine_link_elements env l1.2
              (Pad.src PART_ADDER_CONVERT) (Pad.sink tix)
            if !(l1.1 && l2.1) then
              let s1 := gst_pad_unlink l2.2
                (Pad.src PART_ADDER) (Pad.sink PART_ADDER_CONVERT)
              (false, gst_pad_unlink s1 (Pad.src PART_ADDER_CONVERT) (Pad.sink tix))
            else (true, l2.2)
          else
            let l1 := bt_machine_link_elements env v.2
              (Pad.src PART_ADDER) (Pad.sink PART_CAPS_FILTER)
            let l2 := bt_machine_link_elements env l1.2
              (Pad.src PART_CAPS_FILTER) (Pad.sink PART_ADDER_CONVERT)
            let l3 := bt_machine_link_elements env l2.2
              (Pad.src PART_ADDER_CONVERT) (Pad.sink tix)
            if !(l1.1 && l2.1 && l3.1) then
              let s1 := gst_pad_unlink l3.2 (Pad.src PART_ADDER) (Pad.sink PART_CAPS_FILTER)
              let s2 := gst_pad_unlink s1
                (Pad.src PART_CAPS_FILTER) (Pad.sink PART_ADDER_CONVERT)
              (false, gst_pad_unlink s2 (Pad.src PART_ADDER_CONVERT) (Pad.sink tix))
            else (true, l3.2)
  else (true, self)

/-- Function bt_machine_activate_spreader. -/
def bt_machine_activate_spreader (env : Env) (self : Machine) : Bool × Machine :=
  if self.kind = BtMachineKind.sink then (false, self)
  else if !self.machines PART_SPREADER then
    let tix := scan_tix_down self.machines (PART_OUTPUT_POST_LEVEL + 1 - PART_MACHINE)
    let t := bt_machine_make_internal_element env self PART_SPREADER
    if !t.1 then (false, t.2)
    else bt_machine_link_elements env t.2 (Pad.src tix) (Pad.sink PART_SPREADER)
  else (true, self)

/-- The public calls that change the chain. -/
inductive Call where
  | enable_input_pre_level
  | enable_input_gain
  | enable_input_post_level
  | enable_output_pre_level
  | enable_output_gain
  | enable_output_post_level
  | activate_adder
  | activate_spreader
  deriving DecidableEq, Repr

/-- One call on a machine. -/
def Call.apply (env : Env) (self : Machine) : Call → Bool × Machine
  | Call.enable_input_pre_level => bt_machine_enable_input_pre_level env self
  | Call.enable_input_gain => bt_machine_enable_input_gain env self
  | Call.enable_input_post_level => bt_machine_enable_input_post_level env self
  | Call.enable_output_pre_level => bt_machine_enable_output_pre_level env self
  | Call.enable_output_gain => bt_machine_enable_output_gain env self
  | Call.enable_output_post_level => bt_machine_enable_output_post_level env self
  | Call.activate_adder => bt_machine_activate_adder env self
  | Call.activate_spreader => bt_machine_activate_spreader env self

/-- A finite sequence of calls, one after the other; the return values are
dropped. -/
def run_calls (env : Env) (self : Machine) : List Call → Machine
  | [] => self
  | c :: cs => run_calls env (c.apply env self).2 cs

/-- Whether a pad is outside the machine's two pad arrays. -/
def Pad.is_ext : Pad → Bool
  | Pad.ext _ => true
  | _ => false

/-- Slot `j` is the next present slot after the present slot `i`, in slot
order. -/
def NextPresent (machines : Nat → Bool) (i j : Nat) : Prop :=
  i < j ∧ j < PART_COUNT ∧ machines i = true ∧ machines j = true ∧
    ∀ k, i < k → k < j → machines k = false

/-- The present slots form one linear chain: the src pad of each present slot
is linked to the sink pad of the next present slot, and every link between two
pads of the machine's pad arrays (every link that involves no external pad) is
such a link. -/
def Chain (machines : Nat → Bool) (links : List (Pad × Pad)) : Prop :=
  (∀ i j, NextPresent machines i j → (Pad.src i, Pad.sink j) ∈ links) ∧
  (∀ p q, (p, q) ∈ links → p.is_ext = true ∨ q.is_ext = true ∨
    ∃ i j, NextPresent machines i j ∧ p = Pad.src i ∧ q = Pad.sink j)

/-- The chain property of a machine. -/
def LinearChain (self : Machine) : Prop := Chain self.machines self.links

/-- A machine as the constructor and `bt_machine_activate_adder` leave it: the
unit is present, and the capsfilter and the adder's converter are absent as
long as the adder is absent. -/
def Constructed (self : Machine) : Prop :=
  self.machines PART_MACHINE = true ∧
  (self.machines PART_ADDER = false →
    self.machines PART_CAPS_FILTER = false ∧ self.machines PART_ADDER_CONVERT = false)

/-- The invariant of the element chain that the calls preserve when every
element is made and every link succeeds. -/
def ChainInv (self : Machine) : Prop := Constructed self ∧ LinearChain self

/-- Whether a pad expression stays inside the two pad arrays: an index within
`0..PART_COUNT-1`, or a pad that is not taken from the arrays. -/
def Pad.in_range : Pad → Bool
  | Pad.src i => decide (0 ≤ i) && decide (i < (PART_COUNT : Int))
  | Pad.sink i => decide (0 ≤ i) && decide (i < (PART_COUNT : Int))
  | Pad.ext _ => true

/-- Whether both pads of a call into the pad API stay inside the pad arrays. -/
def PadOp.in_range : PadOp → Bool
  | PadOp.link s k => s.in_range && k.in_range
  | PadOp.unlink s k => s.in_range && k.in_range

/-- Whether a pad is a pad of an element that exists: `src_pads[i]` and
`sink_pads[i]` are set by `bt_machine_make_internal_element` together with
`machines[i]` and are NULL before. -/
def Pad.present (machines : Nat → Bool) : Pad → Bool
  | Pad.src i => decide (0 ≤ i) && decide (i < (PART_COUNT : Int)) && machines i.toNat
  | Pad.sink i => decide (0 ≤ i) && decide (i < (PART_COUNT : Int)) && machines i.toNat
  | Pad.ext _ => true

/-- Every link of the list joins two pads that exist. -/
def LinksPresent (machines : Nat → Bool) (links : List (Pad × Pad)) : Prop :=
  ∀ l ∈ links, Pad.present machines l.1 = true ∧ Pad.present machines l.2 = true

/-- Every link of the machine joins two pads that exist: a pad of the pad
arrays that is linked belongs to a slot that is present. -/
def PadsPresent (self : Machine) : Prop := LinksPresent self.machines self.links

/-- The function `bt_wire_reconnect` leaves only links between pads that
exist. -/
def WireKeepsPads (env : Env) : Prop :=
  ∀ machines links, LinksPresent machines links →
    LinksPresent machines (env.wire_reconnect links).2

/-! ## The playback state -/

/-- The enum BtMachineState. -/
inductive BtMachineState where
  | normal
  | mute
  | solo
  | bypass
  deriving DecidableEq, Repr

/-- The part of a machine the state code reads and writes. `input_gain` and
`output_gain` are `machines[PART_INPUT_GAIN]` and `machines[PART_OUTPUT_GAIN]`:
`none` for `NULL`, `some b` for an element whose `mute` property is `b`.
`base_transform` is `GST_IS_BASE_TRANSFORM(machines[PART_MACHINE])` and
`passthrough` the passthrough flag of that element. -/
structure SongMachine where
  kind : BtMachineKind
  state : BtMachineState
  input_gain : Option Bool
  output_gain : Option Bool
  base_transform : Bool
  passthrough : Bool
  deriving DecidableEq, Repr

/-- The machines of the song's setup, in the order of the setup's list. A
machine pointer is a position in this list. -/
abbrev Setup := List SongMachine

/-- The mute property of the gain element `bt_machine_set_mute` and
`bt_machine_unset_mute` act on: the input gain of a sink machine, the output
gain of any other machine; `none` when that element is `NULL`. -/
def SongMachine.mute_flag (m : SongMachine) : Option Bool :=
  if m.kind = BtMachineKind.sink then m.input_gain else m.output_gain

/-- The body shared by `bt_machine_set_mute` (`value = TRUE`) and
`bt_machine_unset_mute` (`value = FALSE`) on one machine: the part is chosen by
the machine class, and its `mute` property is set if the element exists. -/
def SongMachine.write_mute (m : SongMachine) (value : Bool) : Bool × SongMachine :=
  if m.kind = BtMachineKind.sink then
    match m.input_gain with
    | some _ => (true, { m with input_gain := some value })
    | none => (false, m)
  else
    match m.output_gain with
    | some _ => (true, { m with output_gain := some value })
    | none => (false, m)

/-- Function bt_machine_set_mute on the machine at position `self`. -/
def bt_machine_set_mute (g : Setup) (self : Nat) : Bool × Setup :=
  match g[self]? with
  | none => (false, g)
  | some m => ((m.write_mute true).1, g.set self (m.write_mute true).2)

/-- Function bt_machine_unset_mute on the machine at position `self`. -/
def bt_machine_unset_mute (g : Setup) (self : Nat) : Bool × Setup :=
  match g[self]? with
  | none => (false, g)
  | some m => ((m.write_mute false).1, g.set self (m.write_mute false).2)

/-- Assignment `machine->priv->state = value` on the machine at position
`machine`. -/
def set_state (g : Setup) (machine : Nat) (value : BtMachineState) : Setup :=
  match g[machine]? with
  | some m => g.set machine { m with state := value }
  | none => g

/-- Modelled from the spec: `bt_setup_get_machines_by_type(setup,
BT_TYPE_SOURCE_MACHINE)` of `setup.c`, which resolves the sibling machines by
type: the positions of the source machines, in list order. -/
def bt_setup_get_source_machines (g : Setup) : List Nat :=
  (List.range g.length).filter
    (fun i => decide ((g[i]?).map SongMachine.kind = some BtMachineKind.source))

/-- The loop of the `BT_MACHINE_STATE_SOLO` case of the first switch of
`bt_machine_change_state`: every listed machine but `self` is unmuted. The
pair is `res` and the setup. -/
def solo_leave_loop (self : Nat) : List Nat → Bool × Setup → Bool × Setup
  | [], st => st
  | machine :: node, st =>
    if machine ≠ self then
      let u := bt_machine_unset_mute st.2 machine
      solo_leave_loop self node (if !u.1 then false else st.1, u.2)
    else solo_leave_loop self node st

/-- The body of the loop of the `BT_MACHINE_STATE_SOLO` case of the second
switch of `bt_machine_change_state`, for one listed machine: a machine other
than `self` is muted, and when it is Solo it is first set to Normal and `self`
is unmuted. The pair is `res` and the setup. -/
def solo_enter_body (self machine : Nat) (st : Bool × Setup) : Bool × Setup :=
  if machine ≠ self then
    let a : Bool × Setup :=
      if (st.2[machine]?).map SongMachine.state = some BtMachineState.solo then
        let g1 := set_state st.2 machine BtMachineState.normal
        let u := bt_machine_unset_mute g1 self
        (if !u.1 then false else st.1, u.2)
      else st
    let b := bt_machine_set_mute a.2 machine
    (if !b.1 then false else a.1, b.2)
  else st

/-- The loop of the `BT_MACHINE_STATE_SOLO` case of the second switch of
`bt_machine_change_state` over the listed machines. -/
def solo_enter_loop (self : Nat) : List Nat → Bool × Setup → Bool × Setup
  | [], st => st
  | machine :: node, st => solo_enter_loop self node (solo_enter_body self machine st)

/-- The `BT_MACHINE_STATE_BYPASS` cases: the passthrough flag of the unit is
written when it is a base transform. -/
def set_passthrough (g : Setup) (self : Nat) (value : Bool) : Setup :=
  match g[self]? with
  | some m => if m.base_transform then g.set self { m with passthrough := value } else g
  | none => g

/-- The first switch of `bt_machine_change_state`: return to normal state. -/
def leave_state (g : Setup) (self : Nat) (res : Bool) : BtMachineState → Bool × Setup
  | BtMachineState.mute =>
    let u := bt_machine_unset_mute g self
    (if !u.1 then false else res, u.2)
  | BtMachineState.solo =>
    solo_leave_loop self (bt_setup_get_source_machines g) (res, g)
  | BtMachineState.bypass => (res, set_passthrough g self false)
  | BtMachineState.normal => (res, g)

/-- The second switch of `bt_machine_change_state`: set to new state. -/
def enter_state (g : Setup) (self : Nat) (res : Bool) : BtMachineState → Bool × Setup
  | BtMachineState.mute =>
    let u := bt_machine_set_mute g self
    (if !u.1 then false else res, u.2)
  | BtMachineState.solo =>
    solo_enter_loop self (bt_setup_get_source_machines g) (res, g)
  | BtMachineState.bypass => (res, set_passthrough g self true)
  | BtMachineState.normal => (res, g)

/-- Function bt_machine_change_state on the machine at position `self` of the
setup. The result is the return value and the setup afterwards. -/
def bt_machine_change_state (g : Setup) (self : Nat) (new_state : BtMachineState) :
    Bool × Setup :=
  match g[self]? with
  | none => (false, g)
  | some m =>
    if new_state = BtMachineState.bypass ∧ m.kind ≠ BtMachineKind.processor then (false, g)
    else if new_state = BtMachineState.solo ∧ m.kind = BtMachineKind.sink then (false, g)
    else if m.state = new_state then (true, g)
    else
      let r1 := leave_state g self true m.state
      let r2 := enter_state r1.2 self r1.1 new_state
      (r2.1, set_state r2.2 self new_state)

/-- The machine after `bt_machine_set_mute`. -/
def SongMachine.muted (m : SongMachine) : SongMachine := (m.write_mute true).2

/-- The machine after `bt_machine_unset_mute`. -/
def SongMachine.unmuted (m : SongMachine) : SongMachine := (m.write_mute false).2

/-- The machine after the Solo loop has reset its state: Normal if it was Solo,
unchanged otherwise. -/
def SongMachine.unsolo (m : SongMachine) : SongMachine :=
  if m.state = BtMachineState.solo then { m with state := BtMachineState.normal } else m

/-- Whether one of the listed machines other than `self` is in state Solo. -/
def other_solo (g : Setup) (self : Nat) (ms : List Nat) : Bool :=
  ms.any (fun j => decide (j ≠ self) &&
    decide ((g[j]?).map SongMachine.state = some BtMachineState.solo))

/-- What the first switch of `bt_machine_change_state` does to the machine
itself when its state is not Solo: unmuted when Mute, passthrough cleared when
Bypass on a base transform, unchanged when Normal. -/
def SongMachine.left (m : SongMachine) : SongMachine :=
  match m.state with
  | BtMachineState.mute => m.unmuted
  | BtMachineState.bypass => if m.base_transform then { m with passthrough := false } else m
  | _ => m

/-- A source machine with an output gain element, in the given state and with
the given mute flag. -/
def source_machine (state : BtMachineState) (mute : Bool) : SongMachine :=
  { kind := BtMachineKind.source, state := state, input_gain := none,
    output_gain := some mute, base_transform := false, passthrough := false }

/-- A sink machine with an input gain element, in state Normal, not muted. -/
def sink_machine : SongMachine :=
  { kind := BtMachineKind.sink, state := BtMachineState.normal, input_gain := some false,
    output_gain := none, base_transform := false, passthrough := false }

/-! ## Concrete machines and environments -/

/-- An environment with the given `gst_pad_link` outcomes in which every
factory makes its element, the wire reconnects and leaves the links as they
are, the adder has a `caps` property and the caps intersect. -/
def env_with_links (link_ok : Nat → Bool) : Env :=
  { link_ok := link_ok, factory_ok := fun _ => true,
    wire_reconnect := fun l => (true, l), adder_has_caps := true, can_intersect := true }

/-- Every `gst_pad_link` call succeeds. -/
def env_all_ok : Env := env_with_links (fun _ => true)

/-- A processor machine as constructed: only the unit, no link, no wire. -/
def unit_only : Machine :=
  { kind := BtMachineKind.processor, machines := fun i => decide (i = PART_MACHINE),
    links := [], dst_wires := false, src_wires := false, nlink := 0, log := [] }

/-- A processor machine with only the unit, whose sink pad is linked to the
pad `ext 0` of an incoming wire. -/
def unit_wired_in : Machine :=
  { unit_only with links := [(Pad.ext 0, Pad.sink PART_MACHINE)], dst_wires := true }

/-- A processor machine with the unit and the output gain, linked to each
other. -/
def unit_with_output_gain : Machine :=
  { unit_only with
    machines := fun i => decide (i = PART_MACHINE) || decide (i = PART_OUTPUT_GAIN)
    links := [(Pad.src PART_MACHINE, Pad.sink PART_OUTPUT_GAIN)] }

/-- A sink machine as constructed: only the unit, no link, no wire. -/
def sink_unit_only : Machine := { unit_only with kind := BtMachineKind.sink }

/-! ## Voices and automation -/

/-- A parameter value (`GValue`) of the parameter's type, as an integer. -/
abbrev GValue := Int

/-- A stream time (`GstClockTime`, 64 bit unsigned). -/
abbrev GstClockTime := Nat

/-- The invalid stream time, `(GstClockTime)-1`, that is 2^64 - 1. -/
def GST_CLOCK_TIME_NONE : GstClockTime := 18446744073709551615

/-- The control points of a `GstInterpolationControlSource`, ordered by
timestamp, at most one per timestamp. -/
abbrev ControlSource := List (GstClockTime × GValue)

/-- Puts the control point `(t, v)` in front of the first point that is not
earlier. -/
def cs_insert (t : GstClockTime) (v : GValue) : ControlSource → ControlSource
  | [] => [(t, v)]
  | p :: rest => if t ≤ p.1 then (t, v) :: p :: rest else p :: cs_insert t v rest

/-- The library call `gst_interpolation_control_source_set`: it refuses an
invalid timestamp and a value that is not an initialised `GValue` (here
`none`); otherwise the control point at the timestamp is replaced or added.
Values are taken to have the type of the controlled property. -/
def gst_interpolation_control_source_set (cs : ControlSource) (timestamp : GstClockTime)
    (value : Option GValue) : ControlSource :=
  match value with
  | none => cs
  | some v =>
    if timestamp = GST_CLOCK_TIME_NONE then cs
    else cs_insert timestamp v (cs.filter (fun p => p.1 ≠ timestamp))

/-- The library call `gst_interpolation_control_source_unset`: removes the
control point at the timestamp, if there is one. -/
def gst_interpolation_control_source_unset (cs : ControlSource) (timestamp : GstClockTime) :
    ControlSource :=
  if timestamp = GST_CLOCK_TIME_NONE then cs else cs.filter (fun p => p.1 ≠ timestamp)

/-- The library call `gst_interpolation_control_source_get_count`. -/
def gst_interpolation_control_source_get_count (cs : ControlSource) : Int := cs.length

/-- The base type of a property value, as `bt_g_type_get_base_type` gives it;
`other` stands for every type the parameter code does not name. -/
inductive GType where
  | boolean | int | uint | float | double | enum | string | other
  deriving DecidableEq

/-- What the parameter code reads from the `GParamSpec` of a property. -/
structure GParamSpec where
  name : String
  /-- The test `flags & GST_PARAM_CONTROLLABLE`. -/
  controllable : Bool
  /-- The test `flags & G_PARAM_READABLE`. -/
  readable : Bool
  value_type : GType
  /-- The data stored under `gstbt_property_meta_quark` is not NULL. -/
  has_meta : Bool
  /-- The `GSTBT_PROPERTY_META_STATE` bit of the flags stored under
  `gstbt_property_meta_quark_flags`. -/
  meta_state : Bool
  /-- The data stored under `gstbt_property_meta_quark_no_val`, as an
  integer; 0 is NULL. -/
  meta_no_val : Int
  /-- The default value of the property. -/
  default_value : GValue
  deriving DecidableEq

/-- What the libraries answer to the parameter code. -/
structure GstEnv where
  /-- The result of `gst_object_control_properties` on the unit for the global
  parameter with the given index: the controller, or `none` for NULL. A control
  source attached to the controller accepts values of the property. -/
  global_control : Nat → Option Nat
  /-- The same on the voice child with the given voice index, for the voice
  parameter with the given index. -/
  voice_control : Nat → Nat → Option Nat
  /-- Whether `gst_child_proxy_get_child_by_index` finds the voice child. -/
  voice_child : Nat → Bool
  /-- The content of the entry with the given index that `g_renew` adds to
  `voice_controllers` (the memory is not initialised). -/
  renew_controller : Nat → Option Nat
  /-- The content of the entry with the given index that `g_renew` adds to
  `voice_control_sources`. -/
  renew_control_source : Nat → Option ControlSource

/-- The part of `BtMachinePrivate` the voice and automation code works on,
with the state of the unit and of the song it reads and writes. A `none`
entry of an array is a NULL pointer; the arrays are lists whose length is the
allocated number of entries. -/
structure ParamMachine where
  /-- The test `GSTBT_IS_CHILD_BIN(machines[PART_MACHINE])`: the unit is there and is
  polyphonic. -/
  child_bin : Bool
  voices : Nat
  global_params : Nat
  voice_params : Nat
  /-- The entries of `global_props` that hold a property, in index order. -/
  global_props : List GParamSpec
  /-- The entries of `voice_props` that hold a property, in index order. -/
  voice_props : List GParamSpec
  /-- The test `global_flags[i] & GSTBT_PROPERTY_META_STATE`. -/
  global_state : Nat → Bool
  /-- The test `voice_flags[i] & GSTBT_PROPERTY_META_STATE`. -/
  voice_state : Nat → Bool
  /-- The value `global_no_val[i]`, or `none` when it is not an initialised value. -/
  global_no_val : Nat → Option GValue
  /-- The value `voice_no_val[i]`, or `none` when it is not an initialised value. -/
  voice_no_val : Nat → Option GValue
  global_controller : Option Nat
  voice_controllers : List (Option Nat)
  global_control_sources : List (Option ControlSource)
  voice_control_sources : List (Option ControlSource)
  /-- The default-is-synthetic flag of a global parameter: the data stored on
  the unit under `global_quarks[i]`. -/
  global_default : Nat → Bool
  /-- The default-is-synthetic flag of a voice parameter: the data stored on
  the voice child under `voice_quarks[i]`, by voice and parameter. -/
  voice_default : Nat → Nat → Bool
  /-- The live value of the unit's property for a global parameter. -/
  global_value : Nat → GValue
  /-- The live value of a voice child's property, by voice and parameter. -/
  voice_value : Nat → Nat → GValue
  /-- The `children` property of the unit. -/
  children : Nat
  /-- The `voices` property of each pattern of the machine. -/
  patterns : List Nat
  /-- The unsaved flag of the song. -/
  unsaved : Bool

/-- The memory block `xs` resized to `n` entries by `g_renew`: the entries
that stay keep their content, an added entry with index `i` holds
`fresh i`. -/
def g_renew {α : Type} (fresh : Nat → α) (xs : List α) (n : Nat) : List α :=
  xs.take n ++ (List.range (n - xs.length)).map (fun i => fresh (xs.length + i))

/-- The loop `for(j=lo;...;j++) xs[j]=NULL` with `count` rounds. -/
def clear_entries {α : Type} (xs : List (Option α)) (lo : Nat) : Nat → List (Option α)
  | 0 => xs
  | count + 1 => clear_entries (xs.set lo none) (lo + 1) count

/-- The function `bt_machine_resize_pattern_voices`. -/
def bt_machine_resize_pattern_voices (self : ParamMachine) : ParamMachine :=
  { self with patterns := self.patterns.map (fun _ => self.voices) }

/-- The function `bt_machine_resize_voices`; `voices` is the previous number
of voices, `self.voices` the new one. Reference counts are not modelled, so
the loop that releases the controllers of the voices that go away changes
nothing here. The numbers of voices and entries are taken to fit the 32 bit
counter of the second loop. -/
def bt_machine_resize_voices (env : GstEnv) (self : ParamMachine) (voices : Nat) :
    ParamMachine :=
  if !self.child_bin then self
  else
    let s1 := { self with children := self.voices }
    let s2 := { s1 with
      voice_controllers := g_renew env.renew_controller s1.voice_controllers s1.voices
      voice_control_sources :=
        g_renew env.renew_control_source s1.voice_control_sources
          (s1.voices * s1.voice_params) }
    if voices < s2.voices then
      { s2 with
        voice_controllers := clear_entries s2.voice_controllers voices (s2.voices - voices)
        voice_control_sources :=
          clear_entries s2.voice_control_sources (voices * s2.voice_params)
            (s2.voices * s2.voice_params - voices * s2.voice_params) }
    else s2

/-- The case `MACHINE_VOICES` of `bt_machine_set_property`. -/
def bt_machine_set_property_voices (env : GstEnv) (self : ParamMachine) (value : Nat) :
    ParamMachine :=
  let voices := self.voices
  let s := { self with voices := value }
  if s.child_bin then
    if voices ≠ s.voices then
      { bt_machine_resize_pattern_voices (bt_machine_resize_voices env s voices) with
        unsaved := true }
    else s
  else s

/-- The function `bt_machine_is_global_param_trigger`. -/
def bt_machine_is_global_param_trigger (self : ParamMachine) (index : Nat) : Bool :=
  if index < self.global_params then !self.global_state index else false

/-- The function `bt_machine_is_voice_param_trigger`. -/
def bt_machine_is_voice_param_trigger (self : ParamMachine) (index : Nat) : Bool :=
  if index < self.voice_params then !self.voice_state index else false

/-- The function `bt_machine_has_global_param_default_set`. -/
def bt_machine_has_global_param_default_set (self : ParamMachine) (index : Nat) : Bool :=
  self.global_default index

/-- The function `bt_machine_has_voice_param_default_set`. -/
def bt_machine_has_voice_param_default_set (self : ParamMachine) (voice index : Nat) : Bool :=
  self.voice_default voice index

/-- The function `controller_need_activate`. -/
def controller_need_activate (cs : Option ControlSource) : Bool :=
  match cs with
  | some c => if gst_interpolation_control_source_get_count c ≠ 0 then false else true
  | none => true

/-- The function `controller_rem_value`: the control source after the call
and the result. -/
def controller_rem_value (cs : Option ControlSource) (timestamp : GstClockTime)
    (has_default : Bool) : Option ControlSource × Bool :=
  match cs with
  | some c =>
    let c1 := gst_interpolation_control_source_unset c timestamp
    let count := gst_interpolation_control_source_get_count c1
    let count := if has_default then count - 1 else count
    (some c1, decide (count = 0))
  | none => (none, false)

/-- The function `bt_machine_global_controller_change_value`; `value` is
`none` for NULL. The local `cs` is the control source the pointer refers to,
so what the calls on it leave is what the array entry holds afterwards. -/
def bt_machine_global_controller_change_value (env : GstEnv) (self : ParamMachine)
    (param : Nat) (timestamp : GstClockTime) (value : Option GValue) : ParamMachine :=
  if ¬ param < self.global_params then self
  else
    let cs := (self.global_control_sources[param]?).join
    let is_def := decide (timestamp = 0) && value.isNone
    let s1 :=
      if timestamp = 0 then
        { self with global_default := Function.update self.global_default param value.isNone }
      else self
    if value.isSome || is_def then
      let add := controller_need_activate cs
      let is_trigger := bt_machine_is_global_param_trigger s1 param
      let def_value : Option GValue :=
        if !is_trigger then some (s1.global_value param) else s1.global_no_val param
      if is_def then
        if !add then
          { s1 with
            global_control_sources := s1.global_control_sources.set param
              (cs.map (fun c => gst_interpolation_control_source_set c 0 def_value)) }
        else s1
      else
        if add then
          let ctrl := env.global_control param
          let cs1 := if ctrl.isSome then some [] else cs
          let cs2 :=
            if timestamp ≠ 0 then
              cs1.map (fun c => gst_interpolation_control_source_set c 0 def_value)
            else cs1
          { s1 with
            global_controller := ctrl
            global_control_sources := s1.global_control_sources.set param
              (cs2.map (fun c => gst_interpolation_control_source_set c timestamp value)) }
        else
          { s1 with
            global_control_sources := s1.global_control_sources.set param
              (cs.map (fun c => gst_interpolation_control_source_set c timestamp value)) }
    else
      let has_default := bt_machine_has_global_param_default_set s1 param
      let r := controller_rem_value cs timestamp has_default
      if r.2 then
        { s1 with global_control_sources := s1.global_control_sources.set param none }
      else
        { s1 with global_control_sources := s1.global_control_sources.set param r.1 }

/-- The function `bt_machine_voice_controller_change_value`; `value` is
`none` for NULL. -/
def bt_machine_voice_controller_change_value (env : GstEnv) (self : ParamMachine)
    (voice param : Nat) (timestamp : GstClockTime) (value : Option GValue) : ParamMachine :=
  if ¬ param < self.voice_params then self
  else if ¬ voice < self.voices then self
  else if !self.child_bin then self
  else
    let idx := voice * self.voice_params + param
    let cs := (self.voice_control_sources[idx]?).join
    let is_def := decide (timestamp = 0) && value.isNone
    let s1 :=
      if timestamp = 0 then
        { self with
          voice_default := Function.update self.voice_default voice
            (Function.update (self.voice_default voice) param value.isNone) }
      else self
    if value.isSome || is_def then
      let add := controller_need_activate cs
      let is_trigger := bt_machine_is_voice_param_trigger s1 param
      let def_value : Option GValue :=
        if !is_trigger then some (s1.voice_value voice param) else s1.voice_no_val param
      if is_def then
        if !add then
          { s1 with
            voice_control_sources := s1.voice_control_sources.set idx
              (cs.map (fun c => gst_interpolation_control_source_set c 0 def_value)) }
        else s1
      else
        if add then
          let ctrl := env.voice_control voice param
          let cs1 := if ctrl.isSome then some [] else cs
          let cs2 :=
            if timestamp ≠ 0 then
              cs1.map (fun c => gst_interpolation_control_source_set c 0 def_value)
            else cs1
          { s1 with
            voice_controllers := s1.voice_controllers.set voice ctrl
            voice_control_sources := s1.voice_control_sources.set idx
              (cs2.map (fun c => gst_interpolation_control_source_set c timestamp value)) }
        else
          { s1 with
            voice_control_sources := s1.voice_control_sources.set idx
              (cs.map (fun c => gst_interpolation_control_source_set c timestamp value)) }
    else
      let has_default := bt_machine_has_voice_param_default_set s1 voice param
      let r := controller_rem_value cs timestamp has_default
      if r.2 then
        { s1 with voice_control_sources := s1.voice_control_sources.set idx none }
      else
        { s1 with voice_control_sources := s1.voice_control_sources.set idx r.1 }

/-- The function `bt_machine_set_global_param_default`. -/
def bt_machine_set_global_param_default (env : GstEnv) (self : ParamMachine) (index : Nat) :
    ParamMachine :=
  if ¬ index < self.global_params then self
  else if bt_machine_has_global_param_default_set self index then
    bt_machine_global_controller_change_value env self index 0 none
  else self

/-- The function `bt_machine_set_voice_param_default`. -/
def bt_machine_set_voice_param_default (env : GstEnv) (self : ParamMachine)
    (voice index : Nat) : ParamMachine :=
  if ¬ index < self.voice_params then self
  else if bt_machine_has_voice_param_default_set self voice index then
    bt_machine_voice_controller_change_value env self voice index 0 none
  else self

/-- The function `bt_machine_set_global_param_value`; `event` is `none` when it
is not an initialised value. The unit takes the value as it is. -/
def bt_machine_set_global_param_value (self : ParamMachine) (index : Nat)
    (event : Option GValue) : ParamMachine :=
  match event with
  | none => self
  | some v =>
    if ¬ index < self.global_params then self
    else { self with global_value := Function.update self.global_value index v }

/-- The function `bt_machine_set_voice_param_value`. -/
def bt_machine_set_voice_param_value (env : GstEnv) (self : ParamMachine) (voice index : Nat)
    (event : Option GValue) : ParamMachine :=
  match event with
  | none => self
  | some v =>
    if ¬ voice < self.voices then self
    else if ¬ index < self.voice_params then self
    else if env.voice_child voice then
      { self with
        voice_value := Function.update self.voice_value voice
          (Function.update (self.voice_value voice) index v) }
    else self

/-- One call of the automation interface. -/
inductive ControllerCall where
  | global_change (param : Nat) (timestamp : GstClockTime) (value : Option GValue)
  | voice_change (voice param : Nat) (timestamp : GstClockTime) (value : Option GValue)

/-- The machine after one call of the automation interface. -/
def ControllerCall.apply (env : GstEnv) (self : ParamMachine) : ControllerCall → ParamMachine
  | ControllerCall.global_change param timestamp value =>
    bt_machine_global_controller_change_value env self param timestamp value
  | ControllerCall.voice_change voice param timestamp value =>
    bt_machine_voice_controller_change_value env self voice param timestamp value

/-- The machine after a sequence of calls of the automation interface. -/
def run_controller_calls (env : GstEnv) (self : ParamMachine) (calls : List ControllerCall) :
    ParamMachine :=
  calls.foldl (ControllerCall.apply env) self

/-- There is a control point at timestamp 0. -/
def HasPointAtZero (cs : ControlSource) : Prop := ∃ v, ((0 : Nat), v) ∈ cs

/-- Every attached control source has a control point at timestamp 0 and
every Trigger parameter has an initialised no-value. -/
def AutomationInv (self : ParamMachine) : Prop :=
  (∀ (i : Nat) (cs : ControlSource),
    self.global_control_sources[i]? = some (some cs) → HasPointAtZero cs) ∧
  (∀ (i : Nat) (cs : ControlSource),
    self.voice_control_sources[i]? = some (some cs) → HasPointAtZero cs) ∧
  (∀ i, i < self.global_params → self.global_state i = false →
    (self.global_no_val i).isSome = true) ∧
  (∀ i, i < self.voice_params → self.voice_state i = false →
    (self.voice_no_val i).isSome = true)

/-! ## Parameter lookup and discovery -/

/-- The `GError **error` argument: `none` is NULL, `some none` a location that
holds no error, `some (some msg)` a location that holds an error. -/
abbrev ErrorLocation := Option (Option String)

/-- The search loop of the index lookup over the names from index `i` on: the
first index whose name is `name`. -/
def find_param_name (name : String) : List GParamSpec → Nat → Option Nat
  | [], _ => none
  | p :: rest, i => if p.name = name then some i else find_param_name name rest (i + 1)

/-- The value of a `gulong` read as a `glong` (64 bit). -/
def to_glong (n : Nat) : Int :=
  if n % 2 ^ 64 < 2 ^ 63 then (n % 2 ^ 64 : Nat) else ((n % 2 ^ 64 : Nat) : Int) - 2 ^ 64

/-- Modelled from the spec: the test `BT_IS_STRING` of `tools.h` on a string
argument, `none` for NULL: the string is there and is not empty. -/
def BT_IS_STRING (a : Option String) : Bool :=
  match a with
  | none => false
  | some s => decide (s ≠ "")

/-- The function `bt_machine_get_global_param_index`: the result and what the
error location holds afterwards; `name` is `none` for NULL. The loop visits
the entries of `global_props` with an index below `global_params`; the index
is taken to fit a `glong`. -/
def bt_machine_get_global_param_index (self : ParamMachine) (name : Option String)
    (error : ErrorLocation) : Int × ErrorLocation :=
  if !BT_IS_STRING name then (-1, error)
  else if ¬ (error = none ∨ error = some none) then (-1, error)
  else
    match find_param_name (name.getD "") (self.global_props.take self.global_params) 0 with
    | some i => ((i : Int), error)
    | none =>
      (-1, error.map
        (fun _ => some ("global param for name " ++ name.getD "" ++ " not found")))

/-- The function `bt_machine_get_voice_param_index`; here `ret` is a `gulong`
that starts as `(gulong)-1` and is returned as a `glong`. -/
def bt_machine_get_voice_param_index (self : ParamMachine) (name : Option String)
    (error : ErrorLocation) : Int × ErrorLocation :=
  if !BT_IS_STRING name then (-1, error)
  else if ¬ (error = none ∨ error = some none) then (-1, error)
  else
    match find_param_name (name.getD "") (self.voice_props.take self.voice_params) 0 with
    | some i => (to_glong i, error)
    | none =>
      (to_glong (2 ^ 64 - 1),
        error.map (fun _ => some ("voice param for name " ++ name.getD "" ++ " not found")))

/-- The function `bt_machine_get_property_meta_value` on a value that is not
initialised yet: the result and the value afterwards; `qdata` is the data
stored on the property under the key, 0 for NULL. An empty string is the
value 0. -/
def bt_machine_get_property_meta_value (property : GParamSpec) (qdata : Int) :
    Bool × Option GValue :=
  if property.has_meta then
    match property.value_type with
    | GType.boolean => (true, some qdata)
    | GType.int => (true, some qdata)
    | GType.uint => (true, some qdata)
    | GType.enum => (true, some qdata)
    | GType.string => (true, some 0)
    | _ => if qdata ≠ 0 then (false, some 0) else (true, some 0)
  else (false, none)

/-- What the unit gives the discovery of the parameters. -/
structure UnitClass where
  /-- The properties of the unit, as `g_object_class_list_properties` lists
  them. -/
  properties : List GParamSpec
  /-- The test `GSTBT_IS_PROPERTY_META` on the unit. -/
  property_meta : Bool
  /-- The properties of the voice child 0, `none` when the unit has no such
  child. -/
  voice_child : Option (List GParamSpec)
  /-- The test `GSTBT_IS_PROPERTY_META` on the voice child 0. -/
  voice_property_meta : Bool

/-- The body of the second loop of the discovery for one property: the STATE
bit of the flags and the no-value of the new entry. -/
def init_param (property_meta : Bool) (property : GParamSpec) : Bool × Option GValue :=
  let state := if property.readable then true else false
  let state := if property_meta && property.has_meta then property.meta_state else state
  let no_val :=
    if property_meta && property.has_meta then
      (bt_machine_get_property_meta_value property property.meta_no_val).2
    else none
  let no_val :=
    if no_val.isNone && !property.readable then some property.default_value else no_val
  (state, no_val)

/-- The first loop of `bt_machine_init_global_params`: the array `properties`
afterwards (`none` is an entry set to NULL) and how often `global_params` is
incremented. -/
def count_global_params (child_properties : List GParamSpec) :
    List GParamSpec → List (Option GParamSpec) × Nat
  | [] => ([], 0)
  | p :: rest =>
    let r := count_global_params child_properties rest
    if p.controllable then
      if child_properties.any (fun c => decide (c.name = p.name)) then (none :: r.1, r.2)
      else (some p :: r.1, r.2 + 1)
    else (some p :: r.1, r.2)

/-- The second loop of `bt_machine_init_global_params`: the properties it
enters, in index order. -/
def fill_global_params : List (Option GParamSpec) → List GParamSpec
  | [] => []
  | none :: rest => fill_global_params rest
  | some p :: rest =>
    if p.controllable then p :: fill_global_params rest else fill_global_params rest

/-- The function `bt_machine_init_global_params`. The arrays are allocated
zeroed with `global_params` entries; entry `j` of the flags and no-values is
what the second loop wrote for the property with index `j`. -/
def bt_machine_init_global_params (u : UnitClass) (self : ParamMachine) : ParamMachine :=
  let child_properties := if self.child_bin then u.voice_child.getD [] else []
  let counted := count_global_params child_properties u.properties
  let global_params := self.global_params + counted.2
  let props := fill_global_params counted.1
  { self with
    global_params := global_params
    global_props := props
    global_state := fun i => ((props[i]?).map (fun p => (init_param u.property_meta p).1)).getD false
    global_no_val := fun i => (props[i]?).bind (fun p => (init_param u.property_meta p).2)
    global_control_sources := List.replicate global_params none }

/-- The function `bt_machine_init_voice_params`. -/
def bt_machine_init_voice_params (env : GstEnv) (u : UnitClass) (self : ParamMachine) :
    ParamMachine :=
  if self.child_bin then
    match u.voice_child with
    | some properties =>
      let props := properties.filter (fun p => p.controllable)
      let s :=
        { self with
          voice_params := self.voice_params + props.length
          voice_props := props
          voice_state := fun i =>
            ((props[i]?).map (fun p => (init_param u.voice_property_meta p).1)).getD false
          voice_no_val := fun i =>
            (props[i]?).bind (fun p => (init_param u.voice_property_meta p).2) }
      bt_machine_resize_voices env s 0
    | none => self
  else { self with voices := 0 }

/-! ## Concrete units and parameter machines -/

/-- A readable controllable property `cutoff` of type uint without meta
data. -/
def cutoff_spec : GParamSpec :=
  { name := "cutoff", controllable := true, readable := true, value_type := GType.uint,
    has_meta := false, meta_state := false, meta_no_val := 0, default_value := 0 }

/-- A write-only controllable property `note` of type enum without meta
data. -/
def note_spec : GParamSpec :=
  { cutoff_spec with name := "note", readable := false, value_type := GType.enum }

/-- Libraries that give every object its controller (number 1), find every
voice child and hand out memory that holds stale pointers. -/
def gst_env : GstEnv :=
  { global_control := fun _ => some 1, voice_control := fun _ _ => some 1,
    voice_child := fun _ => true, renew_controller := fun _ => some 7,
    renew_control_source := fun _ => some [(0, 7)] }

/-- A machine instance as allocated, before the discovery of the parameters:
every count is 0 and every array empty; `voices` is a construction property. -/
def new_machine (child_bin : Bool) (voices : Nat) : ParamMachine :=
  { child_bin := child_bin, voices := voices, global_params := 0, voice_params := 0,
    global_props := [], voice_props := [],
    global_state := fun _ => false, voice_state := fun _ => false,
    global_no_val := fun _ => none, voice_no_val := fun _ => none,
    global_controller := none, voice_controllers := [],
    global_control_sources := [], voice_control_sources := [],
    global_default := fun _ => false, voice_default := fun _ _ => false,
    global_value := fun _ => 3, voice_value := fun _ _ => 3,
    children := 0, patterns := [], unsaved := false }

/-- A machine with a monophonic unit and one global State parameter with live
value 3: no voices, no control source, no flag set. -/
def mono_machine : ParamMachine :=
  { child_bin := false, voices := 0, global_params := 1, voice_params := 0,
    global_props := [cutoff_spec], voice_props := [],
    global_state := fun _ => true, voice_state := fun _ => true,
    global_no_val := fun _ => none, voice_no_val := fun _ => none,
    global_controller := none, voice_controllers := [],
    global_control_sources := [none], voice_control_sources := [],
    global_default := fun _ => false, voice_default := fun _ _ => false,
    global_value := fun _ => 3, voice_value := fun _ _ => 3,
    children := 0, patterns := [], unsaved := false }

/-- A machine with a polyphonic unit with two voices and one voice State
parameter with live value 3, no global parameter. -/
def poly_machine : ParamMachine :=
  { mono_machine with
    child_bin := true, voices := 2, global_params := 0, voice_params := 1,
    global_props := [], voice_props := [cutoff_spec],
    voice_controllers := [none, none], global_control_sources := [],
    voice_control_sources := [none, none], children := 2 }

/-- A machine with a monophonic unit and one global Trigger parameter with
live value 3 and no-value 0. -/
def trigger_machine : ParamMachine :=
  { mono_machine with
    global_props := [note_spec], global_state := fun _ => false,
    global_no_val := fun _ => some 0 }

/-- A machine with a polyphonic unit with two voices and one voice Trigger
parameter with live value 3 and no-value 0. -/
def poly_trigger_machine : ParamMachine :=
  { poly_machine with
    voice_props := [note_spec], voice_state := fun _ => false,
    voice_no_val := fun _ => some 0 }

/-- A controllable property `wave` of a type the parameter code does not
name, with meta data that gives a no-value. -/
def wave_spec : GParamSpec :=
  { name := "wave", controllable := true, readable := true, value_type := GType.other,
    has_meta := true, meta_state := true, meta_no_val := 255, default_value := 0 }

/-- A monophonic unit with the properties `cutoff` and `wave`. -/
def mono_unit : UnitClass :=
  { properties := [cutoff_spec, wave_spec], property_meta := true, voice_child := none,
    voice_property_meta := false }

/-- A polyphonic unit with the properties `cutoff` and `note`, whose voice
child has the controllable properties `note` and `wave` and a property
`cutoff` that is not controllable. -/
def poly_unit : UnitClass :=
  { properties := [cutoff_spec, note_spec], property_meta := true,
    voice_child := some [note_spec, { cutoff_spec with controllable := false }, wave_spec],
    voice_property_meta := true }

/-! ## Interaction controls -/

/-- An object that carries parameters, the unit or a voice child: its address
and its class. The objects of one class share the `GParamSpec`s of the class. -/
structure GstObject where
  ptr : Nat
  class_id : Nat
  deriving DecidableEq

/-- A `GParamSpec` pointer: the class the property belongs to and the
property. -/
structure PSpec where
  class_id : Nat
  spec : GParamSpec
  deriving DecidableEq

/-- The three notify handlers of the interaction controls. -/
inductive NotifyHandler where
  | on_boolean_control_notify
  | on_uint_control_notify
  | on_double_control_notify
  deriving DecidableEq

/-- What the binding code does to a control and its device. -/
inductive ControlOp where
  | device_stop (control : Nat)
  | handler_disconnect (control : Nat)
  | device_start (control : Nat)
  | handler_connect (control : Nat) (handler : NotifyHandler)
  deriving DecidableEq

/-- The struct `BtControlData`; `handler_id` is `none` as long as no handler
was connected. -/
structure BtControlData where
  control : Nat
  object : GstObject
  pspec : PSpec
  handler_id : Option NotifyHandler
  deriving DecidableEq

/-- The hash table `control_data` of a machine, as the list of its values (one
per key, the key is the `pspec` of the value), and the operations on controls
and devices so far. -/
structure ControlMachine where
  control_data : List BtControlData
  log : List ControlOp
  deriving DecidableEq

/-- The library call `g_object_class_find_property` on the class of the
object; `classes` gives the properties of each class. -/
def g_object_class_find_property (classes : Nat → List GParamSpec) (object : GstObject)
    (property_name : String) : Option PSpec :=
  ((classes object.class_id).find? (fun p => decide (p.name = property_name))).map
    (fun p => { class_id := object.class_id, spec := p })

/-- The function `bt_machine_bind_parameter_control`; the result is `none`
when the object has no such property, where the code reads through a NULL
pointer. -/
def bt_machine_bind_parameter_control (classes : Nat → List GParamSpec)
    (self : ControlMachine) (object : GstObject) (property_name : String) (control : Nat) :
    Option ControlMachine :=
  match g_object_class_find_property classes object property_name with
  | none => none
  | some pspec =>
    let found := self.control_data.find? (fun d => decide (d.pspec = pspec))
    let new_data := found.isNone
    let data : BtControlData :=
      match found with
      | none => { control := control, object := object, pspec := pspec, handler_id := none }
      | some d => d
    let log1 :=
      match found with
      | none => self.log
      | some d =>
        self.log ++ [ControlOp.device_stop d.control, ControlOp.handler_disconnect d.control]
    let data := { data with control := control }
    let log2 := log1 ++ [ControlOp.device_start control]
    let handler : Option NotifyHandler :=
      match pspec.spec.value_type with
      | GType.boolean => some NotifyHandler.on_boolean_control_notify
      | GType.uint => some NotifyHandler.on_uint_control_notify
      | GType.double => some NotifyHandler.on_double_control_notify
      | _ => none
    let data :=
      match handler with
      | some h => { data with handler_id := some h }
      | none => data
    let log3 :=
      match handler with
      | some h => log2 ++ [ControlOp.handler_connect control h]
      | none => log2
    some
      { control_data :=
          if new_data then self.control_data ++ [data]
          else self.control_data.map (fun d => if d.pspec = pspec then data else d)
        log := log3 }

/-! ## Random parameter values -/

/-- The value of an integer expression in 32 bit two's complement (`gint`). -/
def to_gint (x : Int) : Int := (x + 2 ^ 31) % 2 ^ 32 - 2 ^ 31

/-- The value drawn in the `G_TYPE_INT` and `G_TYPE_ENUM` cases of
`bt_g_object_randomize_parameter`,
`(gint)(minimum + ((maximum - minimum) * rnd))` with
`rnd = rand() / (RAND_MAX + 1.0)`: `r` is the result of `rand()`. The
difference is a `gint`, the product and the sum are taken as exact, and the
conversion to `gint` drops the fraction. -/
def randomize_draw (rand_max r : Nat) (minimum maximum : Int) : Int :=
  Int.tdiv (minimum * ((rand_max : Int) + 1) + to_gint (maximum - minimum) * (r : Int))
    ((rand_max : Int) + 1)

/-- The `G_TYPE_INT` case of `bt_g_object_randomize_parameter`: the value
handed to `g_object_set`. -/
def randomize_int (rand_max r : Nat) (minimum maximum : Int) : Int :=
  randomize_draw rand_max r minimum maximum

/-- The loop `while(!g_enum_get_value(enum_class, value) && (value>=minimum))
value--;` with `count` rounds at most; `valid` tells the codes of the enum. -/
def enum_walk (valid : Int → Bool) (minimum : Int) : Nat → Int → Int
  | 0, value => value
  | count + 1, value =>
    if !valid value && decide (minimum ≤ value) then enum_walk valid minimum count (value - 1)
    else value

/-- The `G_TYPE_ENUM` case of `bt_g_object_randomize_parameter`: the value
handed to `g_object_set`. The loop gets as many rounds as there are numbers
from the drawn value down to `minimum`, after which its condition is false. -/
def randomize_enum (rand_max r : Nat) (minimum maximum : Int) (valid : Int → Bool) : Int :=
  enum_walk valid minimum
    (randomize_draw rand_max r minimum maximum - minimum + 1).toNat
    (randomize_draw rand_max r minimum maximum)

/-! ## Parameter defaults -/

/-- The function `bt_machine_set_param_defaults`; `unit_controller` tells
whether `gst_object_get_controller` finds a controller on the unit and
`voice_controller` whether it finds one on the voice child with the given
index. The calls leave the numbers of parameters and voices as they are. -/
def bt_machine_set_param_defaults (env : GstEnv) (unit_controller : Bool)
    (voice_controller : Nat → Bool) (self : ParamMachine) : ParamMachine :=
  let s :=
    if unit_controller then
      (List.range self.global_params).foldl
        (fun s i => bt_machine_set_global_param_default env s i) self
    else self
  (List.range s.voices).foldl
    (fun s j =>
      if voice_controller j then
        (List.range s.voice_params).foldl
          (fun s i => bt_machine_set_voice_param_default env s j i) s
      else s) s

/-- The machine `s` has the numbers, flags, no-values, live values and
default-is-synthetic flags of `s0`; the control sources may differ. -/
def SameParams (s0 s : ParamMachine) : Prop :=
  s.child_bin = s0.child_bin ∧ s.voices = s0.voices ∧
  s.global_params = s0.global_params ∧ s.voice_params = s0.voice_params ∧
  s.global_state = s0.global_state ∧ s.voice_state = s0.voice_state ∧
  s.global_no_val = s0.global_no_val ∧ s.voice_no_val = s0.voice_no_val ∧
  s.global_value = s0.global_value ∧ s.voice_value = s0.voice_value ∧
  (∀ i, s.global_default i = s0.global_default i) ∧
  (∀ v i, s.voice_default v i = s0.voice_default v i)

/-! ## The patterns of a machine -/

/-- A pattern object: its address and the properties `id` and `is-internal`. -/
structure BtPattern where
  ptr : Nat
  id : String
  is_internal : Bool
  deriving DecidableEq

/-- The part of a machine the pattern code works on. -/
structure PatternMachine where
  id : String
  patterns : List BtPattern
  /-- The counter `private_patterns`, a `guint`. -/
  private_patterns : Nat
  /-- The unsaved flag of the song. -/
  unsaved : Bool
  deriving DecidableEq

/-- The library call `g_list_find` on the pattern list: the pointers are
compared. -/
def g_list_find (patterns : List BtPattern) (pattern : BtPattern) : Bool :=
  patterns.any (fun p => decide (p.ptr = pattern.ptr))

/-- The library call `g_list_remove`: the first entry with the pointer is
taken out. -/
def g_list_remove : List BtPattern → BtPattern → List BtPattern
  | [], _ => []
  | p :: rest, pattern => if p.ptr = pattern.ptr then rest else p :: g_list_remove rest pattern

/-- The function `bt_machine_add_pattern`. -/
def bt_machine_add_pattern (self : PatternMachine) (pattern : BtPattern) : PatternMachine :=
  if !g_list_find self.patterns pattern then
    let s := { self with patterns := self.patterns ++ [pattern] }
    if pattern.is_internal then
      { s with private_patterns := (s.private_patterns + 1) % 2 ^ 32 }
    else { s with unsaved := true }
  else self

/-- The function `bt_machine_remove_pattern`. -/
def bt_machine_remove_pattern (self : PatternMachine) (pattern : BtPattern) :
    PatternMachine :=
  if g_list_find self.patterns pattern then
    { self with patterns := g_list_remove self.patterns pattern, unsaved := true }
  else self

/-- The function `bt_machine_has_patterns`; `g_list_length` gives a `guint`. -/
def bt_machine_has_patterns (self : PatternMachine) : Bool :=
  decide (self.patterns.length % 2 ^ 32 > self.private_patterns)

/-- The function `bt_machine_get_pattern_by_id`; `id` is `none` for NULL. -/
def bt_machine_get_pattern_by_id (self : PatternMachine) (id : Option String) :
    Option BtPattern :=
  if !BT_IS_STRING id then none
  else self.patterns.find? (fun p => decide (p.id = id.getD ""))

/-- The text `sprintf` writes for `%02u`. -/
def format_02u (i : Nat) : String :=
  if i < 10 then "0" ++ toString i else toString i

/-- The loop of `bt_machine_get_unique_pattern_name` from the counter `i` on,
with `count` rounds at most: the counter after the loop, `none` when the rounds
do not suffice. The counter is a `guint8`. -/
def unique_pattern_name_loop (self : PatternMachine) : Nat → Nat → Option Nat
  | 0, _ => none
  | count + 1, i =>
    let id := self.id ++ " " ++ format_02u i
    let i1 := (i + 1) % 256
    if (bt_machine_get_pattern_by_id self (some id)).isSome && decide (i1 < 100) then
      unique_pattern_name_loop self count i1
    else some i1

/-- The function `bt_machine_get_unique_pattern_name`: the loop starts with
the counter 0 and ends after 100 rounds at the latest. -/
def bt_machine_get_unique_pattern_name (self : PatternMachine) : Option String :=
  (unique_pattern_name_loop self 100 0).map (fun i => format_02u ((i + 255) % 256))

/-! ## Sequences of state changes -/

/-- Whether the gain element that `bt_machine_set_mute` and
`bt_machine_unset_mute` act on exists for the machine at position `k`. -/
def can_mute (g : Setup) (k : Nat) : Bool := ((g[k]?).bind SongMachine.mute_flag).isSome

/-- The setup after a sequence of `bt_machine_change_state` calls, each given
by the position of the machine and the new state. -/
def run_state_calls (g : Setup) (calls : List (Nat × BtMachineState)) : Setup :=
  calls.foldl (fun g c => (bt_machine_change_state g c.1 c.2).2) g

/-- The kind and the state of a machine. -/
def SongMachine.tag (m : SongMachine) : BtMachineKind × BtMachineState := (m.kind, m.state)

/-! ## Concrete inputs for the controls, the random values and the patterns -/

/-- One class, number 5, with the property `cutoff`; every other class has no
property. -/
def voice_classes : Nat → List GParamSpec :=
  fun c => if c = 5 then [cutoff_spec] else []

/-- The voice child 0, of class 5. -/
def voice_object_0 : GstObject := { ptr := 100, class_id := 5 }

/-- The voice child 1, of class 5. -/
def voice_object_1 : GstObject := { ptr := 101, class_id := 5 }

/-- The codes of an enum with the two values -2^30 and 2^30. -/
def wide_enum (code : Int) : Bool :=
  decide (code = -1073741824) || decide (code = 1073741824)

/-- A machine without controls. -/
def no_controls : ControlMachine := { control_data := [], log := [] }

/-- A machine `M` without patterns. -/
def no_patterns : PatternMachine :=
  { id := "M", patterns := [], private_patterns := 0, unsaved := false }

/-- The machine `M` with the hundred patterns `M 00` to `M 99`. -/
def hundred_patterns : PatternMachine :=
  { no_patterns with
    patterns := (List.range 100).map
      (fun i => { ptr := i, id := "M " ++ format_02u i, is_internal := false }) }

/-! ## Properties of the element chain -/

theorem scan_pre_none (ms : Nat → Bool) (n : Nat) (h : ∀ k, k < n → ms k = false) :
    scan_pre ms n = -1 := by
  induction n with
  | zero => rfl
  | succ n ih =>
    have hn : ms n = false := h n (Nat.lt_succ_self n)
    simp only [scan_pre, hn]
    exact ih (fun k hk => h k (Nat.lt_succ_of_lt hk))

theorem scan_pre_found (ms : Nat → Bool) (n p : Nat) (hp : p < n) (hm : ms p = true)
    (hgap : ∀ k, p < k → k < n → ms k = false) : scan_pre ms n = (p : Int) := by
  induction n with
  | zero => omega
  | succ n ih =>
    by_cases hpn : p = n
    · subst hpn
      simp [scan_pre, hm]
    · have hn : ms n = false := hgap n (by omega) (Nat.lt_succ_self n)
      simp only [scan_pre, hn]
      exact ih (by omega) (fun k h1 h2 => hgap k h1 (by omega))

theorem scan_pre_cases (ms : Nat → Bool) (n : Nat) :
    (scan_pre ms n = -1 ∧ ∀ k, k < n → ms k = false) ∨
    ∃ p : Nat, scan_pre ms n = (p : Int) ∧ p < n ∧ ms p = true ∧
      ∀ k, p < k → k < n → ms k = false := by
  induction n with
  | zero => exact Or.inl ⟨rfl, fun k hk => absurd hk (Nat.not_lt_zero k)⟩
  | succ n ih =>
    cases hn : ms n with
    | true =>
      exact Or.inr ⟨n, by simp [scan_pre, hn], Nat.lt_succ_self n, hn, fun k h1 h2 => by omega⟩
    | false =>
      rcases ih with ⟨h1, h2⟩ | ⟨p, h1, h2, h3, h4⟩
      · refine Or.inl ⟨by simp [scan_pre, hn, h1], fun k hk => ?_⟩
        by_cases hkn : k = n
        · subst hkn; exact hn
        · exact h2 k (by omega)
      · refine Or.inr ⟨p, by simp [scan_pre, hn, h1], by omega, h3, fun k hk1 hk2 => ?_⟩
        by_cases hkn : k = n
        · subst hkn; exact hn
        · exact h4 k hk1 (by omega)

theorem scan_post_none (ms : Nat → Bool) (n i : Nat)
    (h : ∀ k, i ≤ k → k < i + n → ms k = false) : scan_post ms i n = -1 := by
  induction n generalizing i with
  | zero => rfl
  | succ n ih =>
    have hi : ms i = false := h i (Nat.le_refl i) (by omega)
    simp only [scan_post, hi]
    exact ih (i + 1) (fun k h1 h2 => h k (by omega) (by omega))

theorem scan_post_found (ms : Nat → Bool) (n i p : Nat) (hp1 : i ≤ p) (hp2 : p < i + n)
    (hm : ms p = true) (hgap : ∀ k, i ≤ k → k < p → ms k = false) :
    scan_post ms i n = (p : Int) := by
  induction n generalizing i with
  | zero => omega
  | succ n ih =>
    by_cases hpi : p = i
    · subst hpi
      simp [scan_post, hm]
    · have hi : ms i = false := hgap i (Nat.le_refl i) (by omega)
      simp only [scan_post, hi]
      exact ih (i + 1) (by omega) (by omega) (fun k h1 h2 => hgap k (by omega) h2)

theorem scan_post_cases (ms : Nat → Bool) (n i : Nat) :
    (scan_post ms i n = -1 ∧ ∀ k, i ≤ k → k < i + n → ms k = false) ∨
    ∃ p : Nat, scan_post ms i n = (p : Int) ∧ i ≤ p ∧ p < i + n ∧ ms p = true ∧
      ∀ k, i ≤ k → k < p → ms k = false := by
  induction n generalizing i with
  | zero => exact Or.inl ⟨rfl, fun k h1 h2 => by omega⟩
  | succ n ih =>
    cases hi : ms i with
    | true =>
      exact Or.inr ⟨i, by simp [scan_post, hi], Nat.le_refl i, by omega, hi,
        fun k h1 h2 => by omega⟩
    | false =>
      rcases ih (i + 1) with ⟨h1, h2⟩ | ⟨p, h1, h2, h3, h4, h5⟩
      · refine Or.inl ⟨by simp [scan_post, hi, h1], fun k hk1 hk2 => ?_⟩
        by_cases hki : k = i
        · subst hki; exact hi
        · exact h2 k (by omega) (by omega)
      · refine Or.inr ⟨p, by simp [scan_post, hi, h1], by omega, by omega, h4,
          fun k hk1 hk2 => ?_⟩
        by_cases hki : k = i
        · subst hki; exact hi
        · exact h5 k (by omega) hk2

/-- Claim C2, as amended: when the first new link succeeds, the second fails
and the restoring link succeeds, then (a) with both neighbours present, linked
to each other and not linked to the new element before, the links after the
call are those before the call; (b) with only a successor, the links after the
splice are the previous ones without the peer's links to `post` and `pos`,
plus the link `pos -> post`, handed to `bt_wire_reconnect` when a wire exists;
(c) with only a predecessor, symmetrically, with the link `pre -> pos`. -/
theorem insert_element_rollback (env : Env) (self : Machine) (peer : Pad) (pos : Nat)
    (h1 : env.link_ok self.nlink = true) (h2 : env.link_ok (self.nlink + 1) = false)
    (h3 : env.link_ok (self.nlink + 2) = true) :
    (∀ pre post : Nat,
      scan_pre self.machines pos = (pre : Int) →
      scan_post self.machines (pos + 1) (PART_COUNT - (pos + 1)) = (post : Int) →
      (Pad.src pre, Pad.sink post) ∈ self.links →
      (Pad.src pre, Pad.sink pos) ∉ self.links →
      (Pad.src pos, Pad.sink post) ∉ self.links →
      ∀ l, l ∈ (bt_machine_insert_element env self peer pos).2.links ↔ l ∈ self.links) ∧
    (∀ post : Nat,
      scan_pre self.machines pos = -1 →
      scan_post self.machines (pos + 1) (PART_COUNT - (pos + 1)) = (post : Int) →
      ∃ L : List (Pad × Pad),
        (∀ l, l ∈ L ↔ (l ∈ self.links ∧ l ≠ (peer, Pad.sink post) ∧
            l ≠ (peer, Pad.sink pos)) ∨ l = (Pad.src pos, Pad.sink post)) ∧
        (bt_machine_insert_element env self peer pos).2.links =
          if self.dst_wires then (env.wire_reconnect L).2 else L) ∧
    (∀ pre : Nat,
      scan_pre self.machines pos = (pre : Int) →
      scan_post self.machines (pos + 1) (PART_COUNT - (pos + 1)) = -1 →
      ∃ L : List (Pad × Pad),
        (∀ l, l ∈ L ↔ (l ∈ self.links ∧ l ≠ (Pad.src pre, peer) ∧
            l ≠ (Pad.src pos, peer)) ∨ l = (Pad.src pre, Pad.sink pos)) ∧
        (bt_machine_insert_element env self peer pos).2.links =
          if self.src_wires then (env.wire_reconnect L).2 else L) := by
  refine ⟨?_, ?_, ?_⟩
  · intro pre post e1 e2 hin hn1 hn2 l
    have n1 : ((pre : Int) ≠ -1) := by omega
    have n2 : ((post : Int) ≠ -1) := by omega
    simp only [bt_machine_insert_element, e1, e2]
    simp [n1, n2, bt_machine_link_elements, gst_pad_unlink, h1, h2, h3]
    constructor
    · rintro (⟨h, -⟩ | rfl)
      · exact h
      · exact hin
    · intro h
      by_cases hl : l = (Pad.src pre, Pad.sink post)
      · exact Or.inr hl
      · refine Or.inl ⟨h, ?_, ?_, hl⟩
        · rintro rfl; exact hn2 h
        · rintro rfl; exact hn1 h
  · intro post e1 e2
    have n2 : ((post : Int) ≠ -1) := by omega
    refine ⟨self.links.filter (fun a => decide (a ≠ (Pad.src pos, Pad.sink post)) &&
      decide (a ≠ (peer, Pad.sink pos)) && decide (a ≠ (peer, Pad.sink post))) ++
      [(Pad.src pos, Pad.sink post)], ?_, ?_⟩
    · intro l
      simp
      tauto
    · simp only [bt_machine_insert_element, e1, e2]
      cases hw : self.dst_wires <;>
        simp [n2, bt_machine_link_elements, gst_pad_unlink, h1, h2, h3, hw,
          List.filter_filter, Bool.and_assoc]
  · intro pre e1 e2
    have n1 : ((pre : Int) ≠ -1) := by omega
    refine ⟨self.links.filter (fun a => decide (a ≠ (Pad.src pos, peer)) &&
      decide (a ≠ (Pad.src pre, Pad.sink pos)) && decide (a ≠ (Pad.src pre, peer))) ++
      [(Pad.src pre, Pad.sink pos)], ?_, ?_⟩
    · intro l
      simp
      tauto
    · simp only [bt_machine_insert_element, e1, e2]
      cases hw : self.src_wires <;>
        simp [n1, bt_machine_link_elements, gst_pad_unlink, h1, h2, h3, hw,
          List.filter_filter, Bool.and_assoc]

theorem insert_element_rollback_witness :
    (env_with_links (fun n => decide (n ≠ 1))).link_ok unit_with_output_gain.nlink = true ∧
    (env_with_links (fun n => decide (n ≠ 1))).link_ok (unit_with_output_gain.nlink + 1)
      = false ∧
    (env_with_links (fun n => decide (n ≠ 1))).link_ok (unit_with_output_gain.nlink + 2)
      = true ∧
    ((Pad.src PART_MACHINE, Pad.sink PART_OUTPUT_GAIN) ∈
        (bt_machine_insert_element (env_with_links (fun n => decide (n ≠ 1)))
          unit_with_output_gain (Pad.sink PART_OUTPUT_GAIN) PART_OUTPUT_PRE_LEVEL).2.links ↔
      (Pad.src PART_MACHINE, Pad.sink PART_OUTPUT_GAIN) ∈ unit_with_output_gain.links) :=
  ⟨by decide, by decide, by decide,
    (insert_element_rollback (env_with_links (fun n => decide (n ≠ 1)))
      unit_with_output_gain (Pad.sink PART_OUTPUT_GAIN) PART_OUTPUT_PRE_LEVEL
      (by decide) (by decide) (by decide)).1 PART_MACHINE PART_OUTPUT_GAIN
      (by decide) (by decide) (by decide) (by decide) (by decide)
      (Pad.src PART_MACHINE, Pad.sink PART_OUTPUT_GAIN)⟩

/-- Claim C2 as stated fails with only a successor: on a unit whose sink pad is
linked to the pad of a wire, inserting the input gain with the first new link
succeeding, the second failing and the restoring link succeeding leaves the
gain linked to the unit and the wire's pad no longer linked to the unit. -/
theorem insert_element_rollback_only_successor_differs :
    (env_with_links (fun n => decide (n ≠ 1))).link_ok unit_wired_in.nlink = true ∧
    (env_with_links (fun n => decide (n ≠ 1))).link_ok (unit_wired_in.nlink + 1) = false ∧
    (env_with_links (fun n => decide (n ≠ 1))).link_ok (unit_wired_in.nlink + 2) = true ∧
    unit_wired_in.links = [(Pad.ext 0, Pad.sink PART_MACHINE)] ∧
    (bt_machine_insert_element (env_with_links (fun n => decide (n ≠ 1)))
      unit_wired_in (Pad.ext 0) PART_INPUT_GAIN).2.links =
        [(Pad.src PART_INPUT_GAIN, Pad.sink PART_MACHINE)] ∧
    ¬ (∀ l, l ∈ (bt_machine_insert_element (env_with_links (fun n => decide (n ≠ 1)))
        unit_wired_in (Pad.ext 0) PART_INPUT_GAIN).2.links ↔ l ∈ unit_wired_in.links) := by
  refine ⟨by decide, by decide, by decide, by decide, by decide, fun h => ?_⟩
  exact absurd ((h (Pad.ext 0, Pad.sink PART_MACHINE)).2 (by decide)) (by decide)

/-- Claim C3: when the nearest present predecessor `pre` (the greatest present
index below `pos`) and the nearest present successor `post` (the least present
index above `pos`) both exist and are linked, and both new links succeed,
`bt_machine_insert_element` returns TRUE and the links afterwards are the
previous links without `pre -> post`, plus `pre -> pos` and `pos -> post`. -/
theorem insert_element_between_links (env : Env) (self : Machine) (peer : Pad)
    (pos pre post : Nat)
    (hpre : pre < pos) (hpost : pos < post) (hcount : post < PART_COUNT)
    (hmpre : self.machines pre = true) (hmpost : self.machines post = true)
    (hgap1 : ∀ k, pre < k → k < pos → self.machines k = false)
    (hgap2 : ∀ k, pos < k → k < post → self.machines k = false)
    (_hlinked : (Pad.src pre, Pad.sink post) ∈ self.links)
    (h1 : env.link_ok self.nlink = true) (h2 : env.link_ok (self.nlink + 1) = true) :
    (bt_machine_insert_element env self peer pos).1 = true ∧
    ∀ l, l ∈ (bt_machine_insert_element env self peer pos).2.links ↔
      (l ∈ self.links ∧ l ≠ (Pad.src pre, Pad.sink post)) ∨
      l = (Pad.src pre, Pad.sink pos) ∨ l = (Pad.src pos, Pad.sink post) := by
  have e1 : scan_pre self.machines pos = (pre : Int) :=
    scan_pre_found _ _ _ hpre hmpre hgap1
  have e2 : scan_post self.machines (pos + 1) (PART_COUNT - (pos + 1)) = (post : Int) :=
    scan_post_found _ _ _ _ (by omega) (by omega) hmpost
      (fun k hk1 hk2 => hgap2 k (by omega) hk2)
  have n1 : ((pre : Int) ≠ -1) := by omega
  have n2 : ((post : Int) ≠ -1) := by omega
  simp only [bt_machine_insert_element, e1, e2]
  simp [n1, n2, bt_machine_link_elements, gst_pad_unlink, h1, h2]

theorem insert_element_between_links_witness :
    (bt_machine_insert_element env_all_ok unit_with_output_gain
      (Pad.sink PART_OUTPUT_GAIN) PART_OUTPUT_PRE_LEVEL).1 = true ∧
    ((Pad.src PART_MACHINE, Pad.sink PART_OUTPUT_PRE_LEVEL) ∈
        (bt_machine_insert_element env_all_ok unit_with_output_gain
          (Pad.sink PART_OUTPUT_GAIN) PART_OUTPUT_PRE_LEVEL).2.links ↔
      ((Pad.src PART_MACHINE, Pad.sink PART_OUTPUT_PRE_LEVEL) ∈ unit_with_output_gain.links ∧
        (Pad.src PART_MACHINE, Pad.sink PART_OUTPUT_PRE_LEVEL) ≠
          (Pad.src PART_MACHINE, Pad.sink PART_OUTPUT_GAIN)) ∨
      (Pad.src PART_MACHINE, Pad.sink PART_OUTPUT_PRE_LEVEL) =
        (Pad.src PART_MACHINE, Pad.sink PART_OUTPUT_PRE_LEVEL) ∨
      (Pad.src PART_MACHINE, Pad.sink PART_OUTPUT_PRE_LEVEL) =
        (Pad.src PART_OUTPUT_PRE_LEVEL, Pad.sink PART_OUTPUT_GAIN)) :=
  ⟨(insert_element_between_links env_all_ok unit_with_output_gain
      (Pad.sink PART_OUTPUT_GAIN) PART_OUTPUT_PRE_LEVEL PART_MACHINE PART_OUTPUT_GAIN
      (by decide) (by decide) (by decide) (by decide) (by decide)
      (fun k h1 h2 => by
        simp only [PART_MACHINE, PART_OUTPUT_PRE_LEVEL] at h1 h2; omega)
      (fun k h1 h2 => by
        simp only [PART_OUTPUT_GAIN, PART_OUTPUT_PRE_LEVEL] at h1 h2; omega)
      (by decide) (by decide) (by decide)).1,
   (insert_element_between_links env_all_ok unit_with_output_gain
      (Pad.sink PART_OUTPUT_GAIN) PART_OUTPUT_PRE_LEVEL PART_MACHINE PART_OUTPUT_GAIN
      (by decide) (by decide) (by decide) (by decide) (by decide)
      (fun k h1 h2 => by
        simp only [PART_MACHINE, PART_OUTPUT_PRE_LEVEL] at h1 h2; omega)
      (fun k h1 h2 => by
        simp only [PART_OUTPUT_GAIN, PART_OUTPUT_PRE_LEVEL] at h1 h2; omega)
      (by decide) (by decide) (by decide)).2
      (Pad.src PART_MACHINE, Pad.sink PART_OUTPUT_PRE_LEVEL)⟩

/-- Claim C4, as amended: when at least one of the two new links fails,
`bt_machine_insert_element` returns FALSE in the both-neighbours case; in the
no-predecessor case (and, with `src_wires`, in the no-successor case) it
returns what its retry gives: FALSE when the retried link fails, and otherwise
TRUE when the machine has no wire on that side and the result of
`bt_wire_reconnect` when it has one. -/
theorem insert_element_result_after_failed_link (env : Env) (self : Machine) (peer : Pad)
    (pos : Nat)
    (hfail : env.link_ok self.nlink = false ∨ env.link_ok (self.nlink + 1) = false) :
    (scan_pre self.machines pos ≠ -1 →
      scan_post self.machines (pos + 1) (PART_COUNT - (pos + 1)) ≠ -1 →
      (bt_machine_insert_element env self peer pos).1 = false) ∧
    (scan_pre self.machines pos = -1 →
      ∃ L : List (Pad × Pad),
        (∀ l, l ∈ L ↔ (l ∈ self.links ∧
            l ≠ (peer, Pad.sink (scan_post self.machines (pos + 1) (PART_COUNT - (pos + 1)))) ∧
            l ≠ (peer, Pad.sink pos)) ∨
          l = (Pad.src pos,
            Pad.sink (scan_post self.machines (pos + 1) (PART_COUNT - (pos + 1))))) ∧
        (bt_machine_insert_element env self peer pos).1 =
          (env.link_ok (self.nlink + 2) &&
            (!self.dst_wires || (env.wire_reconnect L).1))) ∧
    (scan_pre self.machines pos ≠ -1 →
      scan_post self.machines (pos + 1) (PART_COUNT - (pos + 1)) = -1 →
      ∃ L : List (Pad × Pad),
        (∀ l, l ∈ L ↔ (l ∈ self.links ∧
            l ≠ (Pad.src (scan_pre self.machines pos), peer) ∧ l ≠ (Pad.src pos, peer)) ∨
          l = (Pad.src (scan_pre self.machines pos), Pad.sink pos)) ∧
        (bt_machine_insert_element env self peer pos).1 =
          (env.link_ok (self.nlink + 2) &&
            (!self.src_wires || (env.wire_reconnect L).1))) := by
  refine ⟨?_, ?_, ?_⟩
  · intro n1 n2
    simp only [bt_machine_insert_element]
    rcases hfail with h | h <;>
      cases ha : env.link_ok self.nlink <;> cases hb : env.link_ok (self.nlink + 1) <;>
      simp_all [bt_machine_link_elements, gst_pad_unlink]
  · intro e1
    generalize hpost : scan_post self.machines (pos + 1) (PART_COUNT - (pos + 1)) = post
    refine ⟨self.links.filter (fun a => decide (a ≠ (Pad.src pos, Pad.sink post)) &&
      decide (a ≠ (peer, Pad.sink pos)) && decide (a ≠ (peer, Pad.sink post))) ++
      [(Pad.src pos, Pad.sink post)], ?_, ?_⟩
    · intro l
      simp
      tauto
    · simp only [bt_machine_insert_element, e1, hpost]
      have hab : env.link_ok self.nlink = false ∨ env.link_ok (self.nlink + 1) = false :=
        hfail
      cases ha : env.link_ok self.nlink <;> cases hb : env.link_ok (self.nlink + 1) <;>
        simp only [ha, hb, or_self, or_false, false_or, reduceCtorEq] at hab <;>
        cases hc : env.link_ok (self.nlink + 2) <;> cases hw : self.dst_wires <;>
        simp [bt_machine_link_elements, gst_pad_unlink, ha, hb, hc, hw,
          List.filter_filter, Bool.and_assoc]
  · intro n1 e2
    generalize hpre : scan_pre self.machines pos = pre at n1
    refine ⟨self.links.filter (fun a => decide (a ≠ (Pad.src pos, peer)) &&
      decide (a ≠ (Pad.src pre, Pad.sink pos)) && decide (a ≠ (Pad.src pre, peer))) ++
      [(Pad.src pre, Pad.sink pos)], ?_, ?_⟩
    · intro l
      simp
      tauto
    · simp only [bt_machine_insert_element, e2, hpre]
      have hab : env.link_ok self.nlink = false ∨ env.link_ok (self.nlink + 1) = false :=
        hfail
      cases ha : env.link_ok self.nlink <;> cases hb : env.link_ok (self.nlink + 1) <;>
        simp only [ha, hb, or_self, or_false, false_or, reduceCtorEq] at hab <;>
        cases hc : env.link_ok (self.nlink + 2) <;> cases hw : self.src_wires <;>
        simp [bt_machine_link_elements, gst_pad_unlink, ha, hb, hc, hw, n1,
          List.filter_filter, Bool.and_assoc]

theorem insert_element_result_after_failed_link_witness :
    ((env_with_links (fun n => decide (n ≠ 1))).link_ok unit_with_output_gain.nlink = false ∨
      (env_with_links (fun n => decide (n ≠ 1))).link_ok (unit_with_output_gain.nlink + 1)
        = false) ∧
    (bt_machine_insert_element (env_with_links (fun n => decide (n ≠ 1)))
      unit_with_output_gain (Pad.sink PART_OUTPUT_GAIN) PART_OUTPUT_PRE_LEVEL).1 = false :=
  ⟨by decide,
    (insert_element_result_after_failed_link (env_with_links (fun n => decide (n ≠ 1)))
      unit_with_output_gain (Pad.sink PART_OUTPUT_GAIN) PART_OUTPUT_PRE_LEVEL
      (by decide)).1 (by decide) (by decide)⟩

/-- Claim C4 as stated fails in the no-predecessor case: on a unit whose sink
pad is linked to the pad of a wire, inserting the input gain with the link
`peer -> gain` failing returns TRUE, because the retried link `gain -> unit`
succeeds and the wire reconnects. -/
theorem insert_element_true_despite_failed_link :
    (env_with_links (fun n => decide (n ≠ 0))).link_ok unit_wired_in.nlink = false ∧
    scan_pre unit_wired_in.machines PART_INPUT_GAIN = -1 ∧
    scan_post unit_wired_in.machines (PART_INPUT_GAIN + 1)
      (PART_COUNT - (PART_INPUT_GAIN + 1)) = 6 ∧
    (bt_machine_insert_element (env_with_links (fun n => decide (n ≠ 0)))
      unit_wired_in (Pad.ext 0) PART_INPUT_GAIN).1 = true := by
  decide

/-- Claim C6, evaluated where it fails: on a unit-only machine whose first pad
link fails, `bt_machine_enable_part` for the input gain returns FALSE and leaves
the slot present (it was absent before) with no link; the next call for the
same part returns TRUE and makes no pad call, so the gain is reported enabled
without being linked. -/
theorem enable_part_failure_keeps_slot :
    unit_only.machines PART_INPUT_GAIN = false ∧
    (bt_machine_enable_part (env_with_links (fun n => decide (n ≠ 0)))
      unit_only PART_INPUT_GAIN).1 = false ∧
    (bt_machine_enable_part (env_with_links (fun n => decide (n ≠ 0)))
      unit_only PART_INPUT_GAIN).2.machines PART_INPUT_GAIN = true ∧
    (bt_machine_enable_part (env_with_links (fun n => decide (n ≠ 0)))
      unit_only PART_INPUT_GAIN).2.links = [] ∧
    (bt_machine_enable_part (env_with_links (fun n => decide (n ≠ 0)))
      (bt_machine_enable_part (env_with_links (fun n => decide (n ≠ 0)))
        unit_only PART_INPUT_GAIN).2 PART_INPUT_GAIN).1 = true ∧
    (bt_machine_enable_part (env_with_links (fun n => decide (n ≠ 0)))
      (bt_machine_enable_part (env_with_links (fun n => decide (n ≠ 0)))
        unit_only PART_INPUT_GAIN).2 PART_INPUT_GAIN).2.links = [] ∧
    (bt_machine_enable_part (env_with_links (fun n => decide (n ≠ 0)))
      (bt_machine_enable_part (env_with_links (fun n => decide (n ≠ 0)))
        unit_only PART_INPUT_GAIN).2 PART_INPUT_GAIN).2.log =
      [PadOp.link (Pad.src 4) (Pad.sink 6)] := by
  decide

@[simp] theorem make_machines (env : Env) (self : Machine) (part : Nat) :
    (bt_machine_make_internal_element env self part).2.machines =
      set_part self.machines part (env.factory_ok part) := by
  unfold bt_machine_make_internal_element
  cases env.factory_ok part <;> simp

@[simp] theorem make_result (env : Env) (self : Machine) (part : Nat) :
    (bt_machine_make_internal_element env self part).1 = env.factory_ok part := by
  unfold bt_machine_make_internal_element
  cases env.factory_ok part <;> simp

@[simp] theorem link_machines (env : Env) (self : Machine) (a b : Pad) :
    (bt_machine_link_elements env self a b).2.machines = self.machines := by
  unfold bt_machine_link_elements
  cases env.link_ok self.nlink <;> simp

@[simp] theorem unlink_machines (self : Machine) (a b : Pad) :
    (gst_pad_unlink self a b).machines = self.machines := rfl

/-- Claim C7, as amended: on a machine whose adder and adder-convert slots are
absent and for which `bt_machine_activate_adder` succeeds, a processor machine
has the AdderConvert slot absent afterwards if and only if the unit's sink pad
template caps intersect the default caps, and a sink machine has the
AdderConvert slot present afterwards whatever the caps are. -/
theorem activate_adder_convert (env : Env) (self : Machine)
    (hadder : self.machines PART_ADDER = false)
    (hconv : self.machines PART_ADDER_CONVERT = false)
    (hok : (bt_machine_activate_adder env self).1 = true) :
    (self.kind = BtMachineKind.processor →
      ((bt_machine_activate_adder env self).2.machines PART_ADDER_CONVERT = false ↔
        env.can_intersect = true)) ∧
    (self.kind = BtMachineKind.sink →
      (bt_machine_activate_adder env self).2.machines PART_ADDER_CONVERT = true) := by
  cases hk : self.kind <;> cases hf0 : env.factory_ok PART_ADDER <;>
    cases hcaps : env.adder_has_caps <;> cases hf1 : env.factory_ok PART_CAPS_FILTER <;>
    cases hci : env.can_intersect <;> cases hf2 : env.factory_ok PART_ADDER_CONVERT <;>
    cases hm1 : self.machines PART_CAPS_FILTER <;>
    simp [bt_machine_activate_adder, hk, hf0, hcaps, hf1, hci, hf2, hm1, hadder, hconv,
      set_part] at hok ⊢
  all_goals (clear hok; split <;> simp [set_part, hf0, hf1, hf2, hconv])

theorem activate_adder_convert_witness :
    unit_only.machines PART_ADDER = false ∧
    unit_only.machines PART_ADDER_CONVERT = false ∧
    (bt_machine_activate_adder env_all_ok unit_only).1 = true ∧
    ((bt_machine_activate_adder env_all_ok unit_only).2.machines PART_ADDER_CONVERT = false ↔
      env_all_ok.can_intersect = true) :=
  ⟨by decide, by decide, by decide,
    (activate_adder_convert env_all_ok unit_only (by decide) (by decide) (by decide)).1
      (by decide)⟩

/-- Claim C7 as stated fails for a sink machine: with the adder absent and the
caps intersecting, `bt_machine_activate_adder` succeeds and the AdderConvert
slot is present afterwards, because `skip_convert` is only computed for
machines that are not sinks. -/
theorem activate_adder_sink_keeps_convert :
    sink_unit_only.kind ≠ BtMachineKind.source ∧
    sink_unit_only.machines PART_ADDER = false ∧
    sink_unit_only.machines PART_ADDER_CONVERT = false ∧
    env_all_ok.can_intersect = true ∧
    (bt_machine_activate_adder env_all_ok sink_unit_only).1 = true ∧
    (bt_machine_activate_adder env_all_ok sink_unit_only).2.machines PART_ADDER_CONVERT
      = true := by
  decide

/-! ## Properties of the playback state -/

theorem getElem?_set_map {α : Type} (g : List α) (i k : Nat) (f : α → α) (m : α)
    (h : g[i]? = some m) :
    (g.set i (f m))[k]? = if k = i then (g[i]?).map f else g[k]? := by
  by_cases hk : k = i
  · subst hk
    have hlt : k < g.length := by
      rcases List.getElem?_eq_some_iff.1 h with ⟨hlt, -⟩
      exact hlt
    simp [h, List.getElem?_set_self, hlt]
  · simp [hk, List.getElem?_set_ne (Ne.symm hk)]

theorem set_mute_get (g : Setup) (i k : Nat) :
    (bt_machine_set_mute g i).2[k]? =
      if k = i then (g[i]?).map SongMachine.muted else g[k]? := by
  unfold bt_machine_set_mute
  cases h : g[i]? with
  | none =>
    by_cases hk : k = i
    · subst hk; simp [h]
    · simp [hk]
  | some m =>
    have := getElem?_set_map g i k SongMachine.muted m h
    rw [h] at this
    exact this

theorem unset_mute_get (g : Setup) (i k : Nat) :
    (bt_machine_unset_mute g i).2[k]? =
      if k = i then (g[i]?).map SongMachine.unmuted else g[k]? := by
  unfold bt_machine_unset_mute
  cases h : g[i]? with
  | none =>
    by_cases hk : k = i
    · subst hk; simp [h]
    · simp [hk]
  | some m =>
    have := getElem?_set_map g i k SongMachine.unmuted m h
    rw [h] at this
    exact this

theorem set_state_get (g : Setup) (self k : Nat) (s : BtMachineState) :
    (set_state g self s)[k]? =
      if k = self then (g[self]?).map (fun m => { m with state := s }) else g[k]? := by
  unfold set_state
  cases h : g[self]? with
  | none =>
    by_cases hk : k = self
    · subst hk; simp [h]
    · simp [hk]
  | some m =>
    have := getElem?_set_map g self k (fun m => { m with state := s }) m h
    rw [h] at this
    exact this

theorem unmuted_unmuted (m : SongMachine) : m.unmuted.unmuted = m.unmuted := by
  unfold SongMachine.unmuted SongMachine.write_mute
  cases hk : m.kind <;> cases hi : m.input_gain <;> cases ho : m.output_gain <;> simp [hk, hi, ho]

theorem solo_leave_loop_get (self : Nat) (ms : List Nat) (st : Bool × Setup) (k : Nat) :
    (solo_leave_loop self ms st).2[k]? =
      if k ≠ self ∧ k ∈ ms then (st.2[k]?).map SongMachine.unmuted else st.2[k]? := by
  induction ms generalizing st with
  | nil => simp [solo_leave_loop]
  | cons machine node ih =>
    unfold solo_leave_loop
    by_cases hm : machine = self
    · subst hm
      simp only [ne_eq, not_true_eq_false, if_false, ih]
      by_cases hk : k = machine
      · simp [hk]
      · simp [hk]
    · simp only [ne_eq, hm, not_false_eq_true, if_true, ih, unset_mute_get]
      by_cases hk : k = machine
      · subst hk
        by_cases hn : k ∈ node
        · cases hg : st.2[k]? <;> simp [hm, hn, hg, unmuted_unmuted]
        · simp [hm, hn]
      · by_cases hn : k ∈ node <;> by_cases hs : k = self <;> simp [hk, hn, hs] <;>
          exact fun h => absurd h.symm hm

theorem other_solo_congr (g1 g2 : Setup) (self : Nat) (ms : List Nat)
    (h : ∀ j, j ∈ ms → j ≠ self → g1[j]? = g2[j]?) :
    other_solo g1 self ms = other_solo g2 self ms := by
  induction ms with
  | nil => rfl
  | cons a node ih =>
    have ih' := ih (fun j hj hne => h j (List.mem_cons_of_mem _ hj) hne)
    unfold other_solo at ih' ⊢
    simp only [List.any_cons, ih']
    by_cases ha : a = self
    · simp [ha]
    · rw [h a (List.mem_cons_self _ _) ha]

theorem unsolo_map_eq (o : Option SongMachine)
    (h : ¬ o.map SongMachine.state = some BtMachineState.solo) :
    o.map SongMachine.unsolo = o := by
  cases o with
  | none => rfl
  | some m =>
    have : m.state ≠ BtMachineState.solo := by simpa using h
    simp [SongMachine.unsolo, this]

theorem solo_enter_body_get (self machine : Nat) (hm : machine ≠ self)
    (st : Bool × Setup) (k : Nat) :
    (solo_enter_body self machine st).2[k]? =
      if k = self then
        (if (st.2[machine]?).map SongMachine.state = some BtMachineState.solo
          then (st.2[self]?).map SongMachine.unmuted else st.2[self]?)
      else if k = machine then (st.2[machine]?).map (fun m => m.unsolo.muted)
      else st.2[k]? := by
  unfold solo_enter_body
  simp only [ne_eq, hm, not_false_eq_true, if_true, set_mute_get]
  by_cases hs : (st.2[machine]?).map SongMachine.state = some BtMachineState.solo
  · simp only [hs, if_true, unset_mute_get]
    cases hg : st.2[machine]? with
    | none => simp [hg] at hs
    | some m =>
      have hst : m.state = BtMachineState.solo := by simpa [hg] using hs
      simp only [set_state_get, hg]
      by_cases hk : k = self
      · subst hk
        simp [Ne.symm hm, hm]
      · by_cases hk2 : k = machine
        · subst hk2
          simp [hm, SongMachine.unsolo, hst]
        · simp [hk, hk2]
  · simp only [hs, if_false]
    by_cases hk : k = self
    · subst hk
      simp [Ne.symm hm]
    · by_cases hk2 : k = machine
      · subst hk2
        simp only [hk, if_false, if_true]
        conv_lhs => rw [← unsolo_map_eq _ hs]
        simp [Option.map_map, Function.comp_def]
      · simp [hk, hk2]

theorem solo_enter_loop_get (self : Nat) (ms : List Nat) (hnd : ms.Nodup)
    (st : Bool × Setup) (k : Nat) :
    (solo_enter_loop self ms st).2[k]? =
      if k = self then
        (if other_solo st.2 self ms then (st.2[self]?).map SongMachine.unmuted
          else st.2[self]?)
      else if k ∈ ms then (st.2[k]?).map (fun m => m.unsolo.muted)
      else st.2[k]? := by
  induction ms generalizing st with
  | nil => by_cases hk : k = self <;> simp [solo_enter_loop, other_solo, hk]
  | cons machine node ih =>
    have hnd' : node.Nodup := (List.nodup_cons.1 hnd).2
    have hnotin : machine ∉ node := (List.nodup_cons.1 hnd).1
    unfold solo_enter_loop
    rw [ih hnd']
    by_cases hm : machine = self
    · subst hm
      have hb : solo_enter_body machine machine st = st := by simp [solo_enter_body]
      have hiff : other_solo st.2 machine (machine :: node) = other_solo st.2 machine node := by
        simp [other_solo]
      rw [hb, hiff]
      by_cases hk : k = machine
      · simp [hk]
      · simp [hk]
    · have hcongr : other_solo (solo_enter_body self machine st).2 self node =
          other_solo st.2 self node := by
        apply other_solo_congr
        intro j hj hne
        have hjm : j ≠ machine := fun h => hnotin (h ▸ hj)
        simp [solo_enter_body_get self machine hm, hne, hjm]
      have hcons : other_solo st.2 self (machine :: node) =
          (decide ((st.2[machine]?).map SongMachine.state = some BtMachineState.solo) ||
            other_solo st.2 self node) := by
        simp [other_solo, hm]
      rw [hcongr, hcons]
      simp only [solo_enter_body_get self machine hm]
      by_cases hk : k = self
      · subst hk
        by_cases hs : (st.2[machine]?).map SongMachine.state = some BtMachineState.solo <;>
          cases hos : other_solo st.2 k node <;>
          cases hg : st.2[k]? <;> simp [hs, hos, hg, unmuted_unmuted]
      · by_cases hk2 : k = machine
        · subst hk2
          simp [hk, hnotin]
        · by_cases hkn : k ∈ node <;> simp [hk, hk2, hkn]

theorem source_machines_nodup (g : Setup) : (bt_setup_get_source_machines g).Nodup :=
  List.Nodup.filter _ (List.nodup_range _)

theorem mem_source_machines (g : Setup) (k : Nat) :
    k ∈ bt_setup_get_source_machines g ↔
      (g[k]?).map SongMachine.kind = some BtMachineKind.source := by
  unfold bt_setup_get_source_machines
  simp only [List.mem_filter, List.mem_range, decide_eq_true_eq]
  constructor
  · exact fun h => h.2
  · intro h
    refine ⟨?_, h⟩
    by_contra hlt
    rw [List.getElem?_eq_none (by omega)] at h
    simp at h

theorem set_passthrough_get (g : Setup) (self k : Nat) (v : Bool) :
    (set_passthrough g self v)[k]? =
      if k = self then (g[self]?).map
        (fun m => if m.base_transform then { m with passthrough := v } else m)
      else g[k]? := by
  unfold set_passthrough
  cases h : g[self]? with
  | none =>
    by_cases hk : k = self
    · subst hk; simp [h]
    · simp [hk]
  | some m =>
    by_cases hb : m.base_transform = true
    · have := getElem?_set_map g self k
        (fun m => if m.base_transform then { m with passthrough := v } else m) m h
      simp only [hb, if_true, h] at this ⊢
      exact this
    · by_cases hk : k = self
      · subst hk; simp [h, hb]
      · simp [hk, hb]

theorem leave_state_get (g : Setup) (self : Nat) (m : SongMachine) (res : Bool)
    (hm : g[self]? = some m) (hns : m.state ≠ BtMachineState.solo) (k : Nat) :
    (leave_state g self res m.state).2[k]? = if k = self then some m.left else g[k]? := by
  cases hs : m.state with
  | solo => exact absurd hs hns
  | normal =>
    by_cases hk : k = self
    · subst hk; simp [leave_state, hm, SongMachine.left, hs]
    · simp [leave_state, hk]
  | mute => simp [leave_state, unset_mute_get, hm, SongMachine.left, hs]
  | bypass => simp [leave_state, set_passthrough_get, hm, SongMachine.left, hs]

theorem length_eq_of_getElem? {α β : Type} (f : α → β) (g1 g2 : List α)
    (h : ∀ k : Nat, (g1[k]?).map f = (g2[k]?).map f) : g1.length = g2.length := by
  apply Nat.le_antisymm
  · by_contra hlt
    have h1 := h g2.length
    rw [List.getElem?_eq_none (Nat.le_refl _)] at h1
    have : g2.length < g1.length := by omega
    rw [List.getElem?_eq_getElem this] at h1
    simp at h1
  · by_contra hlt
    have h1 := h g1.length
    rw [List.getElem?_eq_none (Nat.le_refl _)] at h1
    have : g1.length < g2.length := by omega
    rw [List.getElem?_eq_getElem this] at h1
    simp at h1

theorem source_machines_congr (g1 g2 : Setup)
    (h : ∀ k : Nat, (g1[k]?).map SongMachine.kind = (g2[k]?).map SongMachine.kind) :
    bt_setup_get_source_machines g1 = bt_setup_get_source_machines g2 := by
  unfold bt_setup_get_source_machines
  rw [length_eq_of_getElem? SongMachine.kind g1 g2 h]
  apply List.filter_congr
  intro k _
  rw [h k]

theorem left_kind (m : SongMachine) : m.left.kind = m.kind := by
  unfold SongMachine.left SongMachine.unmuted SongMachine.write_mute
  cases m.state <;> simp <;> split <;> (try split) <;> simp

theorem change_state_solo_get (g : Setup) (a : Nat) (ma : SongMachine)
    (ha : g[a]? = some ma) (hkind : ma.kind ≠ BtMachineKind.sink)
    (hns : ma.state ≠ BtMachineState.solo) (k : Nat) :
    (bt_machine_change_state g a BtMachineState.solo).2[k]? =
      if k = a then
        some { (if other_solo g a (bt_setup_get_source_machines g) then ma.left.unmuted
          else ma.left) with state := BtMachineState.solo }
      else if (g[k]?).map SongMachine.kind = some BtMachineKind.source then
        (g[k]?).map (fun m => m.unsolo.muted)
      else g[k]? := by
  have hl := leave_state_get g a ma true ha hns
  have hkinds : ∀ j : Nat, ((leave_state g a true ma.state).2[j]?).map SongMachine.kind =
      (g[j]?).map SongMachine.kind := by
    intro j
    rw [hl j]
    by_cases hj : j = a
    · subst hj; simp [ha, left_kind]
    · simp [hj]
  have hsrc := source_machines_congr _ _ hkinds
  have hos : other_solo (leave_state g a true ma.state).2 a (bt_setup_get_source_machines g) =
      other_solo g a (bt_setup_get_source_machines g) := by
    apply other_solo_congr
    intro j _ hne
    simp [hl j, hne]
  unfold bt_machine_change_state
  simp only [ha, reduceCtorEq, false_and, if_false, true_and, hkind, hns, enter_state]
  simp only [set_state_get, hsrc, solo_enter_loop_get _ _ (source_machines_nodup g), hos, hl,
    mem_source_machines, if_true]
  by_cases hk : k = a
  · subst hk
    cases other_solo g k (bt_setup_get_source_machines g) <;> simp
  · simp [hk]

theorem change_state_solo_normal_get (g : Setup) (a : Nat) (ma : SongMachine)
    (ha : g[a]? = some ma) (hs : ma.state = BtMachineState.solo) (k : Nat) :
    (bt_machine_change_state g a BtMachineState.normal).2[k]? =
      if k = a then some { ma with state := BtMachineState.normal }
      else if (g[k]?).map SongMachine.kind = some BtMachineKind.source then
        (g[k]?).map SongMachine.unmuted
      else g[k]? := by
  unfold bt_machine_change_state
  simp only [ha, reduceCtorEq, false_and, if_false, hs, enter_state, leave_state,
    set_state_get, solo_leave_loop_get, mem_source_machines]
  by_cases hk : k = a
  · subst hk
    simp [ha]
  · simp [hk]

/-- Claim C8: `bt_machine_change_state` to Bypass on a machine that is not a
processor, and to Solo on a sink machine, returns FALSE and leaves the whole
setup (the state, mute flags and every other field of every machine)
unchanged, whatever the state of the machine. -/
theorem change_state_rejected (g : Setup) (self : Nat) (m : SongMachine)
    (new_state : BtMachineState) (hm : g[self]? = some m)
    (h : (new_state = BtMachineState.bypass ∧ m.kind ≠ BtMachineKind.processor) ∨
      (new_state = BtMachineState.solo ∧ m.kind = BtMachineKind.sink)) :
    bt_machine_change_state g self new_state = (false, g) := by
  unfold bt_machine_change_state
  rcases h with ⟨h1, h2⟩ | ⟨h1, h2⟩
  · simp [hm, h1, h2]
  · simp [hm, h1, h2]

/-- Claim C9, as amended: in a setup whose source machines all have an
output-gain element, for a source machine A that is not already Solo, after
`bt_machine_change_state(A, Solo)` every other source machine has its mute flag
TRUE and is Normal if it was Solo, A is Solo, and the mute flag of A is FALSE
if A was Mute or another source machine was Solo, and is what it was before
otherwise. -/
theorem change_state_solo (g : Setup) (a : Nat) (ma : SongMachine)
    (ha : g[a]? = some ma) (hkind : ma.kind = BtMachineKind.source)
    (hns : ma.state ≠ BtMachineState.solo)
    (hgain : ∀ (k : Nat) (m : SongMachine), g[k]? = some m →
      m.kind = BtMachineKind.source → m.output_gain ≠ none) :
    (∀ (k : Nat) (m : SongMachine), k ≠ a → g[k]? = some m →
      m.kind = BtMachineKind.source →
      ∃ m', (bt_machine_change_state g a BtMachineState.solo).2[k]? = some m' ∧
        m'.output_gain = some true ∧
        (m.state = BtMachineState.solo → m'.state = BtMachineState.normal)) ∧
    (∃ ma', (bt_machine_change_state g a BtMachineState.solo).2[a]? = some ma' ∧
      ma'.state = BtMachineState.solo ∧
      ma'.output_gain =
        if ma.state = BtMachineState.mute ∨
            other_solo g a (bt_setup_get_source_machines g) = true
        then some false else ma.output_gain) := by
  have hsink : ma.kind ≠ BtMachineKind.sink := by simp [hkind]
  constructor
  · intro k m hk hm hmk
    refine ⟨m.unsolo.muted, ?_, ?_, ?_⟩
    · rw [change_state_solo_get g a ma ha hsink hns k]
      simp [hk, hm, hmk]
    · have hg := hgain k m hm hmk
      cases ho : m.output_gain with
      | none => exact absurd ho hg
      | some b =>
        unfold SongMachine.muted SongMachine.write_mute SongMachine.unsolo
        split <;> simp [hmk, ho]
    · intro hst
      unfold SongMachine.muted SongMachine.write_mute SongMachine.unsolo
      simp only [hst, if_true, hmk, reduceCtorEq, if_false]
      split <;> rfl
  · have hg := hgain a ma ha hkind
    rw [change_state_solo_get g a ma ha hsink hns a]
    refine ⟨{ (if other_solo g a (bt_setup_get_source_machines g) then ma.left.unmuted
      else ma.left) with state := BtMachineState.solo }, by simp, rfl, ?_⟩
    cases ho : ma.output_gain with
    | none => exact absurd ho hg
    | some b =>
      cases hos : other_solo g a (bt_setup_get_source_machines g) <;>
        cases hst : ma.state <;>
        simp [SongMachine.left, SongMachine.unmuted, SongMachine.write_mute, hkind, ho, hst] <;>
        (try split) <;> simp_all


theorem change_state_rejected_witness :
    [source_machine BtMachineState.mute true, sink_machine][1]? = some sink_machine ∧
    bt_machine_change_state [source_machine BtMachineState.mute true, sink_machine] 1
      BtMachineState.solo =
      (false, [source_machine BtMachineState.mute true, sink_machine]) :=
  ⟨by decide,
    change_state_rejected [source_machine BtMachineState.mute true, sink_machine] 1
      sink_machine BtMachineState.solo (by decide) (Or.inr ⟨rfl, rfl⟩)⟩

theorem change_state_solo_witness :
    (∃ m', (bt_machine_change_state
        [source_machine BtMachineState.normal true, source_machine BtMachineState.solo false]
        0 BtMachineState.solo).2[1]? = some m' ∧
      m'.output_gain = some true ∧
      (BtMachineState.solo = BtMachineState.solo → m'.state = BtMachineState.normal)) ∧
    (∃ ma', (bt_machine_change_state
        [source_machine BtMachineState.normal true, source_machine BtMachineState.solo false]
        0 BtMachineState.solo).2[0]? = some ma' ∧
      ma'.state = BtMachineState.solo ∧ ma'.output_gain = some false) :=
  ⟨(change_state_solo
      [source_machine BtMachineState.normal true, source_machine BtMachineState.solo false]
      0 (source_machine BtMachineState.normal true) (by decide) (by decide) (by decide)
      (by
        intro k m hm _
        match k, hm with
        | 0, hm => cases hm; decide
        | 1, hm => cases hm; decide
        | k + 2, hm => simp at hm)).1 1 (source_machine BtMachineState.solo false)
      (by decide) (by decide) (by decide),
   (change_state_solo
      [source_machine BtMachineState.normal true, source_machine BtMachineState.solo false]
      0 (source_machine BtMachineState.normal true) (by decide) (by decide) (by decide)
      (by
        intro k m hm _
        match k, hm with
        | 0, hm => cases hm; decide
        | 1, hm => cases hm; decide
        | k + 2, hm => simp at hm)).2⟩

/-- Claim C9 as stated fails in two ways. First, when A is already Solo the
call returns TRUE at once and changes nothing: in the setup reached from two
unmuted Normal sources by Solo on machine 0, then Mute and Normal on machine 1,
machine 1 is unmuted and stays unmuted after another Solo on machine 0.
Second, when A is Normal with its mute flag set and no other source is Solo,
the flag of A stays TRUE. -/
theorem change_state_solo_leaves_flags :
    (bt_machine_change_state
      (bt_machine_change_state
        (bt_machine_change_state
          [source_machine BtMachineState.normal false,
            source_machine BtMachineState.normal false]
          0 BtMachineState.solo).2
        1 BtMachineState.mute).2
      1 BtMachineState.normal).2 =
      [source_machine BtMachineState.solo false, source_machine BtMachineState.normal false] ∧
    bt_machine_change_state
      [source_machine BtMachineState.solo false, source_machine BtMachineState.normal false]
      0 BtMachineState.solo =
      (true, [source_machine BtMachineState.solo false,
        source_machine BtMachineState.normal false]) ∧
    (source_machine BtMachineState.normal false).mute_flag = some false ∧
    bt_machine_change_state
      [source_machine BtMachineState.normal true, source_machine BtMachineState.normal false]
      0 BtMachineState.solo =
      (true, [source_machine BtMachineState.solo true,
        source_machine BtMachineState.normal true]) ∧
    (source_machine BtMachineState.solo true).mute_flag = some true := by
  decide

/-- Claim C10, as amended: for a source machine A in state Normal,
`bt_machine_change_state(A, Solo)` followed by `bt_machine_change_state(A,
Normal)` leaves every sibling source machine with its mute flag FALSE (when it
has an output gain element) and with its state unchanged, except that a
sibling that was Solo is Normal; so a sibling that was Normal and unmuted is
restored, and a sibling that was in state Mute keeps that state but is
unmuted. -/
theorem solo_round_trip (g : Setup) (a : Nat) (ma : SongMachine)
    (ha : g[a]? = some ma) (hkind : ma.kind = BtMachineKind.source)
    (hst : ma.state = BtMachineState.normal)
    (k : Nat) (m : SongMachine) (hk : k ≠ a) (hm : g[k]? = some m)
    (hmk : m.kind = BtMachineKind.source) :
    (bt_machine_change_state (bt_machine_change_state g a BtMachineState.solo).2 a
      BtMachineState.normal).2[k]? =
      some { m with
        state := if m.state = BtMachineState.solo then BtMachineState.normal else m.state
        output_gain := m.output_gain.map (fun _ => false) } := by
  have hsink : ma.kind ≠ BtMachineKind.sink := by simp [hkind]
  have hns : ma.state ≠ BtMachineState.solo := by simp [hst]
  have h1 := change_state_solo_get g a ma ha hsink hns
  have ha1 := h1 a
  simp only [if_true] at ha1
  rw [change_state_solo_normal_get _ a _ ha1 rfl k]
  simp only [hk, if_false, h1 k, hm, hmk, Option.map_some', if_true]
  have hkind' : m.unsolo.muted.kind = BtMachineKind.source := by
    unfold SongMachine.muted SongMachine.write_mute SongMachine.unsolo
    split <;> simp [hmk] <;> split <;> simp [hmk]
  simp only [hkind', if_true, Option.some.injEq]
  clear hkind' hm
  rcases m with ⟨mk, mst, mi, mo, mb, mp⟩
  simp only at hmk
  subst hmk
  unfold SongMachine.unmuted SongMachine.muted SongMachine.write_mute SongMachine.unsolo
  cases mo <;> by_cases hs : mst = BtMachineState.solo <;> simp [hs]

theorem solo_round_trip_witness :
    (bt_machine_change_state (bt_machine_change_state
      [source_machine BtMachineState.normal false, source_machine BtMachineState.normal false]
      0 BtMachineState.solo).2 0 BtMachineState.normal).2[1]? =
      some { source_machine BtMachineState.normal false with
        state := if (source_machine BtMachineState.normal false).state = BtMachineState.solo
          then BtMachineState.normal
          else (source_machine BtMachineState.normal false).state
        output_gain :=
          (source_machine BtMachineState.normal false).output_gain.map (fun _ => false) } :=
  solo_round_trip
    [source_machine BtMachineState.normal false, source_machine BtMachineState.normal false]
    0 (source_machine BtMachineState.normal false) (by decide) (by decide) (by decide)
    1 (source_machine BtMachineState.normal false) (by decide) (by decide) (by decide)

/-- Claim C10 as stated fails for a sibling in state Mute: with A Normal and
the sibling Mute and muted, Solo then Normal on A leaves the sibling in state
Mute with its mute flag FALSE. -/
theorem solo_round_trip_unmutes_muted :
    (bt_machine_change_state (bt_machine_change_state
      [source_machine BtMachineState.normal false, source_machine BtMachineState.mute true]
      0 BtMachineState.solo).2 0 BtMachineState.normal) =
      (true, [source_machine BtMachineState.normal false,
        source_machine BtMachineState.mute false]) ∧
    (source_machine BtMachineState.mute true).mute_flag = some true ∧
    (source_machine BtMachineState.mute false).mute_flag = some false := by
  decide

/-! ## The chain invariant -/

theorem np_first (ms : Nat → Bool) (pos post : Nat)
    (hbelow : ∀ k, k < pos → ms k = false) (hpos : ms pos = false)
    (hpp : pos < post) (hpc : post < PART_COUNT) (hpost : ms post = true)
    (hgap : ∀ k, pos < k → k < post → ms k = false) (i j : Nat) :
    NextPresent (set_part ms pos true) i j ↔ NextPresent ms i j ∨ (i = pos ∧ j = post) := by
  unfold NextPresent set_part
  constructor
  · rintro ⟨hij, hj, hi, hjp, hg⟩
    by_cases hip : i = pos
    · subst hip
      right
      refine ⟨rfl, ?_⟩
      have hjne : j ≠ i := by omega
      simp only [hjne, if_false] at hjp
      by_contra hne
      rcases Nat.lt_or_gt_of_ne hne with h | h
      · have := hgap j hij h
        simp [this] at hjp
      · have := hg post hpp h
        have hpne : post ≠ i := by omega
        simp [hpne, hpost] at this
    · left
      simp only [hip, if_false] at hi
      have hipos : pos < i := by
        by_contra h
        have := hbelow i (by omega)
        simp [this] at hi
      have hjne : j ≠ pos := by omega
      simp only [hjne, if_false] at hjp
      refine ⟨hij, hj, hi, hjp, fun k h1 h2 => ?_⟩
      have := hg k h1 h2
      have hkne : k ≠ pos := by omega
      simpa [hkne] using this
  · rintro (⟨hij, hj, hi, hjp, hg⟩ | ⟨rfl, rfl⟩)
    · have hipos : pos < i := by
        by_contra h
        by_cases hip : i = pos
        · subst hip; simp [hpos] at hi
        · have := hbelow i (by omega)
          simp [this] at hi
      refine ⟨hij, hj, by simp [hi], by simp [hjp], fun k h1 h2 => ?_⟩
      have hkne : k ≠ pos := by omega
      simp [hkne, hg k h1 h2]
    · refine ⟨hpp, hpc, by simp, by simp [hpost], fun k h1 h2 => ?_⟩
      have hkne : k ≠ i := by omega
      simp [hkne, hgap k h1 h2]

theorem np_last (ms : Nat → Bool) (pos pre : Nat)
    (habove : ∀ k, pos < k → k < PART_COUNT → ms k = false) (hpos : ms pos = false)
    (hpp : pre < pos) (hpc : pos < PART_COUNT) (hpre : ms pre = true)
    (hgap : ∀ k, pre < k → k < pos → ms k = false) (i j : Nat) :
    NextPresent (set_part ms pos true) i j ↔ NextPresent ms i j ∨ (i = pre ∧ j = pos) := by
  unfold NextPresent set_part
  constructor
  · rintro ⟨hij, hj, hi, hjp, hg⟩
    by_cases hjpos : j = pos
    · subst hjpos
      right
      refine ⟨?_, rfl⟩
      have hine : i ≠ j := by omega
      simp only [hine, if_false] at hi
      by_contra hne
      rcases Nat.lt_or_gt_of_ne hne with h | h
      · have := hg pre h hpp
        have hpne : pre ≠ j := by omega
        simp [hpne, hpre] at this
      · have := hgap i h hij
        simp [this] at hi
    · left
      simp only [hjpos, if_false] at hjp
      have hjlt : j < pos := by
        by_contra h
        have := habove j (by omega) hj
        simp [this] at hjp
      have hine : i ≠ pos := by omega
      simp only [hine, if_false] at hi
      refine ⟨hij, hj, hi, hjp, fun k h1 h2 => ?_⟩
      have := hg k h1 h2
      have hkne : k ≠ pos := by omega
      simpa [hkne] using this
  · rintro (⟨hij, hj, hi, hjp, hg⟩ | ⟨rfl, rfl⟩)
    · have hjlt : j < pos := by
        by_contra h
        by_cases hjp' : j = pos
        · subst hjp'; simp [hpos] at hjp
        · have := habove j (by omega) hj
          simp [this] at hjp
      refine ⟨hij, hj, by simp [hi], by simp [hjp], fun k h1 h2 => ?_⟩
      have hkne : k ≠ pos := by omega
      simp [hkne, hg k h1 h2]
    · refine ⟨hpp, hpc, by simp [hpre], by simp, fun k h1 h2 => ?_⟩
      have hkne : k ≠ j := by omega
      simp [hkne, hgap k h1 h2]

theorem np_between (ms : Nat → Bool) (pos pre post : Nat)
    (h1 : pre < pos) (h2 : pos < post) (hnp : NextPresent ms pre post) (i j : Nat) :
    NextPresent (set_part ms pos true) i j ↔
      (NextPresent ms i j ∧ ¬ (i = pre ∧ j = post)) ∨ (i = pre ∧ j = pos) ∨
      (i = pos ∧ j = post) := by
  obtain ⟨-, hpc, hpre, hpost, hgap⟩ := hnp
  have hpos : ms pos = false := hgap pos h1 h2
  unfold NextPresent set_part
  constructor
  · rintro ⟨hij, hj, hi, hjp, hg⟩
    by_cases hip : i = pos
    · subst hip
      right; right
      refine ⟨rfl, ?_⟩
      have hjne : j ≠ i := by omega
      simp only [hjne, if_false] at hjp
      by_contra hne
      rcases Nat.lt_or_gt_of_ne hne with h | h
      · have := hgap j (by omega) h
        simp [this] at hjp
      · have := hg post h2 h
        have hpne : post ≠ i := by omega
        simp [hpne, hpost] at this
    · by_cases hjpos : j = pos
      · subst hjpos
        right; left
        refine ⟨?_, rfl⟩
        simp only [hip, if_false] at hi
        by_contra hne
        rcases Nat.lt_or_gt_of_ne hne with h | h
        · have := hg pre h h1
          have hpne : pre ≠ j := by omega
          simp [hpne, hpre] at this
        · have := hgap i h (by omega)
          simp [this] at hi
      · left
        simp only [hip, if_false] at hi
        simp only [hjpos, if_false] at hjp
        have hout : ¬ (i < pos ∧ pos < j) := by
          rintro ⟨ha, hb⟩
          have := hg pos ha hb
          simp at this
        refine ⟨⟨hij, hj, hi, hjp, fun k hk1 hk2 => ?_⟩, ?_⟩
        · have := hg k hk1 hk2
          have hkne : k ≠ pos := by
            rintro rfl
            exact hout ⟨hk1, hk2⟩
          simpa [hkne] using this
        · rintro ⟨rfl, rfl⟩
          exact hout ⟨h1, h2⟩
  · rintro (⟨⟨hij, hj, hi, hjp, hg⟩, hne⟩ | ⟨rfl, rfl⟩ | ⟨rfl, rfl⟩)
    · have hout : ¬ (i < pos ∧ pos < j) := by
        rintro ⟨ha, hb⟩
        apply hne
        constructor
        · by_contra hn
          rcases Nat.lt_or_gt_of_ne hn with h | h
          · have := hg pre h (by omega)
            simp [this] at hpre
          · have := hgap i h (by omega)
            simp [this] at hi
        · by_contra hn
          rcases Nat.lt_or_gt_of_ne hn with h | h
          · have := hgap j (by omega) h
            simp [this] at hjp
          · have := hg post (by omega) h
            simp [this] at hpost
      refine ⟨hij, hj, by simp [hi], by simp [hjp], fun k hk1 hk2 => ?_⟩
      have hkne : k ≠ pos := by
        rintro rfl
        exact hout ⟨hk1, hk2⟩
      simp [hkne, hg k hk1 hk2]
    · refine ⟨h1, by omega, by simp [hpre], by simp, fun k hk1 hk2 => ?_⟩
      have hkne : k ≠ j := by omega
      simp [hkne, hgap k hk1 (by omega)]
    · refine ⟨h2, hpc, by simp, by simp [hpost], fun k hk1 hk2 => ?_⟩
      have hkne : k ≠ i := by omega
      simp [hkne, hgap k (by omega) hk2]

theorem chain_first (ms : Nat → Bool) (links links' : List (Pad × Pad)) (pos post : Nat)
    (hchain : Chain ms links)
    (hbelow : ∀ k, k < pos → ms k = false) (hpos : ms pos = false)
    (hpp : pos < post) (hpc : post < PART_COUNT) (hpost : ms post = true)
    (hgap : ∀ k, pos < k → k < post → ms k = false)
    (hsub : ∀ p q, (p, q) ∈ links' → (p, q) ∈ links ∨
      (p = Pad.src pos ∧ q = Pad.sink post) ∨ p.is_ext = true ∨ q.is_ext = true)
    (hkeep : ∀ p q, (p, q) ∈ links → p.is_ext = false → q.is_ext = false → (p, q) ∈ links')
    (hnew : (Pad.src pos, Pad.sink post) ∈ links') :
    Chain (set_part ms pos true) links' := by
  have hnp := np_first ms pos post hbelow hpos hpp hpc hpost hgap
  constructor
  · intro i j hij
    rcases (hnp i j).1 hij with h | ⟨rfl, rfl⟩
    · exact hkeep _ _ (hchain.1 i j h) rfl rfl
    · exact hnew
  · intro p q hpq
    rcases hsub p q hpq with h | ⟨rfl, rfl⟩ | h | h
    · rcases hchain.2 p q h with h' | h' | ⟨i, j, hij, rfl, rfl⟩
      · exact Or.inl h'
      · exact Or.inr (Or.inl h')
      · exact Or.inr (Or.inr ⟨i, j, (hnp i j).2 (Or.inl hij), rfl, rfl⟩)
    · exact Or.inr (Or.inr ⟨pos, post, (hnp pos post).2 (Or.inr ⟨rfl, rfl⟩), rfl, rfl⟩)
    · exact Or.inl h
    · exact Or.inr (Or.inl h)

theorem chain_last (ms : Nat → Bool) (links links' : List (Pad × Pad)) (pos pre : Nat)
    (hchain : Chain ms links)
    (habove : ∀ k, pos < k → k < PART_COUNT → ms k = false) (hpos : ms pos = false)
    (hpp : pre < pos) (hpc : pos < PART_COUNT) (hpre : ms pre = true)
    (hgap : ∀ k, pre < k → k < pos → ms k = false)
    (hsub : ∀ p q, (p, q) ∈ links' → (p, q) ∈ links ∨
      (p = Pad.src pre ∧ q = Pad.sink pos) ∨ p.is_ext = true ∨ q.is_ext = true)
    (hkeep : ∀ p q, (p, q) ∈ links → p.is_ext = false → q.is_ext = false → (p, q) ∈ links')
    (hnew : (Pad.src pre, Pad.sink pos) ∈ links') :
    Chain (set_part ms pos true) links' := by
  have hnp := np_last ms pos pre habove hpos hpp hpc hpre hgap
  constructor
  · intro i j hij
    rcases (hnp i j).1 hij with h | ⟨rfl, rfl⟩
    · exact hkeep _ _ (hchain.1 i j h) rfl rfl
    · exact hnew
  · intro p q hpq
    rcases hsub p q hpq with h | ⟨rfl, rfl⟩ | h | h
    · rcases hchain.2 p q h with h' | h' | ⟨i, j, hij, rfl, rfl⟩
      · exact Or.inl h'
      · exact Or.inr (Or.inl h')
      · exact Or.inr (Or.inr ⟨i, j, (hnp i j).2 (Or.inl hij), rfl, rfl⟩)
    · exact Or.inr (Or.inr ⟨pre, pos, (hnp pre pos).2 (Or.inr ⟨rfl, rfl⟩), rfl, rfl⟩)
    · exact Or.inl h
    · exact Or.inr (Or.inl h)

theorem chain_between (ms : Nat → Bool) (links links' : List (Pad × Pad))
    (pos pre post : Nat) (hchain : Chain ms links)
    (h1 : pre < pos) (h2 : pos < post) (hnp0 : NextPresent ms pre post)
    (hsub : ∀ p q, (p, q) ∈ links' →
      ((p, q) ∈ links ∧ (p, q) ≠ (Pad.src pre, Pad.sink post)) ∨
      (p = Pad.src pre ∧ q = Pad.sink pos) ∨ (p = Pad.src pos ∧ q = Pad.sink post) ∨
      p.is_ext = true ∨ q.is_ext = true)
    (hkeep : ∀ p q, (p, q) ∈ links → (p, q) ≠ (Pad.src pre, Pad.sink post) →
      (p, q) ∈ links')
    (hnew1 : (Pad.src pre, Pad.sink pos) ∈ links')
    (hnew2 : (Pad.src pos, Pad.sink post) ∈ links') :
    Chain (set_part ms pos true) links' := by
  have hnp := np_between ms pos pre post h1 h2 hnp0
  constructor
  · intro i j hij
    rcases (hnp i j).1 hij with ⟨h, hne⟩ | ⟨rfl, rfl⟩ | ⟨rfl, rfl⟩
    · refine hkeep _ _ (hchain.1 i j h) ?_
      intro heq
      apply hne
      simp only [Prod.mk.injEq, Pad.src.injEq, Pad.sink.injEq] at heq
      omega
    · exact hnew1
    · exact hnew2
  · intro p q hpq
    rcases hsub p q hpq with ⟨h, hne⟩ | ⟨rfl, rfl⟩ | ⟨rfl, rfl⟩ | h | h
    · rcases hchain.2 p q h with h' | h' | ⟨i, j, hij, rfl, rfl⟩
      · exact Or.inl h'
      · exact Or.inr (Or.inl h')
      · refine Or.inr (Or.inr ⟨i, j, (hnp i j).2 (Or.inl ⟨hij, ?_⟩), rfl, rfl⟩)
        rintro ⟨rfl, rfl⟩
        exact hne rfl
    · exact Or.inr (Or.inr ⟨pre, pos, (hnp pre pos).2 (Or.inr (Or.inl ⟨rfl, rfl⟩)), rfl, rfl⟩)
    · exact Or.inr (Or.inr ⟨pos, post, (hnp pos post).2 (Or.inr (Or.inr ⟨rfl, rfl⟩)), rfl, rfl⟩)
    · exact Or.inl h
    · exact Or.inr (Or.inl h)

theorem insert_ok_between (env : Env) (self : Machine) (peer : Pad) (pos pre post : Nat)
    (e1 : scan_pre self.machines pos = (pre : Int))
    (e2 : scan_post self.machines (pos + 1) (PART_COUNT - (pos + 1)) = (post : Int))
    (hlink : ∀ n, env.link_ok n = true) :
    (bt_machine_insert_element env self peer pos).2.machines = self.machines ∧
    (bt_machine_insert_element env self peer pos).2.links =
      self.links.filter (fun l => decide (l ≠ (Pad.src pre, Pad.sink post))) ++
        [(Pad.src pre, Pad.sink pos), (Pad.src pos, Pad.sink post)] := by
  have n1 : ((pre : Int) ≠ -1) := by omega
  have n2 : ((post : Int) ≠ -1) := by omega
  simp only [bt_machine_insert_element, e1, e2]
  simp [n1, n2, bt_machine_link_elements, gst_pad_unlink, hlink]

theorem insert_ok_first (env : Env) (self : Machine) (peer : Pad) (pos post : Nat)
    (e1 : scan_pre self.machines pos = -1)
    (e2 : scan_post self.machines (pos + 1) (PART_COUNT - (pos + 1)) = (post : Int))
    (hlink : ∀ n, env.link_ok n = true) :
    (bt_machine_insert_element env self peer pos).2.machines = self.machines ∧
    (bt_machine_insert_element env self peer pos).2.links =
      self.links.filter (fun l => decide (l ≠ (peer, Pad.sink post))) ++
        [(peer, Pad.sink pos), (Pad.src pos, Pad.sink post)] := by
  have n2 : ((post : Int) ≠ -1) := by omega
  simp only [bt_machine_insert_element, e1, e2]
  simp [n2, bt_machine_link_elements, gst_pad_unlink, hlink]

theorem insert_ok_last (env : Env) (self : Machine) (peer : Pad) (pos pre : Nat)
    (e1 : scan_pre self.machines pos = (pre : Int))
    (e2 : scan_post self.machines (pos + 1) (PART_COUNT - (pos + 1)) = -1)
    (hlink : ∀ n, env.link_ok n = true) :
    (bt_machine_insert_element env self peer pos).2.machines = self.machines ∧
    (bt_machine_insert_element env self peer pos).2.links =
      self.links.filter (fun l => decide (l ≠ (Pad.src pre, peer))) ++
        [(Pad.src pre, Pad.sink pos), (Pad.src pos, peer)] := by
  have n1 : ((pre : Int) ≠ -1) := by omega
  simp only [bt_machine_insert_element, e1, e2]
  simp [n1, bt_machine_link_elements, gst_pad_unlink, hlink]

theorem scan_tix_up_cases (ms : Nat → Bool) (n i : Nat) :
    (scan_tix_up ms i n = PART_MACHINE ∧ ∀ k, i ≤ k → k < i + n → ms k = false) ∨
    (i ≤ scan_tix_up ms i n ∧ scan_tix_up ms i n < i + n ∧
      ms (scan_tix_up ms i n) = true ∧
      ∀ k, i ≤ k → k < scan_tix_up ms i n → ms k = false) := by
  induction n generalizing i with
  | zero => exact Or.inl ⟨rfl, fun k h1 h2 => by omega⟩
  | succ n ih =>
    cases hi : ms i with
    | true =>
      refine Or.inr ?_
      simp only [scan_tix_up, hi, if_true]
      exact ⟨Nat.le_refl i, by omega, trivial, fun k h1 h2 => by omega⟩
    | false =>
      simp only [scan_tix_up, hi]
      rcases ih (i + 1) with ⟨h1, h2⟩ | ⟨h1, h2, h3, h4⟩
      · refine Or.inl ⟨by simpa using h1, fun k hk1 hk2 => ?_⟩
        by_cases hki : k = i
        · subst hki; exact hi
        · exact h2 k (by omega) (by omega)
      · refine Or.inr ⟨by simp; omega, by simp; omega, by simpa using h3, fun k hk1 hk2 => ?_⟩
        by_cases hki : k = i
        · subst hki; exact hi
        · exact h4 k (by omega) (by simpa using hk2)

theorem scan_tix_down_cases (ms : Nat → Bool) (n : Nat) :
    (scan_tix_down ms n = PART_MACHINE ∧
      ∀ k, PART_MACHINE ≤ k → k < PART_MACHINE + n → ms k = false) ∨
    (PART_MACHINE ≤ scan_tix_down ms n ∧ scan_tix_down ms n < PART_MACHINE + n ∧
      ms (scan_tix_down ms n) = true ∧
      ∀ k, scan_tix_down ms n < k → k < PART_MACHINE + n → ms k = false) := by
  induction n with
  | zero => exact Or.inl ⟨rfl, fun k h1 h2 => by omega⟩
  | succ n ih =>
    cases hi : ms (PART_MACHINE + n) with
    | true =>
      refine Or.inr ?_
      simp only [scan_tix_down, hi, if_true]
      exact ⟨by omega, by omega, trivial, fun k h1 h2 => by omega⟩
    | false =>
      simp only [scan_tix_down, hi]
      rcases ih with ⟨h1, h2⟩ | ⟨h1, h2, h3, h4⟩
      · refine Or.inl ⟨by simpa using h1, fun k hk1 hk2 => ?_⟩
        by_cases hki : k = PART_MACHINE + n
        · subst hki; exact hi
        · exact h2 k hk1 (by omega)
      · refine Or.inr ⟨by simpa using h1, by simp; omega, by simpa using h3, fun k hk1 hk2 => ?_⟩
        by_cases hki : k = PART_MACHINE + n
        · subst hki; exact hi
        · exact h4 k (by simpa using hk1) (by omega)

theorem scan_pre_congr (ms ms' : Nat → Bool) (n : Nat) (h : ∀ k, k < n → ms k = ms' k) :
    scan_pre ms n = scan_pre ms' n := by
  induction n with
  | zero => rfl
  | succ n ih =>
    simp only [scan_pre, h n (Nat.lt_succ_self n), ih (fun k hk => h k (Nat.lt_succ_of_lt hk))]

theorem peer_of_sink_none (self : Machine) (sink : Pad) (h : peer_of_sink self sink = none) :
    ∀ p, (p, sink) ∉ self.links := by
  intro p hp
  unfold peer_of_sink at h
  simp only [Option.map_eq_none', List.find?_eq_none] at h
  have := h (p, sink) hp
  simp at this

theorem peer_of_sink_some (self : Machine) (sink peer : Pad)
    (h : peer_of_sink self sink = some peer) : (peer, sink) ∈ self.links := by
  unfold peer_of_sink at h
  simp only [Option.map_eq_some'] at h
  obtain ⟨⟨a, b⟩, hf, rfl⟩ := h
  have hmem := List.mem_of_find?_eq_some hf
  have hb := List.find?_some hf
  simp only [decide_eq_true_eq] at hb
  subst hb
  exact hmem

theorem peer_of_src_none (self : Machine) (src : Pad) (h : peer_of_src self src = none) :
    ∀ q, (src, q) ∉ self.links := by
  intro q hq
  unfold peer_of_src at h
  simp only [Option.map_eq_none', List.find?_eq_none] at h
  have := h (src, q) hq
  simp at this

theorem peer_of_src_some (self : Machine) (src peer : Pad)
    (h : peer_of_src self src = some peer) : (src, peer) ∈ self.links := by
  unfold peer_of_src at h
  simp only [Option.map_eq_some'] at h
  obtain ⟨⟨a, b⟩, hf, rfl⟩ := h
  have hmem := List.mem_of_find?_eq_some hf
  have ha := List.find?_some hf
  simp only [decide_eq_true_eq] at ha
  subst ha
  exact hmem

theorem add_input_chain (env : Env) (m : Machine) (part : Nat) (hpart : part < PART_MACHINE)
    (hlink : ∀ n, env.link_ok n = true)
    (hunit : m.machines PART_MACHINE = true) (habs : m.machines part = false)
    (hchain : Chain m.machines m.links) :
    (bt_machine_add_input_element env
        { m with machines := set_part m.machines part true } part).2.machines =
      set_part m.machines part true ∧
    Chain (set_part m.machines part true)
      (bt_machine_add_input_element env
        { m with machines := set_part m.machines part true } part).2.links := by
  have hpm : PART_MACHINE = 6 := rfl
  have hpcnt : PART_COUNT = 11 := rfl
  have hms1 : ∀ k, k ≠ part → set_part m.machines part true k = m.machines k := by
    intro k hk
    simp [set_part, hk]
  generalize ht : scan_tix_up (set_part m.machines part true) (part + 1)
    (PART_MACHINE + 1 - (part + 1)) = t
  have htspec : part < t ∧ t ≤ PART_MACHINE ∧ m.machines t = true ∧
      ∀ k, part < k → k < t → m.machines k = false := by
    rcases scan_tix_up_cases (set_part m.machines part true)
      (PART_MACHINE + 1 - (part + 1)) (part + 1) with ⟨h1, h2⟩ | ⟨h1, h2, h3, h4⟩
    · have := h2 PART_MACHINE (by omega) (by omega)
      rw [hms1 _ (by omega), hunit] at this
      exact absurd this (by simp)
    · rw [ht] at h1 h2 h3 h4
      refine ⟨by omega, by omega, ?_, fun k hk1 hk2 => ?_⟩
      · rw [hms1 _ (by omega)] at h3; exact h3
      · have := h4 k (by omega) hk2
        rw [hms1 _ (by omega)] at this; exact this
  obtain ⟨ht1, ht2, ht3, ht4⟩ := htspec
  have epost : scan_post (set_part m.machines part true) (part + 1)
      (PART_COUNT - (part + 1)) = (t : Int) := by
    apply scan_post_found _ _ _ _ (by omega) (by omega)
    · rw [hms1 _ (by omega)]; exact ht3
    · intro k hk1 hk2
      rw [hms1 _ (by omega)]
      exact ht4 k (by omega) hk2
  have epre : scan_pre (set_part m.machines part true) part = scan_pre m.machines part :=
    scan_pre_congr _ _ _ (fun k hk => hms1 k (by omega))
  unfold bt_machine_add_input_element
  simp only [ht]
  cases hpeer : peer_of_sink { m with machines := set_part m.machines part true }
      (Pad.sink t) with
  | none =>
    have hno := peer_of_sink_none _ _ hpeer
    simp only at hno
    have hbelow : ∀ k, k < part → m.machines k = false := by
      intro k hk
      by_contra hne
      have hk1 : m.machines k = true := by simpa using hne
      -- the nearest present slot below `part` would be linked to `t`
      rcases scan_pre_cases m.machines part with ⟨-, h2⟩ | ⟨p, -, hp1, hp2, hp3⟩
      · rw [h2 k hk] at hk1; exact absurd hk1 (by simp)
      · have hnp : NextPresent m.machines p t :=
          ⟨by omega, by omega, hp2, ht3, fun j hj1 hj2 => by
            by_cases hjp : j < part
            · exact hp3 j hj1 hjp
            · by_cases hje : j = part
              · subst hje; exact habs
              · exact ht4 j (by omega) hj2⟩
        exact hno _ (hchain.1 p t hnp)
    simp only [bt_machine_link_elements, hlink, if_true]
    refine ⟨trivial, ?_⟩
    apply chain_first m.machines m.links _ part t hchain hbelow habs ht1 (by omega) ht3 ht4
    · intro p q hpq
      simp only [List.mem_append, List.mem_singleton, Prod.mk.injEq] at hpq
      rcases hpq with h | ⟨rfl, rfl⟩
      · exact Or.inl h
      · exact Or.inr (Or.inl ⟨rfl, rfl⟩)
    · intro p q hpq _ _
      simp [hpq]
    · simp
  | some peer =>
    have hin := peer_of_sink_some _ _ _ hpeer
    simp only at hin
    rcases scan_pre_cases m.machines part with ⟨h1, h2⟩ | ⟨p, h1, hp1, hp2, hp3⟩
    · -- no predecessor: the peer is an external pad
      have hext : peer.is_ext = true := by
        rcases hchain.2 _ _ hin with h | h | ⟨i, j, hij, rfl, hq⟩
        · exact h
        · simp [Pad.is_ext] at h
        · exfalso
          simp only [Pad.sink.injEq, Nat.cast_inj] at hq
          subst hq
          obtain ⟨hij1, -, hi, -, hg⟩ := hij
          by_cases hip : i < part
          · rw [h2 i hip] at hi; exact absurd hi (by simp)
          · by_cases hie : i = part
            · subst hie; rw [habs] at hi; exact absurd hi (by simp)
            · rw [ht4 i (by omega) hij1] at hi; exact absurd hi (by simp)
      have hres := insert_ok_first env { m with machines := set_part m.machines part true }
        peer part t (by simp only; rw [epre]; exact h1) epost hlink
      simp only at hres
      refine ⟨hres.1, ?_⟩
      rw [hres.2]
      apply chain_first m.machines m.links _ part t hchain h2 habs ht1 (by omega) ht3 ht4
      · intro p q hpq
        simp only [List.mem_append, List.mem_filter, List.mem_cons, List.mem_singleton,
          Prod.mk.injEq, List.not_mem_nil, or_false] at hpq
        rcases hpq with ⟨h, -⟩ | ⟨rfl, rfl⟩ | ⟨rfl, rfl⟩
        · exact Or.inl h
        · exact Or.inr (Or.inr (Or.inl hext))
        · exact Or.inr (Or.inl ⟨rfl, rfl⟩)
      · intro p q hpq hp _
        simp only [List.mem_append, List.mem_filter, decide_eq_true_eq]
        refine Or.inl ⟨hpq, ?_⟩
        rintro heq
        simp only [Prod.mk.injEq] at heq
        rw [heq.1, hext] at hp
        exact absurd hp (by simp)
      · simp
    · -- both neighbours
      have hnp : NextPresent m.machines p t :=
        ⟨by omega, by omega, hp2, ht3, fun j hj1 hj2 => by
          by_cases hjp : j < part
          · exact hp3 j hj1 hjp
          · by_cases hje : j = part
            · subst hje; exact habs
            · exact ht4 j (by omega) hj2⟩
      have hres := insert_ok_between env { m with machines := set_part m.machines part true }
        peer part p t (by simp only; rw [epre]; exact h1) epost hlink
      simp only at hres
      refine ⟨hres.1, ?_⟩
      rw [hres.2]
      apply chain_between m.machines m.links _ part p t hchain hp1 ht1 hnp
      · intro a b hab
        simp only [List.mem_append, List.mem_filter, List.mem_cons, List.mem_singleton,
          Prod.mk.injEq, List.not_mem_nil, or_false, decide_eq_true_eq] at hab
        rcases hab with ⟨h, hne⟩ | ⟨rfl, rfl⟩ | ⟨rfl, rfl⟩
        · exact Or.inl ⟨h, by simpa using hne⟩
        · exact Or.inr (Or.inl ⟨rfl, rfl⟩)
        · exact Or.inr (Or.inr (Or.inl ⟨rfl, rfl⟩))
      · intro a b hab hne
        simp only [List.mem_append, List.mem_filter, decide_eq_true_eq]
        exact Or.inl ⟨hab, hne⟩
      · simp
      · simp

theorem scan_post_congr (ms ms' : Nat → Bool) (n i : Nat)
    (h : ∀ k, i ≤ k → k < i + n → ms k = ms' k) :
    scan_post ms i n = scan_post ms' i n := by
  induction n generalizing i with
  | zero => rfl
  | succ n ih =>
    simp only [scan_post, h i (Nat.le_refl i) (by omega),
      ih (i + 1) (fun k h1 h2 => h k (by omega) (by omega))]

theorem add_output_chain (env : Env) (m : Machine) (part : Nat)
    (hpart1 : PART_MACHINE < part) (hpart2 : part < PART_COUNT)
    (hlink : ∀ n, env.link_ok n = true)
    (hunit : m.machines PART_MACHINE = true) (habs : m.machines part = false)
    (hchain : Chain m.machines m.links) :
    (bt_machine_add_output_element env
        { m with machines := set_part m.machines part true } part).2.machines =
      set_part m.machines part true ∧
    Chain (set_part m.machines part true)
      (bt_machine_add_output_element env
        { m with machines := set_part m.machines part true } part).2.links := by
  have hpm : PART_MACHINE = 6 := rfl
  have hpcnt : PART_COUNT = 11 := rfl
  have hms1 : ∀ k, k ≠ part → set_part m.machines part true k = m.machines k := by
    intro k hk
    simp [set_part, hk]
  generalize ht : scan_tix_down (set_part m.machines part true) (part - PART_MACHINE) = t
  have htspec : PART_MACHINE ≤ t ∧ t < part ∧ m.machines t = true ∧
      ∀ k, t < k → k < part → m.machines k = false := by
    rcases scan_tix_down_cases (set_part m.machines part true)
      (part - PART_MACHINE) with ⟨h1, h2⟩ | ⟨h1, h2, h3, h4⟩
    · have := h2 PART_MACHINE (by omega) (by omega)
      rw [hms1 _ (by omega), hunit] at this
      exact absurd this (by simp)
    · rw [ht] at h1 h2 h3 h4
      refine ⟨by omega, by omega, ?_, fun k hk1 hk2 => ?_⟩
      · rw [hms1 _ (by omega)] at h3; exact h3
      · have := h4 k hk1 (by omega)
        rw [hms1 _ (by omega)] at this; exact this
  obtain ⟨ht1, ht2, ht3, ht4⟩ := htspec
  have epre : scan_pre (set_part m.machines part true) part = (t : Int) := by
    apply scan_pre_found _ _ _ ht2
    · rw [hms1 _ (by omega)]; exact ht3
    · intro k hk1 hk2
      rw [hms1 _ (by omega)]
      exact ht4 k hk1 hk2
  have epost : scan_post (set_part m.machines part true) (part + 1)
      (PART_COUNT - (part + 1)) = scan_post m.machines (part + 1) (PART_COUNT - (part + 1)) :=
    scan_post_congr _ _ _ _ (fun k hk1 _ => hms1 k (by omega))
  unfold bt_machine_add_output_element
  simp only [ht]
  cases hpeer : peer_of_src { m with machines := set_part m.machines part true }
      (Pad.src t) with
  | none =>
    have hno := peer_of_src_none _ _ hpeer
    simp only at hno
    have habove : ∀ k, part < k → k < PART_COUNT → m.machines k = false := by
      intro k hk hk'
      by_contra hne
      have hk1 : m.machines k = true := by simpa using hne
      rcases scan_post_cases m.machines (PART_COUNT - (part + 1)) (part + 1)
        with ⟨-, h2⟩ | ⟨p, -, hp0, hp1, hp2, hp3⟩
      · rw [h2 k (by omega) (by omega)] at hk1; exact absurd hk1 (by simp)
      · have hnp : NextPresent m.machines t p :=
          ⟨by omega, by omega, ht3, hp2, fun j hj1 hj2 => by
            by_cases hjp : j < part
            · exact ht4 j hj1 hjp
            · by_cases hje : j = part
              · subst hje; exact habs
              · exact hp3 j (by omega) hj2⟩
        exact hno _ (hchain.1 t p hnp)
    simp only [bt_machine_link_elements, hlink, if_true]
    refine ⟨trivial, ?_⟩
    apply chain_last m.machines m.links _ part t hchain habove habs ht2 hpart2 ht3 ht4
    · intro p q hpq
      simp only [List.mem_append, List.mem_singleton, Prod.mk.injEq] at hpq
      rcases hpq with h | ⟨rfl, rfl⟩
      · exact Or.inl h
      · exact Or.inr (Or.inl ⟨rfl, rfl⟩)
    · intro p q hpq _ _
      simp [hpq]
    · simp
  | some peer =>
    have hin := peer_of_src_some _ _ _ hpeer
    simp only at hin
    rcases scan_post_cases m.machines (PART_COUNT - (part + 1)) (part + 1)
      with ⟨h1, h2⟩ | ⟨p, h1, hp0, hp1, hp2, hp3⟩
    · -- no successor: the peer is an external pad
      have habove : ∀ k, part < k → k < PART_COUNT → m.machines k = false :=
        fun k hk hk' => h2 k (by omega) (by omega)
      have hext : peer.is_ext = true := by
        rcases hchain.2 _ _ hin with h | h | ⟨i, j, hij, hq, rfl⟩
        · simp [Pad.is_ext] at h
        · exact h
        · exfalso
          simp only [Pad.src.injEq, Nat.cast_inj] at hq
          subst hq
          obtain ⟨hij1, hj11, -, hj, hg⟩ := hij
          by_cases hjp : j < part
          · rw [ht4 j hij1 hjp] at hj; exact absurd hj (by simp)
          · by_cases hje : j = part
            · subst hje; rw [habs] at hj; exact absurd hj (by simp)
            · rw [habove j (by omega) hj11] at hj; exact absurd hj (by simp)
      have hres := insert_ok_last env { m with machines := set_part m.machines part true }
        peer part t epre (by simp only; rw [epost]; exact h1) hlink
      simp only at hres
      refine ⟨hres.1, ?_⟩
      rw [hres.2]
      apply chain_last m.machines m.links _ part t hchain habove habs ht2 hpart2 ht3 ht4
      · intro p q hpq
        simp only [List.mem_append, List.mem_filter, List.mem_cons, List.mem_singleton,
          Prod.mk.injEq, List.not_mem_nil, or_false] at hpq
        rcases hpq with ⟨h, -⟩ | ⟨rfl, rfl⟩ | ⟨rfl, rfl⟩
        · exact Or.inl h
        · exact Or.inr (Or.inl ⟨rfl, rfl⟩)
        · exact Or.inr (Or.inr (Or.inr hext))
      · intro p q hpq _ hq
        simp only [List.mem_append, List.mem_filter, decide_eq_true_eq]
        refine Or.inl ⟨hpq, ?_⟩
        rintro heq
        simp only [Prod.mk.injEq] at heq
        rw [heq.2, hext] at hq
        exact absurd hq (by simp)
      · simp
    · -- both neighbours
      have hnp : NextPresent m.machines t p :=
        ⟨by omega, by omega, ht3, hp2, fun j hj1 hj2 => by
          by_cases hjp : j < part
          · exact ht4 j hj1 hjp
          · by_cases hje : j = part
            · subst hje; exact habs
            · exact hp3 j (by omega) hj2⟩
      have hres := insert_ok_between env { m with machines := set_part m.machines part true }
        peer part t p epre (by simp only; rw [epost]; exact h1) hlink
      simp only at hres
      refine ⟨hres.1, ?_⟩
      rw [hres.2]
      apply chain_between m.machines m.links _ part t p hchain ht2 (by omega) hnp
      · intro a b hab
        simp only [List.mem_append, List.mem_filter, List.mem_cons, List.mem_singleton,
          Prod.mk.injEq, List.not_mem_nil, or_false, decide_eq_true_eq] at hab
        rcases hab with ⟨h, hne⟩ | ⟨rfl, rfl⟩ | ⟨rfl, rfl⟩
        · exact Or.inl ⟨h, by simpa using hne⟩
        · exact Or.inr (Or.inl ⟨rfl, rfl⟩)
        · exact Or.inr (Or.inr (Or.inl ⟨rfl, rfl⟩))
      · intro a b hab hne
        simp only [List.mem_append, List.mem_filter, decide_eq_true_eq]
        exact Or.inl ⟨hab, hne⟩
      · simp
      · simp

theorem chain_congr (ms ms' : Nat → Bool) (links links' : List (Pad × Pad))
    (hms : ∀ k, ms' k = ms k) (hl : ∀ l, l ∈ links' ↔ l ∈ links) (h : Chain ms links) :
    Chain ms' links' := by
  have e : ms' = ms := funext hms
  subst e
  exact ⟨fun i j hij => (hl _).2 (h.1 i j hij), fun p q hpq => h.2 p q ((hl _).1 hpq)⟩

theorem chain_first_append (ms : Nat → Bool) (links : List (Pad × Pad)) (pos post : Nat)
    (hchain : Chain ms links)
    (hbelow : ∀ k, k < pos → ms k = false) (hpos : ms pos = false)
    (hpp : pos < post) (hpc : post < PART_COUNT) (hpost : ms post = true)
    (hgap : ∀ k, pos < k → k < post → ms k = false) :
    Chain (set_part ms pos true) (links ++ [(Pad.src pos, Pad.sink post)]) := by
  apply chain_first ms links _ pos post hchain hbelow hpos hpp hpc hpost hgap
  · intro p q hpq
    simp only [List.mem_append, List.mem_singleton, Prod.mk.injEq] at hpq
    rcases hpq with h | ⟨rfl, rfl⟩
    · exact Or.inl h
    · exact Or.inr (Or.inl ⟨rfl, rfl⟩)
  · intro p q hpq _ _
    simp [hpq]
  · simp

theorem chain_last_append (ms : Nat → Bool) (links : List (Pad × Pad)) (pos pre : Nat)
    (hchain : Chain ms links)
    (habove : ∀ k, pos < k → k < PART_COUNT → ms k = false) (hpos : ms pos = false)
    (hpp : pre < pos) (hpc : pos < PART_COUNT) (hpre : ms pre = true)
    (hgap : ∀ k, pre < k → k < pos → ms k = false) :
    Chain (set_part ms pos true) (links ++ [(Pad.src pre, Pad.sink pos)]) := by
  apply chain_last ms links _ pos pre hchain habove hpos hpp hpc hpre hgap
  · intro p q hpq
    simp only [List.mem_append, List.mem_singleton, Prod.mk.injEq] at hpq
    rcases hpq with h | ⟨rfl, rfl⟩
    · exact Or.inl h
    · exact Or.inr (Or.inl ⟨rfl, rfl⟩)
  · intro p q hpq _ _
    simp [hpq]
  · simp

theorem enable_part_inv (env : Env) (m : Machine) (part : Nat)
    (hp1 : PART_ADDER_CONVERT < part) (hp2 : part < PART_SPREADER) (hp3 : part ≠ PART_MACHINE)
    (hlink : ∀ n, env.link_ok n = true) (hfac : ∀ p, env.factory_ok p = true)
    (h : ChainInv m) : ChainInv (bt_machine_enable_part env m part).2 := by
  have c0 : PART_ADDER = 0 := rfl
  have c1 : PART_CAPS_FILTER = 1 := rfl
  have c2 : PART_ADDER_CONVERT = 2 := rfl
  have c3 : PART_INPUT_PRE_LEVEL = 3 := rfl
  have c6 : PART_MACHINE = 6 := rfl
  have c9 : PART_OUTPUT_POST_LEVEL = 9 := rfl
  have c10 : PART_SPREADER = 10 := rfl
  have c11 : PART_COUNT = 11 := rfl
  obtain ⟨⟨hunit, hadd⟩, hchain⟩ := h
  unfold bt_machine_enable_part
  cases hpres : m.machines part with
  | true => exact ⟨⟨hunit, hadd⟩, hchain⟩
  | false =>
    simp only [Bool.false_eq_true, if_false, make_result, hfac, Bool.not_true]
    have hmk : (bt_machine_make_internal_element env m part).2 =
        { m with machines := set_part m.machines part true } := by
      simp [bt_machine_make_internal_element, hfac]
    rw [hmk]
    have hcons : ∀ ms' : Nat → Bool, ms' = set_part m.machines part true →
        (ms' PART_MACHINE = true ∧
          (ms' PART_ADDER = false → ms' PART_CAPS_FILTER = false ∧
            ms' PART_ADDER_CONVERT = false)) := by
      intro ms' e
      subst e
      have h0 : PART_ADDER ≠ part := by omega
      have h1 : PART_CAPS_FILTER ≠ part := by omega
      have h2 : PART_ADDER_CONVERT ≠ part := by omega
      have h6 : PART_MACHINE ≠ part := fun e => hp3 e.symm
      simp only [set_part, h0, h1, h2, h6, if_false]
      exact ⟨hunit, hadd⟩
    by_cases hlt : part < PART_MACHINE
    · simp only [hlt, if_true]
      have := add_input_chain env m part hlt hlink hunit hpres hchain
      exact ⟨hcons _ this.1, by unfold LinearChain; rw [this.1]; exact this.2⟩
    · simp only [hlt, if_false]
      have := add_output_chain env m part (by omega) (by omega) hlink hunit hpres hchain
      exact ⟨hcons _ this.1, by unfold LinearChain; rw [this.1]; exact this.2⟩

theorem activate_spreader_inv (env : Env) (m : Machine)
    (hlink : ∀ n, env.link_ok n = true) (hfac : ∀ p, env.factory_ok p = true)
    (h : ChainInv m) : ChainInv (bt_machine_activate_spreader env m).2 := by
  have c0 : PART_ADDER = 0 := rfl
  have c1 : PART_CAPS_FILTER = 1 := rfl
  have c2 : PART_ADDER_CONVERT = 2 := rfl
  have c3 : PART_INPUT_PRE_LEVEL = 3 := rfl
  have c6 : PART_MACHINE = 6 := rfl
  have c9 : PART_OUTPUT_POST_LEVEL = 9 := rfl
  have c10 : PART_SPREADER = 10 := rfl
  have c11 : PART_COUNT = 11 := rfl
  obtain ⟨⟨hunit, hadd⟩, hchain⟩ := h
  unfold bt_machine_activate_spreader
  by_cases hk : m.kind = BtMachineKind.sink
  · simp only [hk, if_true]
    exact ⟨⟨hunit, hadd⟩, hchain⟩
  · simp only [hk, if_false]
    cases hpres : m.machines PART_SPREADER with
    | true => exact ⟨⟨hunit, hadd⟩, hchain⟩
    | false =>
      simp only [Bool.not_false, if_true, make_result, hfac, Bool.not_true,
        Bool.false_eq_true, if_false]
      have hmk : (bt_machine_make_internal_element env m PART_SPREADER).2 =
          { m with machines := set_part m.machines PART_SPREADER true } := by
        simp [bt_machine_make_internal_element, hfac]
      rw [hmk]
      simp only [bt_machine_link_elements, hlink, if_true]
      generalize ht : scan_tix_down m.machines (PART_OUTPUT_POST_LEVEL + 1 - PART_MACHINE) = t
      have htspec : PART_MACHINE ≤ t ∧ t < PART_SPREADER ∧ m.machines t = true ∧
          ∀ k, t < k → k < PART_SPREADER → m.machines k = false := by
        rcases scan_tix_down_cases m.machines (PART_OUTPUT_POST_LEVEL + 1 - PART_MACHINE)
          with ⟨h1, h2⟩ | ⟨h1, h2, h3, h4⟩
        · have := h2 PART_MACHINE (by omega) (by omega)
          rw [hunit] at this
          exact absurd this (by simp)
        · rw [ht] at h1 h2 h3 h4
          exact ⟨h1, by omega, h3, fun k hk1 hk2 => h4 k hk1 (by omega)⟩
      obtain ⟨ht1, ht2, ht3, ht4⟩ := htspec
      refine ⟨⟨?_, ?_⟩, ?_⟩
      · simp [set_part, hunit]
      · simp only [set_part]
        simpa using hadd
      · exact chain_last_append m.machines m.links PART_SPREADER t hchain
          (fun k hk1 hk2 => by omega) hpres ht2 (by omega) ht3 ht4

theorem activate_adder_inv (env : Env) (m : Machine)
    (hlink : ∀ n, env.link_ok n = true) (hfac : ∀ p, env.factory_ok p = true)
    (h : ChainInv m) : ChainInv (bt_machine_activate_adder env m).2 := by
  have c0 : PART_ADDER = 0 := rfl
  have c1 : PART_CAPS_FILTER = 1 := rfl
  have c2 : PART_ADDER_CONVERT = 2 := rfl
  have c3 : PART_INPUT_PRE_LEVEL = 3 := rfl
  have c6 : PART_MACHINE = 6 := rfl
  have c11 : PART_COUNT = 11 := rfl
  obtain ⟨⟨hunit, hadd⟩, hchain⟩ := h
  unfold bt_machine_activate_adder
  by_cases hk : m.kind = BtMachineKind.source
  · simp only [hk, if_true]
    exact ⟨⟨hunit, hadd⟩, hchain⟩
  · simp only [hk, if_false]
    cases hpres : m.machines PART_ADDER with
    | true => exact ⟨⟨hunit, hadd⟩, hchain⟩
    | false =>
      obtain ⟨hm1, hm2⟩ := hadd hpres
      generalize ht : scan_tix_up m.machines PART_INPUT_PRE_LEVEL
        (PART_MACHINE + 1 - PART_INPUT_PRE_LEVEL) = t
      have htspec : PART_INPUT_PRE_LEVEL ≤ t ∧ t ≤ PART_MACHINE ∧ m.machines t = true ∧
          ∀ k, k < t → m.machines k = false := by
        rcases scan_tix_up_cases m.machines (PART_MACHINE + 1 - PART_INPUT_PRE_LEVEL)
          PART_INPUT_PRE_LEVEL with ⟨h1, h2⟩ | ⟨h1, h2, h3, h4⟩
        · have := h2 PART_MACHINE (by omega) (by omega)
          rw [hunit] at this
          exact absurd this (by simp)
        · rw [ht] at h1 h2 h3 h4
          refine ⟨h1, by omega, h3, fun k hk1 => ?_⟩
          by_cases hk3 : PART_INPUT_PRE_LEVEL ≤ k
          · exact h4 k hk3 hk1
          · have : k = 0 ∨ k = 1 ∨ k = 2 := by omega
            rcases this with rfl | rfl | rfl
            · exact hpres
            · exact hm1
            · exact hm2
      obtain ⟨ht1, ht2, ht3, ht4⟩ := htspec
      cases hcaps : env.adder_has_caps <;>
        cases hskip : (if m.kind ≠ BtMachineKind.sink then env.can_intersect else false) <;>
        simp only [hskip, bt_machine_make_internal_element, hfac, bt_machine_link_elements,
          hlink, set_part, hm1, hm2, hpres, if_true, if_false, Bool.not_true, Bool.not_false,
          Bool.false_eq_true, Bool.and_self, reduceCtorEq, Nat.reduceEqDiff,
          OfNat.ofNat_ne_zero, OfNat.zero_ne_ofNat, OfNat.ofNat_ne_one, OfNat.one_ne_ofNat,
          one_ne_zero, zero_ne_one]
      all_goals refine ⟨⟨by simp [set_part, hunit], by simp [set_part]⟩, ?_⟩
      all_goals unfold LinearChain
      all_goals simp only
      · -- capsfilter and converter
        have s2 := chain_first_append m.machines m.links PART_ADDER_CONVERT t hchain
          (fun k hk => ht4 k (by omega)) hm2 (by omega) (by omega) ht3
          (fun k _ hk2 => ht4 k hk2)
        have s1 := chain_first_append _ _ PART_CAPS_FILTER PART_ADDER_CONVERT s2
          (fun k hk => by
            have : k = 0 := by omega
            subst this
            simp [set_part, hpres])
          (by simp [set_part, hm1]) (by omega) (by omega) (by simp [set_part])
          (fun k hk1 hk2 => by omega)
        have s0 := chain_first_append _ _ PART_ADDER PART_CAPS_FILTER s1
          (fun k hk => by omega) (by simp [set_part, hpres]) (by omega) (by omega)
          (by simp [set_part]) (fun k hk1 hk2 => by omega)
        refine chain_congr _ _ _ _ (fun k => ?_) (fun l => ?_) s0
        · simp only [set_part]
          by_cases h0 : k = PART_ADDER <;> by_cases h1 : k = PART_CAPS_FILTER <;>
            by_cases h2 : k = PART_ADDER_CONVERT <;> simp [h0, h1, h2]
        · simp only [List.mem_append, List.mem_singleton]
          tauto
      · -- capsfilter only
        have s1 := chain_first_append m.machines m.links PART_CAPS_FILTER t hchain
          (fun k hk => ht4 k (by omega)) hm1 (by omega) (by omega) ht3
          (fun k _ hk2 => ht4 k hk2)
        have s0 := chain_first_append _ _ PART_ADDER PART_CAPS_FILTER s1
          (fun k hk => by omega) (by simp [set_part, hpres]) (by omega) (by omega)
          (by simp [set_part]) (fun k hk1 hk2 => by omega)
        refine chain_congr _ _ _ _ (fun k => ?_) (fun l => ?_) s0
        · simp only [set_part]
          by_cases h0 : k = PART_ADDER <;> by_cases h1 : k = PART_CAPS_FILTER <;>
            simp [h0, h1]
        · simp only [List.mem_append, List.mem_singleton]
          tauto
      · -- converter only
        have s2 := chain_first_append m.machines m.links PART_ADDER_CONVERT t hchain
          (fun k hk => ht4 k (by omega)) hm2 (by omega) (by omega) ht3
          (fun k _ hk2 => ht4 k hk2)
        have s0 := chain_first_append _ _ PART_ADDER PART_ADDER_CONVERT s2
          (fun k hk => by omega) (by simp [set_part, hpres]) (by omega) (by omega)
          (by simp [set_part])
          (fun k hk1 hk2 => by
            have : k = 1 := by omega
            subst this
            simp [set_part, hm1])
        refine chain_congr _ _ _ _ (fun k => ?_) (fun l => ?_) s0
        · simp only [set_part]
          by_cases h0 : k = PART_ADDER <;> by_cases h2 : k = PART_ADDER_CONVERT <;>
            simp [h0, h2]
        · simp only [List.mem_append, List.mem_singleton]
          tauto
      · -- the adder alone
        exact chain_first_append m.machines m.links PART_ADDER t hchain
          (fun k hk => by omega) hpres (by omega) (by omega) ht3
          (fun k _ hk2 => ht4 k hk2)

theorem call_inv (env : Env) (m : Machine) (c : Call)
    (hlink : ∀ n, env.link_ok n = true) (hfac : ∀ p, env.factory_ok p = true)
    (h : ChainInv m) : ChainInv (c.apply env m).2 := by
  have c2 : PART_ADDER_CONVERT = 2 := rfl
  have c3 : PART_INPUT_PRE_LEVEL = 3 := rfl
  have c4 : PART_INPUT_GAIN = 4 := rfl
  have c5 : PART_INPUT_POST_LEVEL = 5 := rfl
  have c6 : PART_MACHINE = 6 := rfl
  have c7 : PART_OUTPUT_PRE_LEVEL = 7 := rfl
  have c8 : PART_OUTPUT_GAIN = 8 := rfl
  have c9 : PART_OUTPUT_POST_LEVEL = 9 := rfl
  have c10 : PART_SPREADER = 10 := rfl
  cases c with
  | enable_input_pre_level =>
    simp only [Call.apply, bt_machine_enable_input_pre_level]
    split
    · exact h
    · exact enable_part_inv env m _ (by omega) (by omega) (by omega) hlink hfac h
  | enable_input_gain =>
    simp only [Call.apply, bt_machine_enable_input_gain]
    split
    · exact h
    · exact enable_part_inv env m _ (by omega) (by omega) (by omega) hlink hfac h
  | enable_input_post_level =>
    simp only [Call.apply, bt_machine_enable_input_post_level]
    split
    · exact h
    · exact enable_part_inv env m _ (by omega) (by omega) (by omega) hlink hfac h
  | enable_output_pre_level =>
    simp only [Call.apply, bt_machine_enable_output_pre_level]
    split
    · exact h
    · exact enable_part_inv env m _ (by omega) (by omega) (by omega) hlink hfac h
  | enable_output_gain =>
    simp only [Call.apply, bt_machine_enable_output_gain]
    split
    · exact h
    · exact enable_part_inv env m _ (by omega) (by omega) (by omega) hlink hfac h
  | enable_output_post_level =>
    simp only [Call.apply, bt_machine_enable_output_post_level]
    split
    · exact h
    · exact enable_part_inv env m _ (by omega) (by omega) (by omega) hlink hfac h
  | activate_adder => exact activate_adder_inv env m hlink hfac h
  | activate_spreader => exact activate_spreader_inv env m hlink hfac h

theorem run_calls_inv (env : Env) (m : Machine) (calls : List Call)
    (hlink : ∀ n, env.link_ok n = true) (hfac : ∀ p, env.factory_ok p = true)
    (h : ChainInv m) : ChainInv (run_calls env m calls) := by
  induction calls generalizing m with
  | nil => exact h
  | cons c cs ih => exact ih _ (call_inv env m c hlink hfac h)

theorem unit_only_inv : ChainInv unit_only := by
  refine ⟨⟨by decide, fun _ => ⟨by decide, by decide⟩⟩, ?_, ?_⟩
  · rintro i j ⟨hij, -, hi, hj, -⟩
    simp only [unit_only, decide_eq_true_eq] at hi hj
    omega
  · intro p q hpq
    simp [unit_only] at hpq

theorem unit_with_output_gain_inv : ChainInv unit_with_output_gain := by
  refine ⟨⟨by decide, fun _ => ⟨by decide, by decide⟩⟩, ?_, ?_⟩
  · rintro i j ⟨hij, -, hi, hj, -⟩
    simp only [unit_with_output_gain, unit_only, Bool.or_eq_true, decide_eq_true_eq,
      PART_MACHINE, PART_OUTPUT_GAIN] at hi hj
    have hi6 : i = 6 := by omega
    have hj8 : j = 8 := by omega
    subst hi6 hj8
    simp [unit_with_output_gain, PART_MACHINE, PART_OUTPUT_GAIN]
  · intro p q hpq
    simp only [unit_with_output_gain, List.mem_singleton, Prod.mk.injEq] at hpq
    obtain ⟨rfl, rfl⟩ := hpq
    refine Or.inr (Or.inr ⟨PART_MACHINE, PART_OUTPUT_GAIN, ⟨by decide, by decide, by decide,
      by decide, fun k h1 h2 => ?_⟩, rfl, rfl⟩)
    simp only [PART_MACHINE, PART_OUTPUT_GAIN] at h1 h2
    have : k = 7 := by omega
    subst this
    decide

/-- Claim C1, as amended: on a machine whose unit is present, whose capsfilter
and adder converter are absent while the adder is absent, and whose present
slots form one linear chain, after every call of a finite sequence of
enable (input/output pre-level, gain, post-level), `bt_machine_activate_adder`
and `bt_machine_activate_spreader` calls in which every element is made and
every pad link succeeds, the present slots form one linear chain: the src pad
of each present slot is linked to the sink pad of the next present slot, and
there is no other link between pads of the machine's slots. -/
theorem chain_after_every_call (env : Env) (self : Machine) (calls : List Call) (n : Nat)
    (hlink : ∀ k, env.link_ok k = true) (hfac : ∀ part, env.factory_ok part = true)
    (hcons : Constructed self) (hchain : LinearChain self) :
    LinearChain (run_calls env self (calls.take n)) :=
  (run_calls_inv env self (calls.take n) hlink hfac ⟨hcons, hchain⟩).2

theorem chain_after_every_call_witness :
    LinearChain (run_calls env_all_ok unit_only
      ([Call.enable_input_gain, Call.activate_adder, Call.enable_output_gain,
        Call.activate_spreader, Call.enable_input_pre_level].take 4)) :=
  chain_after_every_call env_all_ok unit_only
    [Call.enable_input_gain, Call.activate_adder, Call.enable_output_gain,
      Call.activate_spreader, Call.enable_input_pre_level] 4
    (fun _ => rfl) (fun _ => rfl) unit_only_inv.1 unit_only_inv.2

/-- Claim C1 as stated fails when links may fail: on a machine whose unit and
output gain are present and linked (a linear chain), enabling the output
pre-level with the first new link succeeding, the second failing and the
restoring link failing leaves the three slots present and no link at all, so
the unit's src pad is not linked to the sink pad of the next present slot. -/
theorem chain_broken_after_failed_links :
    LinearChain unit_with_output_gain ∧
    (run_calls (env_with_links (fun n => decide (n = 0))) unit_with_output_gain
      [Call.enable_output_pre_level]).links = [] ∧
    (run_calls (env_with_links (fun n => decide (n = 0))) unit_with_output_gain
      [Call.enable_output_pre_level]).machines PART_MACHINE = true ∧
    (run_calls (env_with_links (fun n => decide (n = 0))) unit_with_output_gain
      [Call.enable_output_pre_level]).machines PART_OUTPUT_PRE_LEVEL = true ∧
    (run_calls (env_with_links (fun n => decide (n = 0))) unit_with_output_gain
      [Call.enable_output_pre_level]).machines PART_OUTPUT_GAIN = true ∧
    ¬ LinearChain (run_calls (env_with_links (fun n => decide (n = 0)))
      unit_with_output_gain [Call.enable_output_pre_level]) := by
  refine ⟨unit_with_output_gain_inv.2, by decide, by decide, by decide, by decide, ?_⟩
  intro h
  have hnp : NextPresent (run_calls (env_with_links (fun n => decide (n = 0)))
      unit_with_output_gain [Call.enable_output_pre_level]).machines
      PART_MACHINE PART_OUTPUT_PRE_LEVEL :=
    ⟨by decide, by decide, by decide, by decide, fun k h1 h2 => by
      simp only [PART_MACHINE, PART_OUTPUT_PRE_LEVEL] at h1 h2; omega⟩
  have hmem := h.1 _ _ hnp
  have hnil : (run_calls (env_with_links (fun n => decide (n = 0))) unit_with_output_gain
      [Call.enable_output_pre_level]).links = [] := by decide
  rw [hnil] at hmem
  exact absurd hmem (List.not_mem_nil _)

/-! ## Properties of the voices, the automation and the parameter lists -/

theorem length_g_renew {α : Type} (fresh : Nat → α) (xs : List α) (n : Nat) :
    (g_renew fresh xs n).length = n := by
  simp [g_renew]; omega

theorem length_clear_entries {α : Type} (count : Nat) (xs : List (Option α)) (lo : Nat) :
    (clear_entries xs lo count).length = xs.length := by
  induction count generalizing xs lo with
  | zero => rfl
  | succ c ih => simp [clear_entries, ih]

theorem clear_entries_get {α : Type} (count : Nat) (xs : List (Option α)) (lo i : Nat)
    (h1 : lo ≤ i) (h2 : i < lo + count) (h3 : i < xs.length) :
    (clear_entries xs lo count)[i]? = some none := by
  induction count generalizing xs lo with
  | zero => omega
  | succ c ih =>
    simp only [clear_entries]
    by_cases h : lo = i
    · subst h
      clear ih
      have : ∀ (c : Nat) (ys : List (Option α)) (l : Nat), lo < l → lo < ys.length →
          ys[lo]? = some none → (clear_entries ys l c)[lo]? = some none := by
        intro c
        induction c with
        | zero => intro ys l _ _ h; exact h
        | succ c ih2 =>
          intro ys l hl hlen h
          simp only [clear_entries]
          apply ih2
          · omega
          · simpa using hlen
          · rw [List.getElem?_set_ne (by omega)]; exact h
      apply this
      · omega
      · simpa using h3
      · simp [h3]
    · apply ih
      · omega
      · omega
      · simpa using h3

theorem set_voices_poly (env : GstEnv) (self : ParamMachine) (value : Nat)
    (hpoly : self.child_bin = true) :
    (bt_machine_set_property_voices env self value).child_bin = true ∧
    (bt_machine_set_property_voices env self value).voices = value ∧
    (bt_machine_set_property_voices env self value).voice_params = self.voice_params ∧
    (self.voices = value →
      (bt_machine_set_property_voices env self value).voice_controllers
        = self.voice_controllers ∧
      (bt_machine_set_property_voices env self value).voice_control_sources
        = self.voice_control_sources) ∧
    (self.voices ≠ value →
      (bt_machine_set_property_voices env self value).voice_controllers.length = value ∧
      (bt_machine_set_property_voices env self value).voice_control_sources.length
        = value * self.voice_params ∧
      (self.voices < value →
        (∀ v, self.voices ≤ v → v < value →
          (bt_machine_set_property_voices env self value).voice_controllers[v]? = some none) ∧
        (∀ i, self.voices * self.voice_params ≤ i → i < value * self.voice_params →
          (bt_machine_set_property_voices env self value).voice_control_sources[i]?
            = some none))) := by
  by_cases hv : self.voices = value
  · simp [bt_machine_set_property_voices, hpoly, hv]
  · have hlt : self.voices < value ∨ ¬ self.voices < value := by omega
    rcases hlt with hlt | hlt
    · have hmul : self.voices * self.voice_params ≤ value * self.voice_params :=
        Nat.mul_le_mul_right _ (by omega)
      simp only [bt_machine_set_property_voices, hpoly, bt_machine_resize_voices,
        bt_machine_resize_pattern_voices, hlt, if_true, ne_eq, hv, not_false_eq_true,
        Bool.not_true, Bool.false_eq_true, if_false, length_clear_entries, length_g_renew,
        true_and, not_true_eq_false, false_implies, forall_true_left]
      refine ⟨?_, ?_⟩
      · intro v h1 h2
        apply clear_entries_get
        · exact h1
        · omega
        · rw [length_g_renew]; exact h2
      · intro i h1 h2
        apply clear_entries_get
        · exact h1
        · omega
        · rw [length_g_renew]; exact h2
    · simp [bt_machine_set_property_voices, hpoly, bt_machine_resize_voices,
        bt_machine_resize_pattern_voices, hlt, hv, length_g_renew]

/-- Claim C11 fails in the code: on a machine whose unit is not polyphonic,
with no voices, setting the voices property to 4 stores 4 as the voice count;
the voice arrays and every other field stay as they were. The discovery of the
voice parameters, in contrast, sets the voice count of such a machine to 0. -/
theorem set_voices_monophonic_stores_count :
    mono_machine.child_bin = false ∧ mono_machine.voices = 0 ∧
    bt_machine_set_property_voices gst_env mono_machine 4
      = { mono_machine with voices := 4 } ∧
    (bt_machine_set_property_voices gst_env mono_machine 4).voices = 4 ∧
    (bt_machine_init_voice_params gst_env mono_unit (new_machine false 4)).voices = 0 :=
  ⟨rfl, rfl, rfl, rfl, rfl⟩

/-- Claim C12: on a polyphonic machine whose voice arrays hold `voices` and
`voices * voice_params` entries, setting voices to n, then to k, then to n
leaves `voice_controllers` with n entries and `voice_control_sources` with
n * voice_params entries, and when k < n every entry that belongs to a voice
index in [k, n) is empty. -/
theorem voices_round_trip (env : GstEnv) (self : ParamMachine) (n k : Nat)
    (hpoly : self.child_bin = true)
    (hlen1 : self.voice_controllers.length = self.voices)
    (hlen2 : self.voice_control_sources.length = self.voices * self.voice_params) :
    (bt_machine_set_property_voices env
      (bt_machine_set_property_voices env
        (bt_machine_set_property_voices env self n) k) n).voice_controllers.length = n ∧
    (bt_machine_set_property_voices env
      (bt_machine_set_property_voices env
        (bt_machine_set_property_voices env self n) k) n).voice_control_sources.length
      = n * self.voice_params ∧
    (k < n →
      (∀ v, k ≤ v → v < n →
        (bt_machine_set_property_voices env
          (bt_machine_set_property_voices env
            (bt_machine_set_property_voices env self n) k) n).voice_controllers[v]?
          = some none) ∧
      (∀ v p, k ≤ v → v < n → p < self.voice_params →
        (bt_machine_set_property_voices env
          (bt_machine_set_property_voices env
            (bt_machine_set_property_voices env self n) k) n).voice_control_sources[
              v * self.voice_params + p]?
          = some none)) := by
  obtain ⟨a1, a2, a3, a4, a5⟩ := set_voices_poly env self n hpoly
  obtain ⟨b1, b2, b3, b4, b5⟩ :=
    set_voices_poly env (bt_machine_set_property_voices env self n) k a1
  obtain ⟨c1, c2, c3, c4, c5⟩ :=
    set_voices_poly env
      (bt_machine_set_property_voices env (bt_machine_set_property_voices env self n) k) n b1
  rw [b2] at c4 c5
  rw [a2] at b4 b5
  rw [b3, a3] at c5
  rw [a3] at b5
  by_cases hkn : k = n
  · subst hkn
    obtain ⟨c41, c42⟩ := c4 rfl
    obtain ⟨b41, b42⟩ := b4 rfl
    rw [c41, c42, b41, b42]
    refine ⟨?_, ?_, fun h => absurd h (Nat.lt_irrefl _)⟩
    · by_cases hv : self.voices = k
      · rw [(a4 hv).1, hlen1, hv]
      · exact (a5 hv).1
    · by_cases hv : self.voices = k
      · rw [(a4 hv).2, hlen2, hv]
      · exact (a5 hv).2.1
  · obtain ⟨c51, c52, c53⟩ := c5 hkn
    refine ⟨c51, c52, fun hlt => ?_⟩
    obtain ⟨c531, c532⟩ := c53 hlt
    refine ⟨c531, fun v p h1 h2 h3 => c532 _ ?_ ?_⟩
    · have := Nat.mul_le_mul_right self.voice_params h1
      omega
    · have : (v + 1) * self.voice_params ≤ n * self.voice_params :=
        Nat.mul_le_mul_right _ h2
      rw [Nat.add_mul] at this
      omega

theorem voices_round_trip_witness :
    (bt_machine_set_property_voices gst_env
      (bt_machine_set_property_voices gst_env
        (bt_machine_set_property_voices gst_env poly_machine 3) 1) 3).voice_controllers.length
      = 3 ∧
    (bt_machine_set_property_voices gst_env
      (bt_machine_set_property_voices gst_env
        (bt_machine_set_property_voices gst_env poly_machine 3) 1) 3).voice_control_sources.length
      = 3 * poly_machine.voice_params ∧
    (1 < 3 →
      (∀ v, 1 ≤ v → v < 3 →
        (bt_machine_set_property_voices gst_env
          (bt_machine_set_property_voices gst_env
            (bt_machine_set_property_voices gst_env poly_machine 3) 1) 3).voice_controllers[v]?
          = some none) ∧
      (∀ v p, 1 ≤ v → v < 3 → p < poly_machine.voice_params →
        (bt_machine_set_property_voices gst_env
          (bt_machine_set_property_voices gst_env
            (bt_machine_set_property_voices gst_env poly_machine 3) 1) 3).voice_control_sources[
              v * poly_machine.voice_params + p]?
          = some none)) :=
  voices_round_trip gst_env poly_machine 3 1 rfl rfl rfl

theorem need_activate_of_empty (cs : Option ControlSource)
    (h : ∀ c, cs = some c → c = []) : controller_need_activate cs = true := by
  cases cs with
  | none => rfl
  | some c => rw [h c rfl]; rfl

theorem first_point_sources (d : GValue) (T : Nat) (v : GValue) (hT : 0 < T)
    (hvalid : T ≠ GST_CLOCK_TIME_NONE) :
    gst_interpolation_control_source_set
      (gst_interpolation_control_source_set [] 0 (some d)) T (some v) = [(0, d), (T, v)] := by
  have h0 : (0 : Nat) ≠ GST_CLOCK_TIME_NONE := by decide
  have hT0 : ¬ T ≤ 0 := by omega
  have hT1 : ¬ 0 = T := by omega
  simp [gst_interpolation_control_source_set, h0, hvalid, cs_insert, hT0, hT1]

/-- Claim C13, as amended: for a global or voice parameter that has no control
points, a valid timestamp T > 0 and a value v, when the library hands out the
controller of the object, the call with (T, v) leaves exactly two control
points on the parameter: one at timestamp 0 with the value d, where d is the
live property value of a State parameter and the no-value of a Trigger
parameter, and one at T with the value v. -/
theorem change_value_first_point (env : GstEnv) (self : ParamMachine)
    (T : Nat) (v d : GValue) (hT : 0 < T) (hvalid : T ≠ GST_CLOCK_TIME_NONE) :
    (∀ param, param < self.global_params → param < self.global_control_sources.length →
      (∀ c, (self.global_control_sources[param]?).join = some c → c = []) →
      (env.global_control param).isSome = true →
      (if self.global_state param then some (self.global_value param)
        else self.global_no_val param) = some d →
      (bt_machine_global_controller_change_value env self param T
        (some v)).global_control_sources[param]? = some (some [(0, d), (T, v)])) ∧
    (∀ voice param, param < self.voice_params → voice < self.voices →
      self.child_bin = true →
      voice * self.voice_params + param < self.voice_control_sources.length →
      (∀ c, (self.voice_control_sources[voice * self.voice_params + param]?).join = some c →
        c = []) →
      (env.voice_control voice param).isSome = true →
      (if self.voice_state param then some (self.voice_value voice param)
        else self.voice_no_val param) = some d →
      (bt_machine_voice_controller_change_value env self voice param T
        (some v)).voice_control_sources[voice * self.voice_params + param]?
        = some (some [(0, d), (T, v)])) := by
  have hT0 : T ≠ 0 := by omega
  constructor
  · intro param hp hlen hempty hctrl hdef
    have hadd := need_activate_of_empty _ hempty
    have hdef2 : (if self.global_state param = true then some (self.global_value param)
        else self.global_no_val param) = some d := hdef
    cases hs : self.global_state param <;>
      simp [hs] at hdef2 <;>
      simp only [bt_machine_global_controller_change_value, hp, hT0, hadd, hctrl,
        bt_machine_is_global_param_trigger, hs, hdef2, not_true_eq_false, if_false, if_true,
        Option.isSome_some, Bool.true_or, decide_False, Bool.false_and, Bool.false_eq_true,
        Bool.not_true, Bool.not_false, ne_eq, not_false_eq_true, Option.map_some',
        first_point_sources d T v hT hvalid] <;>
      simp [hlen]
  · intro voice param hp hv hpoly hlen hempty hctrl hdef
    have hadd := need_activate_of_empty _ hempty
    have hdef2 : (if self.voice_state param = true then some (self.voice_value voice param)
        else self.voice_no_val param) = some d := hdef
    cases hs : self.voice_state param <;>
      simp [hs] at hdef2 <;>
      simp only [bt_machine_voice_controller_change_value, hp, hv, hpoly, hT0, hadd, hctrl,
        bt_machine_is_voice_param_trigger, hs, hdef2, not_true_eq_false, if_false, if_true,
        Option.isSome_some, Bool.true_or, decide_False, Bool.false_and, Bool.false_eq_true,
        Bool.not_true, Bool.not_false, ne_eq, not_false_eq_true, Option.map_some',
        first_point_sources d T v hT hvalid] <;>
      simp [hlen]

theorem change_value_first_point_witness :
    (bt_machine_global_controller_change_value gst_env mono_machine 0 1000
      (some 5)).global_control_sources[0]? = some (some [(0, 3), (1000, 5)]) ∧
    (bt_machine_voice_controller_change_value gst_env poly_trigger_machine 1 0 1000
      (some 5)).voice_control_sources[1 * poly_trigger_machine.voice_params + 0]?
      = some (some [(0, 0), (1000, 5)]) :=
  ⟨(change_value_first_point gst_env mono_machine 1000 5 3 (by decide) (by decide)).1 0
      (by decide) (by decide) (fun c h => by simp [mono_machine] at h) rfl rfl,
   (change_value_first_point gst_env poly_trigger_machine 1000 5 0 (by decide)
      (by decide)).2 1 0 (by decide) (by decide) rfl (by decide)
      (fun c h => by simp [poly_trigger_machine, poly_machine, mono_machine] at h) rfl rfl⟩

/-- Claim C13 as stated fails for a Trigger parameter: with live value 3 and
no-value 0, the call with (1000, 5) on a parameter without control points
leaves the point at timestamp 0 with the value 0, not with the live value 3. -/
theorem change_value_trigger_default_is_no_val :
    trigger_machine.global_control_sources = [none] ∧
    bt_machine_is_global_param_trigger trigger_machine 0 = true ∧
    trigger_machine.global_value 0 = 3 ∧
    (bt_machine_global_controller_change_value gst_env trigger_machine 0 1000
      (some 5)).global_control_sources = [some [(0, 0), (1000, 5)]] ∧
    poly_trigger_machine.voice_control_sources = [none, none] ∧
    poly_trigger_machine.voice_value 1 0 = 3 ∧
    (bt_machine_voice_controller_change_value gst_env poly_trigger_machine 1 0 1000
      (some 5)).voice_control_sources = [none, some [(0, 0), (1000, 5)]] := by
  decide

/-- Claim C14 fails in the code: on a parameter with no control points whose
flag is not set, setting the control point (1000, 5) and then unsetting the
control point at 1000 leaves the control source attached, holding the
synthesised point (0, 3). When the flag was set before by a call with
timestamp 0 and value NULL, the same two calls leave no control source. -/
theorem set_then_unset_keeps_source :
    mono_machine.global_control_sources = [none] ∧
    mono_machine.global_default 0 = false ∧
    (bt_machine_global_controller_change_value gst_env mono_machine 0 1000
      (some 5)).global_control_sources = [some [(0, 3), (1000, 5)]] ∧
    (bt_machine_global_controller_change_value gst_env
      (bt_machine_global_controller_change_value gst_env mono_machine 0 1000 (some 5))
      0 1000 none).global_control_sources = [some [(0, 3)]] ∧
    poly_machine.voice_control_sources = [none, none] ∧
    poly_machine.voice_default 1 0 = false ∧
    (bt_machine_voice_controller_change_value gst_env
      (bt_machine_voice_controller_change_value gst_env poly_machine 1 0 1000 (some 5))
      1 0 1000 none).voice_control_sources = [none, some [(0, 3)]] ∧
    (bt_machine_global_controller_change_value gst_env
      (bt_machine_global_controller_change_value gst_env
        (bt_machine_global_controller_change_value gst_env mono_machine 0 0 none)
        0 1000 (some 5))
      0 1000 none).global_control_sources = [none] :=
  ⟨by decide, by decide, by decide, by decide, by decide, by decide, by decide, by decide⟩

/-- Claim C15, as amended: for a parameter whose default-is-synthetic flag is
not set, `bt_machine_set_global_param_default` and
`bt_machine_set_voice_param_default` leave the machine as it is; the controller
functions called with timestamp 0 and value NULL on a parameter that has
control points set the flag and replace the point at timestamp 0 by the live
value (State) or the no-value (Trigger). -/
theorem set_param_default_keeps_explicit_value (env : GstEnv) (self : ParamMachine) :
    (∀ index, bt_machine_has_global_param_default_set self index = false →
      bt_machine_set_global_param_default env self index = self) ∧
    (∀ voice index, bt_machine_has_voice_param_default_set self voice index = false →
      bt_machine_set_voice_param_default env self voice index = self) ∧
    (∀ param c, param < self.global_params →
      self.global_control_sources[param]? = some (some c) → c ≠ [] →
      bt_machine_has_global_param_default_set
        (bt_machine_global_controller_change_value env self param 0 none) param = true ∧
      (bt_machine_global_controller_change_value env self param 0
        none).global_control_sources[param]?
        = some (some (gst_interpolation_control_source_set c 0
            (if self.global_state param then some (self.global_value param)
              else self.global_no_val param)))) ∧
    (∀ voice param c, param < self.voice_params → voice < self.voices →
      self.child_bin = true →
      self.voice_control_sources[voice * self.voice_params + param]? = some (some c) →
      c ≠ [] →
      bt_machine_has_voice_param_default_set
        (bt_machine_voice_controller_change_value env self voice param 0 none)
        voice param = true ∧
      (bt_machine_voice_controller_change_value env self voice param 0
        none).voice_control_sources[voice * self.voice_params + param]?
        = some (some (gst_interpolation_control_source_set c 0
            (if self.voice_state param then some (self.voice_value voice param)
              else self.voice_no_val param)))) := by
  refine ⟨?_, ?_, ?_, ?_⟩
  · intro index h
    simp [bt_machine_set_global_param_default, h]
  · intro voice index h
    simp [bt_machine_set_voice_param_default, h]
  · intro param c hp hc hne
    have hlen : param < self.global_control_sources.length := by
      rcases Nat.lt_or_ge param self.global_control_sources.length with h | h
      · exact h
      · rw [List.getElem?_eq_none h] at hc; cases hc
    have hadd : controller_need_activate (some c) = false := by
      cases c with
      | nil => exact absurd rfl hne
      | cons a b =>
        have : ((b.length : Int) + 1) ≠ 0 := by omega
        simp [controller_need_activate, gst_interpolation_control_source_get_count, this]
    cases hs : self.global_state param <;>
      simp [bt_machine_global_controller_change_value, hp, hc, hadd,
        bt_machine_has_global_param_default_set, bt_machine_is_global_param_trigger, hs, hlen]
  · intro voice param c hp hv hpoly hc hne
    have hlen : voice * self.voice_params + param < self.voice_control_sources.length := by
      rcases Nat.lt_or_ge (voice * self.voice_params + param)
        self.voice_control_sources.length with h | h
      · exact h
      · rw [List.getElem?_eq_none h] at hc; cases hc
    have hadd : controller_need_activate (some c) = false := by
      cases c with
      | nil => exact absurd rfl hne
      | cons a b =>
        have : ((b.length : Int) + 1) ≠ 0 := by omega
        simp [controller_need_activate, gst_interpolation_control_source_get_count, this]
    cases hs : self.voice_state param <;>
      simp [bt_machine_voice_controller_change_value, hp, hv, hpoly, hc, hadd,
        bt_machine_has_voice_param_default_set, bt_machine_is_voice_param_trigger, hs, hlen]

theorem set_param_default_keeps_explicit_value_witness :
    bt_machine_set_global_param_default gst_env
      (bt_machine_global_controller_change_value gst_env mono_machine 0 0 (some 7)) 0
      = bt_machine_global_controller_change_value gst_env mono_machine 0 0 (some 7) ∧
    bt_machine_set_voice_param_default gst_env
      (bt_machine_voice_controller_change_value gst_env poly_machine 1 0 0 (some 7)) 1 0
      = bt_machine_voice_controller_change_value gst_env poly_machine 1 0 0 (some 7) :=
  ⟨(set_param_default_keeps_explicit_value gst_env
      (bt_machine_global_controller_change_value gst_env mono_machine 0 0 (some 7))).1 0
      (by decide),
   (set_param_default_keeps_explicit_value gst_env
      (bt_machine_voice_controller_change_value gst_env poly_machine 1 0 0 (some 7))).2.1 1 0
      (by decide)⟩

/-- Claim C15 as stated fails: after the explicit value 7 was set at timestamp
0, which leaves the flag unset, the call with timestamp 0 and value NULL
replaces the point by the live value 3 and sets the flag. -/
theorem change_value_default_overwrites_explicit :
    (bt_machine_global_controller_change_value gst_env mono_machine 0 0
      (some 7)).global_control_sources = [some [(0, 7)]] ∧
    (bt_machine_global_controller_change_value gst_env mono_machine 0 0
      (some 7)).global_default 0 = false ∧
    (bt_machine_global_controller_change_value gst_env
      (bt_machine_global_controller_change_value gst_env mono_machine 0 0 (some 7)) 0 0
      none).global_control_sources = [some [(0, 3)]] ∧
    (bt_machine_global_controller_change_value gst_env
      (bt_machine_global_controller_change_value gst_env mono_machine 0 0 (some 7)) 0 0
      none).global_default 0 = true ∧
    (bt_machine_voice_controller_change_value gst_env poly_machine 1 0 0
      (some 7)).voice_control_sources = [none, some [(0, 7)]] ∧
    (bt_machine_voice_controller_change_value gst_env poly_machine 1 0 0
      (some 7)).voice_default 1 0 = false ∧
    (bt_machine_voice_controller_change_value gst_env
      (bt_machine_voice_controller_change_value gst_env poly_machine 1 0 0 (some 7)) 1 0 0
      none).voice_control_sources = [none, some [(0, 3)]] ∧
    (bt_machine_voice_controller_change_value gst_env
      (bt_machine_voice_controller_change_value gst_env poly_machine 1 0 0 (some 7)) 1 0 0
      none).voice_default 1 0 = true := by
  decide

/-- Claim C17: with a global parameter index not below `global_params`, or
with a voice parameter index not below `voice_params` or a voice index not
below `voices`, the controller functions and the value setters return the
machine as it is. -/
theorem out_of_range_rejected (env : GstEnv) (self : ParamMachine) (timestamp : Nat)
    (value : Option GValue) :
    (∀ param, self.global_params ≤ param →
      bt_machine_global_controller_change_value env self param timestamp value = self ∧
      bt_machine_set_global_param_value self param value = self) ∧
    (∀ voice param, self.voice_params ≤ param ∨ self.voices ≤ voice →
      bt_machine_voice_controller_change_value env self voice param timestamp value = self ∧
      bt_machine_set_voice_param_value env self voice param value = self) := by
  constructor
  · intro param h
    have h1 : ¬ param < self.global_params := by omega
    constructor
    · simp [bt_machine_global_controller_change_value, h1]
    · cases value <;> simp [bt_machine_set_global_param_value, h1]
  · intro voice param h
    constructor
    · unfold bt_machine_voice_controller_change_value
      by_cases h1 : param < self.voice_params
      · have h2 : ¬ voice < self.voices := by omega
        simp [h1, h2]
      · simp [h1]
    · cases value with
      | none => rfl
      | some v =>
        unfold bt_machine_set_voice_param_value
        by_cases h1 : voice < self.voices
        · have h2 : ¬ param < self.voice_params := by omega
          simp [h1, h2]
        · simp [h1]

theorem mem_cs_insert (t : Nat) (v : GValue) (cs : ControlSource) (p : Nat × GValue) :
    p ∈ cs_insert t v cs ↔ p = (t, v) ∨ p ∈ cs := by
  induction cs with
  | nil => simp [cs_insert]
  | cons a rest ih =>
    simp only [cs_insert]
    split
    · simp
    · simp only [List.mem_cons, ih]
      tauto

theorem zero_valid : (0 : Nat) ≠ GST_CLOCK_TIME_NONE := by decide

theorem has_zero_set (cs : ControlSource) (t : Nat) (value : Option GValue)
    (h : HasPointAtZero cs) :
    HasPointAtZero (gst_interpolation_control_source_set cs t value) := by
  obtain ⟨v0, hv0⟩ := h
  cases value with
  | none => exact ⟨v0, hv0⟩
  | some v =>
    simp only [gst_interpolation_control_source_set]
    split
    · exact ⟨v0, hv0⟩
    · by_cases ht : t = 0
      · subst ht
        exact ⟨v, (mem_cs_insert _ _ _ _).2 (Or.inl rfl)⟩
      · refine ⟨v0, (mem_cs_insert _ _ _ _).2 (Or.inr ?_)⟩
        simp only [List.mem_filter]
        refine ⟨hv0, ?_⟩
        simp only [ne_eq, decide_not, Bool.not_eq_true', decide_eq_false_iff_not]
        exact fun h => ht h.symm

theorem has_zero_set_zero (cs : ControlSource) (v : GValue) :
    HasPointAtZero (gst_interpolation_control_source_set cs 0 (some v)) := by
  simp only [gst_interpolation_control_source_set, if_neg zero_valid]
  exact ⟨v, (mem_cs_insert _ _ _ _).2 (Or.inl rfl)⟩

theorem has_zero_unset (cs : ControlSource) (t : Nat) (ht : t ≠ 0) (h : HasPointAtZero cs) :
    HasPointAtZero (gst_interpolation_control_source_unset cs t) := by
  obtain ⟨v0, hv0⟩ := h
  simp only [gst_interpolation_control_source_unset]
  split
  · exact ⟨v0, hv0⟩
  · refine ⟨v0, ?_⟩
    simp only [List.mem_filter]
    refine ⟨hv0, ?_⟩
    simp only [ne_eq, decide_not, Bool.not_eq_true', decide_eq_false_iff_not]
    exact fun h => ht h.symm

/-- What one call leaves in the entry it works on: nothing, or a control source
with a point at timestamp 0. -/
theorem change_entry_ok (ctrl : Option Nat) (cs : Option ControlSource) (t : Nat)
    (value : Option GValue) (def_value : Option GValue) (hdef : def_value.isSome = true)
    (hcs : ∀ c, cs = some c → HasPointAtZero c) :
    (∀ c, cs.map (fun c => gst_interpolation_control_source_set c 0 def_value) = some c →
      HasPointAtZero c) ∧
    (∀ c, cs.map (fun c => gst_interpolation_control_source_set c t value) = some c →
      HasPointAtZero c) ∧
    (∀ c, value.isSome = true → controller_need_activate cs = true →
      ((if t ≠ 0 then
          (if ctrl.isSome then some [] else cs).map
            (fun c => gst_interpolation_control_source_set c 0 def_value)
        else (if ctrl.isSome then some [] else cs)).map
        (fun c => gst_interpolation_control_source_set c t value)) = some c →
      HasPointAtZero c) ∧
    (∀ c hd, t ≠ 0 → (controller_rem_value cs t hd).1 = some c → HasPointAtZero c) := by
  refine ⟨?_, ?_, ?_, ?_⟩
  · intro c h
    cases cs with
    | none => simp at h
    | some c0 =>
      simp only [Option.map_some', Option.some.injEq] at h
      subst h
      exact has_zero_set _ _ _ (hcs c0 rfl)
  · intro c h
    cases cs with
    | none => simp at h
    | some c0 =>
      simp only [Option.map_some', Option.some.injEq] at h
      subst h
      exact has_zero_set _ _ _ (hcs c0 rfl)
  · intro c hval hadd h
    obtain ⟨v, rfl⟩ := Option.isSome_iff_exists.1 hval
    obtain ⟨d, rfl⟩ := Option.isSome_iff_exists.1 hdef
    cases cs with
    | none =>
      cases hctrl : ctrl.isSome
      · simp [hctrl] at h
      · by_cases ht : t = 0
        · subst ht
          simp [hctrl] at h
          subst h
          exact has_zero_set_zero _ _
        · simp [hctrl, ht] at h
          subst h
          exact has_zero_set _ _ _ (has_zero_set_zero _ _)
    | some c0 =>
      by_cases ht : t = 0
      · subst ht
        cases hctrl : ctrl.isSome <;> simp [hctrl] at h <;> subst h <;>
          exact has_zero_set_zero _ _
      · cases hctrl : ctrl.isSome <;> simp [hctrl, ht] at h <;> subst h <;>
          exact has_zero_set _ _ _ (has_zero_set_zero _ _)
  · intro c hd ht h
    cases cs with
    | none => simp [controller_rem_value] at h
    | some c0 =>
      simp only [controller_rem_value, Option.some.injEq] at h
      subst h
      exact has_zero_unset _ _ ht (hcs c0 rfl)

theorem getElem?_set_cases {α : Type} (xs : List α) (i j : Nat) (x y : α)
    (h : (xs.set i x)[j]? = some y) : y = x ∨ xs[j]? = some y := by
  rw [List.getElem?_set] at h
  split at h
  · split at h
    · left; cases h; rfl
    · cases h
  · exact Or.inr h

theorem global_def_value_some (self : ParamMachine) (param : Nat) (d : Nat → Bool)
    (hp : param < self.global_params)
    (h3 : ∀ i, i < self.global_params → self.global_state i = false →
      (self.global_no_val i).isSome = true) :
    (if (!bt_machine_is_global_param_trigger { self with global_default := d } param) = true
      then some (self.global_value param) else self.global_no_val param).isSome = true ∧
    (if (!bt_machine_is_global_param_trigger self param) = true
      then some (self.global_value param) else self.global_no_val param).isSome = true := by
  simp only [bt_machine_is_global_param_trigger, hp, if_true]
  cases hs : self.global_state param
  · simpa using h3 param hp hs
  · simp

theorem global_change_shape (env : GstEnv) (self : ParamMachine) (param t : Nat)
    (value : Option GValue) (hinv : AutomationInv self) :
    ((bt_machine_global_controller_change_value env self param t value).global_control_sources
        = self.global_control_sources ∨
      ∃ X, (bt_machine_global_controller_change_value env self param t
          value).global_control_sources = self.global_control_sources.set param X ∧
        ∀ c, X = some c → HasPointAtZero c) ∧
    (bt_machine_global_controller_change_value env self param t value).voice_control_sources
      = self.voice_control_sources ∧
    (bt_machine_global_controller_change_value env self param t value).global_state
      = self.global_state ∧
    (bt_machine_global_controller_change_value env self param t value).voice_state
      = self.voice_state ∧
    (bt_machine_global_controller_change_value env self param t value).global_no_val
      = self.global_no_val ∧
    (bt_machine_global_controller_change_value env self param t value).voice_no_val
      = self.voice_no_val ∧
    (bt_machine_global_controller_change_value env self param t value).global_params
      = self.global_params ∧
    (bt_machine_global_controller_change_value env self param t value).voice_params
      = self.voice_params := by
  obtain ⟨h1, _, h3, _⟩ := hinv
  by_cases hp : param < self.global_params
  swap
  · simp [bt_machine_global_controller_change_value, hp]
  have hcs : ∀ c, (self.global_control_sources[param]?).join = some c → HasPointAtZero c := by
    intro c hc
    apply h1 param c
    cases hx : self.global_control_sources[param]? with
    | none => rw [hx] at hc; cases hc
    | some y => rw [hx] at hc; simp at hc; rw [hc]
  have hd := global_def_value_some self param
  unfold bt_machine_global_controller_change_value
  simp only [hp, not_true_eq_false, if_false]
  generalize (self.global_control_sources[param]?).join = cs at hcs ⊢
  by_cases ht : t = 0
  · subst ht
    cases value with
    | none =>
      cases hadd : controller_need_activate cs
      · simp only [if_true, Option.isSome_none, Option.isNone_none, decide_True, Bool.and_true,
          Bool.or_true, Bool.not_false, Bool.false_eq_true, if_false]
        exact ⟨Or.inr ⟨_, rfl, (change_entry_ok none cs 0 none _ (hd _ hp h3).1 hcs).1⟩,
          by simp⟩
      · simp
    | some v =>
      cases hadd : controller_need_activate cs
      · simp only [if_true, Option.isSome_some, Option.isNone_some, decide_True, Bool.and_false,
          Bool.or_false, Bool.false_eq_true, if_false]
        exact ⟨Or.inr ⟨_, rfl, (change_entry_ok none cs 0 (some v) _ (hd (fun _ => true) hp h3).2 hcs).2.1⟩,
          by simp⟩
      · simp only [if_true, Option.isSome_some, Option.isNone_some, decide_True, Bool.and_false,
          Bool.or_false, Bool.false_eq_true, if_false]
        exact ⟨Or.inr ⟨_, rfl, fun c hc =>
          (change_entry_ok (env.global_control param) cs 0 (some v) _
            (hd _ hp h3).1 hcs).2.2.1 c rfl hadd hc⟩, by simp⟩
  · cases value with
    | none =>
      simp only [ht, if_false, Option.isSome_none, Option.isNone_none, decide_False,
        Bool.false_and, Bool.or_false, Bool.false_eq_true]
      split
      · exact ⟨Or.inr ⟨none, rfl, fun c hc => by cases hc⟩, by simp⟩
      · exact ⟨Or.inr ⟨_, rfl, fun c hc =>
          (change_entry_ok none cs t none _ (hd (fun _ => true) hp h3).2 hcs).2.2.2
            c _ ht hc⟩, by simp⟩
    | some v =>
      cases hadd : controller_need_activate cs
      · simp only [ht, if_false, Option.isSome_some, Option.isNone_some, decide_False,
          Bool.false_and, Bool.or_false, Bool.false_eq_true, if_true]
        exact ⟨Or.inr ⟨_, rfl, (change_entry_ok none cs t (some v) _ (hd (fun _ => true) hp h3).2
          hcs).2.1⟩, by simp⟩
      · simp only [ht, if_false, Option.isSome_some, Option.isNone_some, decide_False,
          Bool.false_and, Bool.or_false, Bool.false_eq_true, if_true]
        exact ⟨Or.inr ⟨_, rfl, fun c hc =>
          (change_entry_ok (env.global_control param) cs t (some v) _
            (hd (fun _ => true) hp h3).2 hcs).2.2.1 c rfl hadd hc⟩, by simp⟩

theorem voice_def_value_some (self : ParamMachine) (voice param : Nat) (d : Nat → Nat → Bool)
    (hp : param < self.voice_params)
    (h3 : ∀ i, i < self.voice_params → self.voice_state i = false →
      (self.voice_no_val i).isSome = true) :
    (if (!bt_machine_is_voice_param_trigger { self with voice_default := d } param) = true
      then some (self.voice_value voice param) else self.voice_no_val param).isSome = true ∧
    (if (!bt_machine_is_voice_param_trigger self param) = true
      then some (self.voice_value voice param) else self.voice_no_val param).isSome = true := by
  simp only [bt_machine_is_voice_param_trigger, hp, if_true]
  cases hs : self.voice_state param
  · simpa using h3 param hp hs
  · simp

theorem voice_change_shape (env : GstEnv) (self : ParamMachine) (voice param t : Nat)
    (value : Option GValue) (hinv : AutomationInv self) :
    ((bt_machine_voice_controller_change_value env self voice param t
          value).voice_control_sources = self.voice_control_sources ∨
      ∃ X, (bt_machine_voice_controller_change_value env self voice param t
          value).voice_control_sources
          = self.voice_control_sources.set (voice * self.voice_params + param) X ∧
        ∀ c, X = some c → HasPointAtZero c) ∧
    (bt_machine_voice_controller_change_value env self voice param t
      value).global_control_sources = self.global_control_sources ∧
    (bt_machine_voice_controller_change_value env self voice param t value).global_state
      = self.global_state ∧
    (bt_machine_voice_controller_change_value env self voice param t value).voice_state
      = self.voice_state ∧
    (bt_machine_voice_controller_change_value env self voice param t value).global_no_val
      = self.global_no_val ∧
    (bt_machine_voice_controller_change_value env self voice param t value).voice_no_val
      = self.voice_no_val ∧
    (bt_machine_voice_controller_change_value env self voice param t value).global_params
      = self.global_params ∧
    (bt_machine_voice_controller_change_value env self voice param t value).voice_params
      = self.voice_params := by
  obtain ⟨_, h1, _, h3⟩ := hinv
  by_cases hp : param < self.voice_params
  swap
  · simp [bt_machine_voice_controller_change_value, hp]
  by_cases hv : voice < self.voices
  swap
  · simp [bt_machine_voice_controller_change_value, hv]
  cases hpoly : self.child_bin
  · simp [bt_machine_voice_controller_change_value, hpoly]
  have hcs : ∀ c, (self.voice_control_sources[voice * self.voice_params + param]?).join
      = some c → HasPointAtZero c := by
    intro c hc
    apply h1 (voice * self.voice_params + param) c
    cases hx : self.voice_control_sources[voice * self.voice_params + param]? with
    | none => rw [hx] at hc; cases hc
    | some y => rw [hx] at hc; simp at hc; rw [hc]
  have hd := voice_def_value_some self voice param
  unfold bt_machine_voice_controller_change_value
  simp only [hp, hv, hpoly, not_true_eq_false, if_false, Bool.not_true, Bool.false_eq_true]
  generalize (self.voice_control_sources[voice * self.voice_params + param]?).join = cs
    at hcs ⊢
  by_cases ht : t = 0
  · subst ht
    cases value with
    | none =>
      cases hadd : controller_need_activate cs
      · simp only [if_true, Option.isSome_none, Option.isNone_none, decide_True, Bool.and_true,
          Bool.or_true, Bool.not_false, Bool.false_eq_true, if_false]
        exact ⟨Or.inr ⟨_, rfl, (change_entry_ok none cs 0 none _ (hd (fun _ _ => true) hp h3).2 hcs).1⟩,
          by simp⟩
      · simp
    | some v =>
      cases hadd : controller_need_activate cs
      · simp only [if_true, Option.isSome_some, Option.isNone_some, decide_True, Bool.and_false,
          Bool.or_false, Bool.false_eq_true, if_false]
        exact ⟨Or.inr ⟨_, rfl, (change_entry_ok none cs 0 (some v) _
          (hd (fun _ _ => true) hp h3).2 hcs).2.1⟩, by simp⟩
      · simp only [if_true, Option.isSome_some, Option.isNone_some, decide_True, Bool.and_false,
          Bool.or_false, Bool.false_eq_true, if_false]
        exact ⟨Or.inr ⟨_, rfl, fun c hc =>
          (change_entry_ok (env.voice_control voice param) cs 0 (some v) _
            (hd (fun _ _ => true) hp h3).2 hcs).2.2.1 c rfl hadd hc⟩, by simp⟩
  · cases value with
    | none =>
      simp only [ht, if_false, Option.isSome_none, Option.isNone_none, decide_False,
        Bool.false_and, Bool.or_false, Bool.false_eq_true]
      split
      · exact ⟨Or.inr ⟨none, rfl, fun c hc => by cases hc⟩, by simp⟩
      · exact ⟨Or.inr ⟨_, rfl, fun c hc =>
          (change_entry_ok none cs t none _ (hd (fun _ _ => true) hp h3).2 hcs).2.2.2
            c _ ht hc⟩, by simp⟩
    | some v =>
      cases hadd : controller_need_activate cs
      · simp only [ht, if_false, Option.isSome_some, Option.isNone_some, decide_False,
          Bool.false_and, Bool.or_false, Bool.false_eq_true, if_true]
        exact ⟨Or.inr ⟨_, rfl, (change_entry_ok none cs t (some v) _
          (hd (fun _ _ => true) hp h3).2 hcs).2.1⟩, by simp⟩
      · simp only [ht, if_false, Option.isSome_some, Option.isNone_some, decide_False,
          Bool.false_and, Bool.or_false, Bool.false_eq_true, if_true]
        exact ⟨Or.inr ⟨_, rfl, fun c hc =>
          (change_entry_ok (env.voice_control voice param) cs t (some v) _
            (hd (fun _ _ => true) hp h3).2 hcs).2.2.1 c rfl hadd hc⟩, by simp⟩

theorem sources_ok_of_shape (old new : List (Option ControlSource)) (idx : Nat)
    (hold : ∀ (i : Nat) (cs : ControlSource), old[i]? = some (some cs) → HasPointAtZero cs)
    (h : new = old ∨ ∃ X, new = old.set idx X ∧ ∀ c, X = some c → HasPointAtZero c) :
    ∀ (i : Nat) (cs : ControlSource), new[i]? = some (some cs) → HasPointAtZero cs := by
  intro i cs hi
  rcases h with h | ⟨X, h, hX⟩
  · rw [h] at hi; exact hold i cs hi
  · rw [h] at hi
    rcases getElem?_set_cases _ _ _ _ _ hi with h2 | h2
    · exact hX cs h2.symm
    · exact hold i cs h2

theorem controller_call_inv (env : GstEnv) (self : ParamMachine) (call : ControllerCall)
    (hinv : AutomationInv self) : AutomationInv (call.apply env self) := by
  cases call with
  | global_change param t value =>
    obtain ⟨a, b, c, d, e, f, g, h⟩ := global_change_shape env self param t value hinv
    simp only [ControllerCall.apply]
    refine ⟨sources_ok_of_shape _ _ param hinv.1 a, ?_, ?_, ?_⟩
    · rw [b]; exact hinv.2.1
    · rw [c, e, g]; exact hinv.2.2.1
    · rw [d, f, h]; exact hinv.2.2.2
  | voice_change voice param t value =>
    obtain ⟨a, b, c, d, e, f, g, h⟩ := voice_change_shape env self voice param t value hinv
    simp only [ControllerCall.apply]
    refine ⟨?_, sources_ok_of_shape _ _ _ hinv.2.1 a, ?_, ?_⟩
    · rw [b]; exact hinv.1
    · rw [c, e, g]; exact hinv.2.2.1
    · rw [d, f, h]; exact hinv.2.2.2

theorem run_controller_calls_inv (env : GstEnv) (calls : List ControllerCall)
    (self : ParamMachine) (hinv : AutomationInv self) :
    AutomationInv (run_controller_calls env self calls) := by
  induction calls generalizing self with
  | nil => exact hinv
  | cons c rest ih =>
    simp only [run_controller_calls, List.foldl_cons]
    exact ih _ (controller_call_inv env self c hinv)

/-- Claim C16: starting from a machine with no control source attached in
which every Trigger parameter has an initialised no-value, as the discovery of
the parameters leaves it, after every sequence of calls of
`bt_machine_global_controller_change_value` and
`bt_machine_voice_controller_change_value` every attached control source has a
control point at timestamp 0. -/
theorem attached_source_has_point_at_zero (env : GstEnv) (self : ParamMachine)
    (calls : List ControllerCall)
    (hglobal : ∀ x ∈ self.global_control_sources, x = none)
    (hvoice : ∀ x ∈ self.voice_control_sources, x = none)
    (hgn : ∀ i, i < self.global_params → self.global_state i = false →
      (self.global_no_val i).isSome = true)
    (hvn : ∀ i, i < self.voice_params → self.voice_state i = false →
      (self.voice_no_val i).isSome = true) :
    (∀ (param : Nat) (cs : ControlSource),
      (run_controller_calls env self calls).global_control_sources[param]? = some (some cs) →
      ∃ v, ((0 : Nat), v) ∈ cs) ∧
    (∀ (i : Nat) (cs : ControlSource),
      (run_controller_calls env self calls).voice_control_sources[i]? = some (some cs) →
      ∃ v, ((0 : Nat), v) ∈ cs) := by
  have hinv : AutomationInv self := by
    refine ⟨fun i cs h => ?_, fun i cs h => ?_, hgn, hvn⟩
    · have := hglobal _ (List.getElem?_mem h)
      cases this
    · have := hvoice _ (List.getElem?_mem h)
      cases this
  have := run_controller_calls_inv env calls self hinv
  exact ⟨this.1, this.2.1⟩

theorem find_param_name_none (name : String) (props : List GParamSpec) (i0 : Nat) :
    find_param_name name props i0 = none ↔ ∀ p ∈ props, p.name ≠ name := by
  induction props generalizing i0 with
  | nil => simp [find_param_name]
  | cons p rest ih =>
    simp only [find_param_name]
    by_cases h : p.name = name
    · simp [h]
    · simp [h, ih]

theorem find_param_name_least (name : String) (props : List GParamSpec) (i0 i : Nat)
    (hi : (props[i]?).map GParamSpec.name = some name)
    (hleast : ∀ j, j < i → (props[j]?).map GParamSpec.name ≠ some name) :
    find_param_name name props i0 = some (i0 + i) := by
  induction props generalizing i0 i with
  | nil => simp at hi
  | cons p rest ih =>
    simp only [find_param_name]
    cases i with
    | zero =>
      simp at hi
      simp [hi]
    | succ k =>
      have h0 := hleast 0 (Nat.succ_pos k)
      simp at h0
      simp only [h0, if_false]
      have := ih (i0 + 1) k (by simpa using hi) (fun j hj => by
        have := hleast (j + 1) (by omega)
        simpa using this)
      rw [this]
      congr 1
      omega

theorem find_param_name_lt (name : String) (props : List GParamSpec) (i0 k : Nat)
    (h : find_param_name name props i0 = some k) : k < i0 + props.length := by
  induction props generalizing i0 with
  | nil => simp [find_param_name] at h
  | cons p rest ih =>
    simp only [find_param_name] at h
    split at h
    · cases h; simp
    · have := ih (i0 + 1) h
      simp only [List.length_cons]
      omega

theorem to_glong_small (n : Nat) (h : n < 2 ^ 63) : to_glong n = (n : Int) := by
  have h1 : n % 2 ^ 64 = n := Nat.mod_eq_of_lt (by omega)
  unfold to_glong
  rw [h1, if_pos h]

theorem to_glong_minus_one : to_glong (2 ^ 64 - 1) = -1 := by decide

/-- Claim C18: for a non-empty name and an error location that is NULL or
holds no error, on a machine whose parameter arrays hold `global_params` and
`voice_params` entries, the index functions return the least index whose
parameter has the name and leave the error location as it is; when no
parameter has the name they return -1 and put an error into the location if
there is one; the result is -1 exactly when no parameter has the name. -/
theorem param_index_lookup (self : ParamMachine) (name : String) (error : ErrorLocation)
    (hname : name ≠ "") (herr : error = none ∨ error = some none)
    (hg : self.global_params = self.global_props.length)
    (hv : self.voice_params = self.voice_props.length)
    (hsmall : self.voice_props.length < 2 ^ 63) :
    (∀ (i : Nat), (self.global_props[i]?).map GParamSpec.name = some name →
      (∀ j, j < i → (self.global_props[j]?).map GParamSpec.name ≠ some name) →
      bt_machine_get_global_param_index self (some name) error = ((i : Int), error)) ∧
    ((∀ p ∈ self.global_props, p.name ≠ name) →
      bt_machine_get_global_param_index self (some name) error
        = (-1, error.map (fun _ => some ("global param for name " ++ name ++ " not found")))) ∧
    ((bt_machine_get_global_param_index self (some name) error).1 = -1 ↔
      ∀ p ∈ self.global_props, p.name ≠ name) ∧
    (∀ (i : Nat), (self.voice_props[i]?).map GParamSpec.name = some name →
      (∀ j, j < i → (self.voice_props[j]?).map GParamSpec.name ≠ some name) →
      bt_machine_get_voice_param_index self (some name) error = ((i : Int), error)) ∧
    ((∀ p ∈ self.voice_props, p.name ≠ name) →
      bt_machine_get_voice_param_index self (some name) error
        = (-1, error.map (fun _ => some ("voice param for name " ++ name ++ " not found")))) ∧
    ((bt_machine_get_voice_param_index self (some name) error).1 = -1 ↔
      ∀ p ∈ self.voice_props, p.name ≠ name) := by
  have herr2 : ¬ ¬ (error = none ∨ error = some none) := not_not.2 herr
  have hs : BT_IS_STRING (some name) = true := by simp [BT_IS_STRING, hname]
  have hgt : self.global_props.take self.global_params = self.global_props := by
    rw [hg]; exact List.take_length _
  have hvt : self.voice_props.take self.voice_params = self.voice_props := by
    rw [hv]; exact List.take_length _
  refine ⟨?_, ?_, ?_, ?_, ?_, ?_⟩
  · intro i hi hleast
    have := find_param_name_least name self.global_props 0 i hi hleast
    simp only [bt_machine_get_global_param_index, hs, Bool.not_true, Bool.false_eq_true,
      Option.getD_some, if_false, herr2, hgt, this,
      Nat.zero_add]
  · intro hnone
    have := (find_param_name_none name self.global_props 0).2 hnone
    simp only [bt_machine_get_global_param_index, hs, Bool.not_true, Bool.false_eq_true,
      Option.getD_some, if_false, herr2, hgt, this]
  · simp only [bt_machine_get_global_param_index, hs, Bool.not_true, Bool.false_eq_true,
      Option.getD_some, if_false, herr2, hgt]
    cases hf : find_param_name name self.global_props 0 with
    | none =>
      simp only [true_iff]
      exact (find_param_name_none name self.global_props 0).1 hf
    | some k =>
      simp only
      constructor
      · intro h; omega
      · intro h
        rw [(find_param_name_none name self.global_props 0).2 h] at hf
        cases hf
  · intro i hi hleast
    have := find_param_name_least name self.voice_props 0 i hi hleast
    have hlt := find_param_name_lt name self.voice_props 0 _ this
    simp only [bt_machine_get_voice_param_index, hs, Bool.not_true, Bool.false_eq_true,
      Option.getD_some, if_false, herr2, hvt, this,
      Nat.zero_add]
    rw [to_glong_small _ (by omega)]
  · intro hnone
    have := (find_param_name_none name self.voice_props 0).2 hnone
    simp only [bt_machine_get_voice_param_index, hs, Bool.not_true, Bool.false_eq_true,
      Option.getD_some, if_false, herr2, hvt, this,
      to_glong_minus_one]
  · simp only [bt_machine_get_voice_param_index, hs, Bool.not_true, Bool.false_eq_true,
      Option.getD_some, if_false, herr2, hvt]
    cases hf : find_param_name name self.voice_props 0 with
    | none =>
      simp only [to_glong_minus_one, true_iff]
      exact (find_param_name_none name self.voice_props 0).1 hf
    | some k =>
      have hlt := find_param_name_lt name self.voice_props 0 _ hf
      simp only
      rw [to_glong_small _ (by omega)]
      constructor
      · intro h; omega
      · intro h
        rw [(find_param_name_none name self.voice_props 0).2 h] at hf
        cases hf

theorem fill_count_global_params (child : List GParamSpec) (props : List GParamSpec) :
    fill_global_params (count_global_params child props).1
      = props.filter
          (fun p => p.controllable && !child.any (fun c => decide (c.name = p.name))) ∧
    (count_global_params child props).2
      = (props.filter
          (fun p => p.controllable && !child.any (fun c => decide (c.name = p.name)))).length := by
  induction props with
  | nil => exact ⟨rfl, rfl⟩
  | cons p rest ih =>
    obtain ⟨ih1, ih2⟩ := ih
    simp only [count_global_params]
    cases hc : p.controllable
    · simp [fill_global_params, hc, ih1, ih2]
    · cases hs : child.any (fun c => decide (c.name = p.name))
      · simp [fill_global_params, hc, hs, ih1, ih2]
      · simp [fill_global_params, hc, hs, ih1, ih2]

theorem init_param_trigger_no_val (property_meta : Bool) (p : GParamSpec)
    (h : (init_param property_meta p).1 = false) :
    ((init_param property_meta p).2).isSome = true := by
  unfold init_param at h ⊢
  cases hm : (property_meta && p.has_meta)
  · cases hr : p.readable <;> simp [hm, hr] at h ⊢
  · have hmeta : p.has_meta = true := by
      cases property_meta <;> simp at hm
      exact hm
    have : ((bt_machine_get_property_meta_value p p.meta_no_val).2).isSome = true := by
      unfold bt_machine_get_property_meta_value
      simp only [hmeta, if_true]
      cases p.value_type <;> simp <;> split <;> rfl
    cases hx : (bt_machine_get_property_meta_value p p.meta_no_val).2 with
    | none => rw [hx] at this; cases this
    | some v => simp [hm]

theorem init_global_props_eq (u : UnitClass) (self : ParamMachine) :
    (bt_machine_init_global_params u self).global_props
      = u.properties.filter (fun p => p.controllable &&
          !(if self.child_bin then u.voice_child.getD [] else []).any
            (fun c => decide (c.name = p.name))) := by
  simp only [bt_machine_init_global_params]
  exact (fill_count_global_params _ _).1

/-- What the two loops of `bt_machine_init_global_params` build: the global
parameter list is the list of the unit's controllable properties, in
declaration order, whose name is not the name of any property of the voice
child 0 of a polyphonic unit, controllable or not; `global_params` grows by the
length of that list; a controllable unit property is left out exactly when the
unit is polyphonic and a property of the voice child has its name. -/
theorem global_params_exclude_child_names (u : UnitClass) (self : ParamMachine) :
    (bt_machine_init_global_params u self).global_props
      = u.properties.filter (fun p => p.controllable &&
          !(if self.child_bin then u.voice_child.getD [] else []).any
            (fun c => decide (c.name = p.name))) ∧
    (bt_machine_init_global_params u self).global_params
      = self.global_params + (bt_machine_init_global_params u self).global_props.length ∧
    (∀ p ∈ u.properties, p.controllable = true →
      (p ∉ (bt_machine_init_global_params u self).global_props ↔
        self.child_bin = true ∧ ∃ c ∈ u.voice_child.getD [], c.name = p.name)) := by
  have e1 := init_global_props_eq u self
  refine ⟨e1, ?_, ?_⟩
  · rw [e1, ← (fill_count_global_params _ _).2]
    simp only [bt_machine_init_global_params]
  · intro p hp hc
    rw [e1]
    cases hb : self.child_bin <;> simp [List.mem_filter, hp, hc]

theorem global_params_exclude_child_names_witness :
    (bt_machine_init_global_params mono_unit (new_machine false 0)).global_props
      = [cutoff_spec, wave_spec] ∧
    (bt_machine_init_global_params mono_unit (new_machine false 0)).global_params = 2 := by
  have h := global_params_exclude_child_names mono_unit (new_machine false 0)
  refine ⟨h.1.trans (by decide), h.2.1.trans ?_⟩
  rw [h.1]
  decide

/-- Claim C19, evaluated where it fails: on a polyphonic unit whose voice
child has a property `cutoff` that is not controllable, the controllable unit
property `cutoff` is left out of the global list although no voice parameter
has that name: the skip test compares with every property of the voice child,
not only with the controllable ones that become voice parameters, and the
property is in neither list. -/
theorem global_param_dropped_for_plain_child_property :
    cutoff_spec ∈ poly_unit.properties ∧ cutoff_spec.controllable = true ∧
    (bt_machine_init_global_params poly_unit (new_machine true 1)).global_props = [] ∧
    (bt_machine_init_voice_params gst_env poly_unit
      (bt_machine_init_global_params poly_unit (new_machine true 1))).voice_props
      = [note_spec, wave_spec] ∧
    (∀ p ∈ (bt_machine_init_voice_params gst_env poly_unit
      (bt_machine_init_global_params poly_unit (new_machine true 1))).voice_props,
      p.name ≠ cutoff_spec.name) := by
  decide

/-- Claim C20, as amended: a controllable property is entered in its
parameter list whatever its value type: every controllable unit property whose
name no property of the voice child has is in the global list and every
controllable property of the voice child is in the voice list; for the types
float, double and the unnamed ones only the no-value given as meta data is not
read, `bt_machine_get_property_meta_value` returns FALSE. -/
theorem discovery_keeps_every_value_type (env : GstEnv) (u : UnitClass) (self : ParamMachine) :
    (∀ p ∈ u.properties, p.controllable = true →
      (∀ c ∈ (if self.child_bin then u.voice_child.getD [] else []), c.name ≠ p.name) →
      p ∈ (bt_machine_init_global_params u self).global_props) ∧
    (∀ props, self.child_bin = true → u.voice_child = some props →
      ∀ p ∈ props, p.controllable = true →
        p ∈ (bt_machine_init_voice_params env u self).voice_props) ∧
    (∀ p : GParamSpec, p.has_meta = true → p.meta_no_val ≠ 0 →
      (p.value_type = GType.float ∨ p.value_type = GType.double ∨
        p.value_type = GType.other) →
      bt_machine_get_property_meta_value p p.meta_no_val = (false, some 0)) := by
  refine ⟨?_, ?_, ?_⟩
  · intro p hp hc hname
    rw [init_global_props_eq u self]
    simp only [List.mem_filter, Bool.and_eq_true, Bool.not_eq_true', hc, true_and]
    refine ⟨hp, ?_⟩
    rw [List.any_eq_false]
    intro c hcm
    simpa using hname c hcm
  · intro props hpoly hchild p hp hc
    simp [bt_machine_init_voice_params, hpoly, hchild, bt_machine_resize_voices]
    split <;> simp [List.mem_filter, hp, hc]
  · intro p hm hq ht
    unfold bt_machine_get_property_meta_value
    rcases ht with ht | ht | ht <;> simp [hm, ht, hq]

theorem discovery_keeps_every_value_type_witness :
    wave_spec ∈ (bt_machine_init_global_params mono_unit (new_machine false 0)).global_props ∧
    wave_spec ∈ (bt_machine_init_voice_params gst_env poly_unit
      (new_machine true 1)).voice_props ∧
    bt_machine_get_property_meta_value wave_spec wave_spec.meta_no_val = (false, some 0) :=
  ⟨(discovery_keeps_every_value_type gst_env mono_unit (new_machine false 0)).1 wave_spec
      (by decide) rfl (by decide),
   (discovery_keeps_every_value_type gst_env poly_unit (new_machine true 1)).2.1 _ rfl rfl
      wave_spec (by decide) rfl,
   (discovery_keeps_every_value_type gst_env mono_unit (new_machine false 0)).2.2 wave_spec
      rfl (by decide) (Or.inr (Or.inr rfl))⟩

/-- Claim C20 as stated fails: the controllable property `wave`, of a type
the parameter code does not name, is entered in the global list and in the
voice list, and is counted. -/
theorem unrecognized_type_is_listed :
    wave_spec.value_type = GType.other ∧ wave_spec.controllable = true ∧
    (bt_machine_init_global_params mono_unit (new_machine false 0)).global_props
      = [cutoff_spec, wave_spec] ∧
    (bt_machine_init_global_params mono_unit (new_machine false 0)).global_params = 2 ∧
    (bt_machine_init_voice_params gst_env poly_unit (new_machine true 1)).voice_props
      = [note_spec, wave_spec] ∧
    (bt_machine_init_voice_params gst_env poly_unit (new_machine true 1)).voice_params = 2 := by
  decide

theorem attached_source_has_point_at_zero_witness :
    (∀ (param : Nat) (cs : ControlSource),
      (run_controller_calls gst_env
        (bt_machine_init_voice_params gst_env poly_unit
          (bt_machine_init_global_params poly_unit (new_machine true 2)))
        [ControllerCall.voice_change 1 0 1000 (some 5),
          ControllerCall.voice_change 1 0 1000 none,
          ControllerCall.voice_change 0 1 0 none]).global_control_sources[param]?
        = some (some cs) →
      ∃ v, ((0 : Nat), v) ∈ cs) ∧
    (∀ (i : Nat) (cs : ControlSource),
      (run_controller_calls gst_env
        (bt_machine_init_voice_params gst_env poly_unit
          (bt_machine_init_global_params poly_unit (new_machine true 2)))
        [ControllerCall.voice_change 1 0 1000 (some 5),
          ControllerCall.voice_change 1 0 1000 none,
          ControllerCall.voice_change 0 1 0 none]).voice_control_sources[i]?
        = some (some cs) →
      ∃ v, ((0 : Nat), v) ∈ cs) :=
  attached_source_has_point_at_zero gst_env
    (bt_machine_init_voice_params gst_env poly_unit
      (bt_machine_init_global_params poly_unit (new_machine true 2)))
    [ControllerCall.voice_change 1 0 1000 (some 5),
      ControllerCall.voice_change 1 0 1000 none,
      ControllerCall.voice_change 0 1 0 none]
    (by decide) (by decide) (by decide) (by decide)

theorem out_of_range_rejected_witness :
    bt_machine_global_controller_change_value gst_env mono_machine 1 1000 (some 5)
      = mono_machine ∧
    bt_machine_set_global_param_value mono_machine 1 (some 5) = mono_machine ∧
    bt_machine_voice_controller_change_value gst_env poly_machine 2 0 1000 (some 5)
      = poly_machine ∧
    bt_machine_set_voice_param_value gst_env poly_machine 2 0 (some 5) = poly_machine :=
  ⟨((out_of_range_rejected gst_env mono_machine 1000 (some 5)).1 1 (by decide)).1,
   ((out_of_range_rejected gst_env mono_machine 1000 (some 5)).1 1 (by decide)).2,
   ((out_of_range_rejected gst_env poly_machine 1000 (some 5)).2 2 0
      (Or.inr (by decide))).1,
   ((out_of_range_rejected gst_env poly_machine 1000 (some 5)).2 2 0
      (Or.inr (by decide))).2⟩

theorem param_index_lookup_witness :
    bt_machine_get_voice_param_index poly_machine (some "cutoff") (some none)
      = (0, some none) ∧
    bt_machine_get_global_param_index poly_machine (some "cutoff") (some none)
      = (-1, some (some "global param for name cutoff not found")) :=
  ⟨(param_index_lookup poly_machine "cutoff" (some none) (by decide) (Or.inr rfl) rfl rfl
      (by decide)).2.2.2.1 0 (by decide) (fun j hj => absurd hj (Nat.not_lt_zero j)),
   (param_index_lookup poly_machine "cutoff" (some none) (by decide) (Or.inr rfl) rfl rfl
      (by decide)).2.1 (fun p hp => absurd hp (List.not_mem_nil p))⟩

/-! ## Properties of the controls, the random values, the defaults, the patterns and the state changes -/

/-- Claim C21 fails in the code: binding the parameter `cutoff` of voice
child 0 to control 10 and then the same parameter of voice child 1 to control
11 leaves one binding in the table, which targets voice child 0 with control
11; the first control is stopped and disconnected. -/
theorem bind_second_voice_replaces_first :
    voice_object_0 ≠ voice_object_1 ∧
    ((bt_machine_bind_parameter_control voice_classes no_controls voice_object_0
        "cutoff" 10).bind
      (fun s => bt_machine_bind_parameter_control voice_classes s voice_object_1
        "cutoff" 11)) =
      some
        { control_data :=
            [{ control := 11, object := voice_object_0,
               pspec := { class_id := 5, spec := cutoff_spec },
               handler_id := some NotifyHandler.on_uint_control_notify }]
          log :=
            [ControlOp.device_start 10,
              ControlOp.handler_connect 10 NotifyHandler.on_uint_control_notify,
              ControlOp.device_stop 10, ControlOp.handler_disconnect 10,
              ControlOp.device_start 11,
              ControlOp.handler_connect 11 NotifyHandler.on_uint_control_notify] } := by
  decide

/-- Claim C22 fails in the code: for the bounds -2^30 and 2^30 the 32 bit
difference is -2^31, and with `rand()` = 2^29 and `RAND_MAX` = 2^31 - 1 (the
fraction 1/4) the value handed to `g_object_set` is -1610612736, below the
minimum. -/
theorem randomize_int_below_minimum :
    to_gint (1073741824 - -1073741824) = -2147483648 ∧
    randomize_int 2147483647 536870912 (-1073741824) 1073741824 = -1610612736 ∧
    randomize_int 2147483647 536870912 (-1073741824) 1073741824 < -1073741824 := by
  decide

/-- Claim C23 fails in the code: for an enum with the codes -2^30 and 2^30,
whose minimum is a code, and the fraction 1/4 the drawn value is -1610612736,
below the minimum, so the loop does not run and the value handed to
`g_object_set` is not a code of the enum. -/
theorem randomize_enum_below_minimum :
    wide_enum (-1073741824) = true ∧
    randomize_enum 2147483647 536870912 (-1073741824) 1073741824 wide_enum = -1610612736 ∧
    wide_enum (randomize_enum 2147483647 536870912 (-1073741824) 1073741824 wide_enum)
      = false := by
  decide

/-- Claim C26 fails in the code: after an internal pattern is added and
removed and a pattern that is not internal is added, the list holds that one
pattern and `private_patterns` is still 1, so `bt_machine_has_patterns` returns
FALSE. -/
theorem has_patterns_after_internal_removed :
    bt_machine_has_patterns
      (bt_machine_add_pattern
        (bt_machine_remove_pattern
          (bt_machine_add_pattern no_patterns { ptr := 1, id := "M 00", is_internal := true })
          { ptr := 1, id := "M 00", is_internal := true })
        { ptr := 2, id := "M 01", is_internal := false }) = false ∧
    (bt_machine_add_pattern
        (bt_machine_remove_pattern
          (bt_machine_add_pattern no_patterns { ptr := 1, id := "M 00", is_internal := true })
          { ptr := 1, id := "M 00", is_internal := true })
        { ptr := 2, id := "M 01", is_internal := false }).patterns
      = [{ ptr := 2, id := "M 01", is_internal := false }] ∧
    (bt_machine_add_pattern
        (bt_machine_remove_pattern
          (bt_machine_add_pattern no_patterns { ptr := 1, id := "M 00", is_internal := true })
          { ptr := 1, id := "M 00", is_internal := true })
        { ptr := 2, id := "M 01", is_internal := false }).private_patterns = 1 := by
  decide

theorem to_gint_small (d : Int) (h0 : 0 ≤ d) (h1 : d < 2 ^ 31) : to_gint d = d := by
  unfold to_gint
  omega

theorem tdiv_between (a b n m : Int) (hm : 0 < m) (h1 : a * m ≤ n) (h2 : n ≤ b * m) :
    a ≤ Int.tdiv n m ∧ Int.tdiv n m ≤ b := by
  by_cases hn : 0 ≤ n
  · rw [Int.tdiv_eq_ediv hn (Int.le_of_lt hm)]
    exact ⟨(Int.le_ediv_iff_mul_le hm).2 h1, Int.ediv_le_of_le_mul hm h2⟩
  · have hn2 : 0 ≤ -n := by omega
    have e : Int.tdiv n m = -((-n) / m) := by
      rw [← Int.tdiv_eq_ediv hn2 (Int.le_of_lt hm), Int.neg_tdiv, Int.neg_neg]
    rw [e]
    have u : (-n) / m ≤ -a := Int.ediv_le_of_le_mul hm (by rw [Int.neg_mul]; omega)
    have l : -b ≤ (-n) / m := (Int.le_ediv_iff_mul_le hm).2 (by rw [Int.neg_mul]; omega)
    omega

theorem randomize_draw_in_bounds (rand_max r : Nat) (minimum maximum : Int)
    (hr : r ≤ rand_max) (h0 : minimum ≤ maximum) (h1 : maximum - minimum < 2 ^ 31) :
    minimum ≤ randomize_draw rand_max r minimum maximum ∧
    randomize_draw rand_max r minimum maximum ≤ maximum := by
  unfold randomize_draw
  rw [to_gint_small _ (by omega) h1]
  have hm : (0 : Int) < (rand_max : Int) + 1 := by omega
  have hd : (0 : Int) ≤ maximum - minimum := by omega
  have hr2 : (r : Int) ≤ (rand_max : Int) + 1 := by omega
  have hr0 : (0 : Int) ≤ (r : Int) := by omega
  apply tdiv_between _ _ _ _ hm
  · have := Int.mul_nonneg hd hr0
    omega
  · have := Int.mul_le_mul_of_nonneg_left hr2 hd
    have e : maximum * ((rand_max : Int) + 1)
        = minimum * ((rand_max : Int) + 1) + (maximum - minimum) * ((rand_max : Int) + 1) := by
      ring
    omega

theorem enum_walk_below (valid : Int → Bool) (minimum : Int) (count : Nat) (value : Int)
    (h : value < minimum) : enum_walk valid minimum count value = value := by
  cases count with
  | zero => rfl
  | succ c =>
    have : ¬ minimum ≤ value := by omega
    simp [enum_walk, this]

theorem enum_walk_greatest (valid : Int → Bool) (minimum : Int) (hmin : valid minimum = true)
    (count : Nat) (value : Int) (h0 : minimum ≤ value) (h1 : value - minimum < count) :
    valid (enum_walk valid minimum count value) = true ∧
    minimum ≤ enum_walk valid minimum count value ∧
    enum_walk valid minimum count value ≤ value ∧
    ∀ w, enum_walk valid minimum count value < w → w ≤ value → valid w = false := by
  induction count generalizing value with
  | zero => omega
  | succ c ih =>
    simp only [enum_walk]
    cases hv : valid value
    · have hne : value ≠ minimum := by
        intro e; rw [e, hmin] at hv; cases hv
      simp only [Bool.not_false, Bool.true_and, decide_eq_true_eq, h0, if_true]
      obtain ⟨a, b, c1, d⟩ := ih (value - 1) (by omega) (by omega)
      refine ⟨a, b, by omega, fun w hw1 hw2 => ?_⟩
      by_cases hw : w = value
      · rw [hw]; exact hv
      · exact d w hw1 (by omega)
    · simp only [Bool.not_true, Bool.false_and, Bool.false_eq_true, if_false]
      exact ⟨hv, h0, le_refl _, fun w hw1 hw2 => by omega⟩

theorem randomize_enum_greatest_valid (rand_max r : Nat) (minimum maximum : Int)
    (valid : Int → Bool) (hr : r ≤ rand_max) (h0 : minimum ≤ maximum)
    (h1 : maximum - minimum < 2 ^ 31) (hmin : valid minimum = true) :
    valid (randomize_enum rand_max r minimum maximum valid) = true ∧
    randomize_enum rand_max r minimum maximum valid
      ≤ randomize_draw rand_max r minimum maximum ∧
    ∀ w, randomize_enum rand_max r minimum maximum valid < w →
      w ≤ randomize_draw rand_max r minimum maximum → valid w = false := by
  have hb := (randomize_draw_in_bounds rand_max r minimum maximum hr h0 h1).1
  obtain ⟨a, _, c, d⟩ := enum_walk_greatest valid minimum hmin
    (randomize_draw rand_max r minimum maximum - minimum + 1).toNat
    (randomize_draw rand_max r minimum maximum) hb (by omega)
  exact ⟨a, c, d⟩

theorem pattern_id_not_empty (a b : String) : a ++ " " ++ b ≠ "" := by
  intro h
  have := congrArg String.length h
  simp only [String.length_append] at this
  have h1 : (" " : String).length = 1 := rfl
  have h2 : ("" : String).length = 0 := rfl
  omega

theorem get_pattern_by_id_isSome (self : PatternMachine) (a b : String) :
    (bt_machine_get_pattern_by_id self (some (a ++ " " ++ b))).isSome = true ↔
      ∃ p ∈ self.patterns, p.id = a ++ " " ++ b := by
  have hs : BT_IS_STRING (some (a ++ " " ++ b)) = true := by
    simp [BT_IS_STRING, pattern_id_not_empty]
  simp only [bt_machine_get_pattern_by_id, hs, Bool.not_true, Bool.false_eq_true, if_false,
    Option.getD_some, List.find?_isSome, decide_eq_true_eq]

theorem unique_pattern_name_loop_free (self : PatternMachine) (k : Nat) (hk : k < 100)
    (hfree : ∀ p ∈ self.patterns, p.id ≠ self.id ++ " " ++ format_02u k)
    (count i : Nat) (hi : i ≤ k) (hcount : k - i < count)
    (hleast : ∀ j, i ≤ j → j < k → ∃ p ∈ self.patterns, p.id = self.id ++ " " ++ format_02u j) :
    unique_pattern_name_loop self count i = some (k + 1) := by
  induction count generalizing i with
  | zero => omega
  | succ c ih =>
    simp only [unique_pattern_name_loop]
    have hmod : (i + 1) % 256 = i + 1 := Nat.mod_eq_of_lt (by omega)
    rw [hmod]
    by_cases hik : i = k
    · subst hik
      have hn : (bt_machine_get_pattern_by_id self
          (some (self.id ++ " " ++ format_02u i))).isSome = false := by
        rw [Bool.eq_false_iff]
        intro h
        obtain ⟨p, hp, he⟩ := (get_pattern_by_id_isSome self _ _).1 h
        exact hfree p hp he
      simp [hn]
    · have hy : (bt_machine_get_pattern_by_id self
          (some (self.id ++ " " ++ format_02u i))).isSome = true :=
        (get_pattern_by_id_isSome self _ _).2 (hleast i (Nat.le_refl _) (by omega))
      have hlt : i + 1 < 100 := by omega
      simp only [hy, hlt, decide_True, Bool.and_self, if_true]
      exact ih (i + 1) (by omega) (by omega) (fun j h1 h2 => hleast j (by omega) h2)

theorem unique_pattern_name_loop_full (self : PatternMachine)
    (count i : Nat) (hi : i < 100) (hcount : 99 - i < count)
    (hall : ∀ j, i ≤ j → j < 100 →
      ∃ p ∈ self.patterns, p.id = self.id ++ " " ++ format_02u j) :
    unique_pattern_name_loop self count i = some 100 := by
  induction count generalizing i with
  | zero => omega
  | succ c ih =>
    simp only [unique_pattern_name_loop]
    have hmod : (i + 1) % 256 = i + 1 := Nat.mod_eq_of_lt (by omega)
    rw [hmod]
    have hy : (bt_machine_get_pattern_by_id self
        (some (self.id ++ " " ++ format_02u i))).isSome = true :=
      (get_pattern_by_id_isSome self _ _).2 (hall i (Nat.le_refl _) hi)
    by_cases hlt : i + 1 < 100
    · simp only [hy, hlt, decide_True, Bool.and_self, if_true]
      exact ih (i + 1) hlt (by omega) (fun j h1 h2 => hall j (by omega) h2)
    · have : i + 1 = 100 := by omega
      simp [hy, hlt, this]

/-- Claim C25, as amended: when k is the smallest number below 100 for
which no pattern of the machine has the id made of the machine id, a blank and
the two digits of k, `bt_machine_get_unique_pattern_name` returns the two
digits of k. -/
theorem unique_pattern_name_least_free (self : PatternMachine) (k : Nat) (hk : k < 100)
    (hfree : ∀ p ∈ self.patterns, p.id ≠ self.id ++ " " ++ format_02u k)
    (hleast : ∀ j, j < k → ∃ p ∈ self.patterns, p.id = self.id ++ " " ++ format_02u j) :
    bt_machine_get_unique_pattern_name self = some (format_02u k) := by
  have h := unique_pattern_name_loop_free self k hk hfree 100 0 (Nat.zero_le _) (by omega)
    (fun j _ hj => hleast j hj)
  have hmod : (k + 1 + 255) % 256 = k := by omega
  simp [bt_machine_get_unique_pattern_name, h, hmod]

theorem unique_pattern_name_least_free_witness :
    bt_machine_get_unique_pattern_name
      (bt_machine_add_pattern no_patterns { ptr := 1, id := "M 00", is_internal := false })
      = some "01" :=
  unique_pattern_name_least_free
    (bt_machine_add_pattern no_patterns { ptr := 1, id := "M 00", is_internal := false })
    1 (by decide) (by decide)
    (fun j hj => ⟨{ ptr := 1, id := "M 00", is_internal := false }, by decide, by
      have : j = 0 := by omega
      subst this
      decide⟩)

/-- Claim C25 as stated fails when the machine `M` has the hundred patterns
`M 00` to `M 99`: the function returns `99` although the pattern `M 99`
exists. -/
theorem unique_pattern_name_taken_when_full :
    bt_machine_get_unique_pattern_name hundred_patterns = some "99" ∧
    ∃ p ∈ hundred_patterns.patterns, p.id = hundred_patterns.id ++ " " ++ "99" := by
  have hall : ∀ j, 0 ≤ j → j < 100 → ∃ p ∈ hundred_patterns.patterns,
      p.id = hundred_patterns.id ++ " " ++ format_02u j := by
    intro j _ hj
    refine ⟨{ ptr := j, id := "M " ++ format_02u j, is_internal := false }, ?_, ?_⟩
    · simp only [hundred_patterns, List.mem_map, List.mem_range]
      exact ⟨j, hj, rfl⟩
    · rfl
  have h := unique_pattern_name_loop_full hundred_patterns 100 0 (by decide) (by decide) hall
  constructor
  · simp only [bt_machine_get_unique_pattern_name, h, Option.map_some']
    decide
  · exact hall 99 (Nat.zero_le _) (by decide)

theorem foldl_preserve {σ ι : Type} (f : σ → ι → σ) (Inv P : σ → Prop) (l : List ι)
    (hInv : ∀ s j, Inv s → Inv (f s j))
    (hP : ∀ s j, j ∈ l → Inv s → P s → P (f s j)) :
    ∀ s, Inv s → P s → P (l.foldl f s) ∧ Inv (l.foldl f s) := by
  induction l with
  | nil => intro s h1 h2; exact ⟨h2, h1⟩
  | cons a rest ih =>
    intro s h1 h2
    simp only [List.foldl_cons]
    exact ih (fun s j hj => hP s j (List.mem_cons_of_mem _ hj)) (f s a) (hInv s a h1)
      (hP s a (List.mem_cons_self _ _) h1 h2)

theorem foldl_reach {σ ι : Type} (f : σ → ι → σ) (Inv P Q : σ → Prop) (i0 : ι) (l : List ι)
    (hnd : l.Nodup) (hmem : i0 ∈ l)
    (hInv : ∀ s j, Inv s → Inv (f s j))
    (hP : ∀ s j, j ≠ i0 → Inv s → P s → P (f s j))
    (hQ : ∀ s j, j ≠ i0 → Inv s → Q s → Q (f s j))
    (hPQ : ∀ s, Inv s → P s → Q (f s i0)) :
    ∀ s, Inv s → P s → Q (l.foldl f s) ∧ Inv (l.foldl f s) := by
  induction l with
  | nil => exact absurd hmem (List.not_mem_nil _)
  | cons a rest ih =>
    intro s h1 h2
    simp only [List.foldl_cons]
    have hnd2 := List.nodup_cons.1 hnd
    by_cases ha : a = i0
    · subst ha
      exact foldl_preserve f Inv Q rest hInv
        (fun s j hj => hQ s j (fun e => hnd2.1 (e ▸ hj))) (f s a) (hInv s a h1) (hPQ s h1 h2)
    · have hmem2 : i0 ∈ rest := by
        rcases List.mem_cons.1 hmem with h | h
        · exact absurd h.symm ha
        · exact h
      exact ih hnd2.2 hmem2 (f s a) (hInv s a h1) (hP s a ha h1 h2)

theorem global_default_call_eq (env : GstEnv) (s : ParamMachine) (j : Nat)
    (hj : j < s.global_params) :
    bt_machine_global_controller_change_value env s j 0 none =
      if controller_need_activate ((s.global_control_sources[j]?).join) = true then
        { s with global_default := Function.update s.global_default j true }
      else
        { s with
          global_default := Function.update s.global_default j true
          global_control_sources := s.global_control_sources.set j
            (((s.global_control_sources[j]?).join).map
              (fun c => gst_interpolation_control_source_set c 0
                (if s.global_state j then some (s.global_value j) else s.global_no_val j))) } := by
  unfold bt_machine_global_controller_change_value
  simp only [hj, not_true_eq_false, if_false, if_true, Option.isSome_none, Option.isNone_none,
    decide_True, Bool.and_true, Bool.or_true, bt_machine_is_global_param_trigger]
  cases hadd : controller_need_activate ((s.global_control_sources[j]?).join) <;>
    cases hs : s.global_state j <;> simp [hadd, hs]

theorem voice_default_call_eq (env : GstEnv) (s : ParamMachine) (v j : Nat)
    (hj : j < s.voice_params) (hv : v < s.voices) (hpoly : s.child_bin = true) :
    bt_machine_voice_controller_change_value env s v j 0 none =
      if controller_need_activate ((s.voice_control_sources[v * s.voice_params + j]?).join)
          = true then
        { s with
          voice_default := Function.update s.voice_default v
            (Function.update (s.voice_default v) j true) }
      else
        { s with
          voice_default := Function.update s.voice_default v
            (Function.update (s.voice_default v) j true)
          voice_control_sources := s.voice_control_sources.set (v * s.voice_params + j)
            (((s.voice_control_sources[v * s.voice_params + j]?).join).map
              (fun c => gst_interpolation_control_source_set c 0
                (if s.voice_state j then some (s.voice_value v j) else s.voice_no_val j))) } := by
  unfold bt_machine_voice_controller_change_value
  simp only [hj, hv, hpoly, not_true_eq_false, if_false, if_true, Option.isSome_none,
    Option.isNone_none, decide_True, Bool.and_true, Bool.or_true, Bool.not_true,
    Bool.false_eq_true, bt_machine_is_voice_param_trigger]
  cases hadd : controller_need_activate
      ((s.voice_control_sources[v * s.voice_params + j]?).join) <;>
    cases hs : s.voice_state j <;> simp [hadd, hs]

theorem need_activate_nonempty (c : ControlSource) (hne : c ≠ []) :
    controller_need_activate (some c) = false := by
  cases c with
  | nil => exact absurd rfl hne
  | cons a b =>
    have : ((b.length : Int) + 1) ≠ 0 := by omega
    simp [controller_need_activate, gst_interpolation_control_source_get_count, this]

theorem same_params_refl (s : ParamMachine) : SameParams s s :=
  ⟨rfl, rfl, rfl, rfl, rfl, rfl, rfl, rfl, rfl, rfl, fun _ => rfl, fun _ _ => rfl⟩

theorem global_default_step (env : GstEnv) (s0 s : ParamMachine) (j : Nat)
    (h : SameParams s0 s) :
    SameParams s0 (bt_machine_set_global_param_default env s j) ∧
    (bt_machine_set_global_param_default env s j).voice_control_sources
      = s.voice_control_sources ∧
    (∀ (n : Nat), n ≠ j →
      (bt_machine_set_global_param_default env s j).global_control_sources[n]?
        = s.global_control_sources[n]?) ∧
    (∀ c, j < s.global_params → s.global_default j = true →
      s.global_control_sources[j]? = some (some c) → c ≠ [] →
      (bt_machine_set_global_param_default env s j).global_control_sources[j]?
        = some (some (gst_interpolation_control_source_set c 0
            (if s.global_state j then some (s.global_value j) else s.global_no_val j)))) := by
  obtain ⟨a1, a2, a3, a4, a5, a6, a7, a8, a9, a10, a11, a12⟩ := h
  have hsame : SameParams s0 s := ⟨a1, a2, a3, a4, a5, a6, a7, a8, a9, a10, a11, a12⟩
  by_cases hj : j < s.global_params
  swap
  · have e : bt_machine_set_global_param_default env s j = s := by
      simp [bt_machine_set_global_param_default, hj]
    rw [e]
    exact ⟨hsame, rfl, fun _ _ => rfl, fun c h => absurd h hj⟩
  cases hf : s.global_default j
  · have e : bt_machine_set_global_param_default env s j = s := by
      simp [bt_machine_set_global_param_default, bt_machine_has_global_param_default_set, hf]
    rw [e]
    exact ⟨hsame, rfl, fun _ _ => rfl, fun c _ h => by cases h⟩
  · have e : bt_machine_set_global_param_default env s j
        = bt_machine_global_controller_change_value env s j 0 none := by
      simp [bt_machine_set_global_param_default, bt_machine_has_global_param_default_set, hf,
        hj]
    rw [e, global_default_call_eq env s j hj]
    have hupd : ∀ i, Function.update s.global_default j true i = s0.global_default i := by
      intro i
      by_cases hi : i = j
      · subst hi; rw [Function.update_same, ← a11 i, hf]
      · rw [Function.update_noteq hi]; exact a11 i
    by_cases hadd : controller_need_activate ((s.global_control_sources[j]?).join) = true
    · rw [if_pos hadd]
      refine ⟨⟨a1, a2, a3, a4, a5, a6, a7, a8, a9, a10, hupd, a12⟩, rfl, fun _ _ => rfl, ?_⟩
      intro c _ _ hc hne
      rw [hc] at hadd
      have h2 : controller_need_activate (some c) = true := hadd
      rw [need_activate_nonempty c hne] at h2
      cases h2
    · rw [if_neg hadd]
      refine ⟨⟨a1, a2, a3, a4, a5, a6, a7, a8, a9, a10, hupd, a12⟩, rfl, ?_, ?_⟩
      · intro n hn
        show (s.global_control_sources.set j _)[n]? = _
        rw [List.getElem?_set_ne (Ne.symm hn)]
      · intro c _ _ hc hne
        have hlen : j < s.global_control_sources.length := by
          rcases Nat.lt_or_ge j s.global_control_sources.length with h | h
          · exact h
          · rw [List.getElem?_eq_none h] at hc; cases hc
        show (s.global_control_sources.set j _)[j]? = _
        rw [List.getElem?_set_self hlen, hc]
        rfl

theorem voice_index_ne (vp v j v2 j2 : Nat) (hj : j < vp) (hj2 : j2 < vp)
    (hne : ¬ (v = v2 ∧ j = j2)) : v * vp + j ≠ v2 * vp + j2 := by
  intro h
  have h1 : (v * vp + j) / vp = v := by
    rw [Nat.mul_comm, Nat.mul_add_div (by omega), Nat.div_eq_of_lt hj, Nat.add_zero]
  have h2 : (v2 * vp + j2) / vp = v2 := by
    rw [Nat.mul_comm, Nat.mul_add_div (by omega), Nat.div_eq_of_lt hj2, Nat.add_zero]
  have hv : v = v2 := by rw [← h1, ← h2, h]
  subst hv
  exact hne ⟨rfl, by omega⟩

theorem voice_default_step (env : GstEnv) (s0 s : ParamMachine) (v j : Nat)
    (h : SameParams s0 s) :
    SameParams s0 (bt_machine_set_voice_param_default env s v j) ∧
    (bt_machine_set_voice_param_default env s v j).global_control_sources
      = s.global_control_sources ∧
    (∀ (n : Nat), n ≠ v * s.voice_params + j →
      (bt_machine_set_voice_param_default env s v j).voice_control_sources[n]?
        = s.voice_control_sources[n]?) ∧
    (¬ j < s.voice_params →
      (bt_machine_set_voice_param_default env s v j).voice_control_sources
        = s.voice_control_sources) ∧
    (∀ c, j < s.voice_params → v < s.voices → s.child_bin = true →
      s.voice_default v j = true →
      s.voice_control_sources[v * s.voice_params + j]? = some (some c) → c ≠ [] →
      (bt_machine_set_voice_param_default env s v j).voice_control_sources[
          v * s.voice_params + j]?
        = some (some (gst_interpolation_control_source_set c 0
            (if s.voice_state j then some (s.voice_value v j) else s.voice_no_val j)))) := by
  obtain ⟨a1, a2, a3, a4, a5, a6, a7, a8, a9, a10, a11, a12⟩ := h
  have hsame : SameParams s0 s := ⟨a1, a2, a3, a4, a5, a6, a7, a8, a9, a10, a11, a12⟩
  by_cases hj : j < s.voice_params
  swap
  · have e : bt_machine_set_voice_param_default env s v j = s := by
      simp [bt_machine_set_voice_param_default, hj]
    rw [e]
    exact ⟨hsame, rfl, fun _ _ => rfl, fun _ => rfl, fun c h => absurd h hj⟩
  cases hf : s.voice_default v j
  · have e : bt_machine_set_voice_param_default env s v j = s := by
      simp [bt_machine_set_voice_param_default, bt_machine_has_voice_param_default_set, hf]
    rw [e]
    exact ⟨hsame, rfl, fun _ _ => rfl, fun _ => rfl, fun c _ _ _ h => by cases h⟩
  have e : bt_machine_set_voice_param_default env s v j
      = bt_machine_voice_controller_change_value env s v j 0 none := by
    simp [bt_machine_set_voice_param_default, bt_machine_has_voice_param_default_set, hf, hj]
  rw [e]
  by_cases hv : v < s.voices
  swap
  · have : bt_machine_voice_controller_change_value env s v j 0 none = s := by
      simp [bt_machine_voice_controller_change_value, hv]
    rw [this]
    exact ⟨hsame, rfl, fun _ _ => rfl, fun _ => rfl, fun c _ h => absurd h hv⟩
  cases hpoly : s.child_bin
  · have : bt_machine_voice_controller_change_value env s v j 0 none = s := by
      simp [bt_machine_voice_controller_change_value, hpoly]
    rw [this]
    exact ⟨hsame, rfl, fun _ _ => rfl, fun _ => rfl, fun c _ _ h => by cases h⟩
  rw [voice_default_call_eq env s v j hj hv hpoly]
  have hupd : ∀ w i, Function.update s.voice_default v
      (Function.update (s.voice_default v) j true) w i = s0.voice_default w i := by
    intro w i
    by_cases hw : w = v
    · subst hw
      rw [Function.update_same]
      by_cases hi : i = j
      · subst hi; rw [Function.update_same, ← a12 w i, hf]
      · rw [Function.update_noteq hi]; exact a12 w i
    · rw [Function.update_noteq hw]; exact a12 w i
  by_cases hadd : controller_need_activate
      ((s.voice_control_sources[v * s.voice_params + j]?).join) = true
  · rw [if_pos hadd]
    refine ⟨⟨a1, a2, a3, a4, a5, a6, a7, a8, a9, a10, a11, hupd⟩, rfl,
      fun _ _ => rfl, fun h => absurd hj h, ?_⟩
    intro c _ _ _ _ hc hne
    rw [hc] at hadd
    have h2 : controller_need_activate (some c) = true := hadd
    rw [need_activate_nonempty c hne] at h2
    cases h2
  · rw [if_neg hadd]
    refine ⟨⟨a1, a2, a3, a4, a5, a6, a7, a8, a9, a10, a11, hupd⟩, rfl, ?_,
      fun h => absurd hj h, ?_⟩
    · intro n hn
      show (s.voice_control_sources.set (v * s.voice_params + j) _)[n]? = _
      rw [List.getElem?_set_ne (Ne.symm hn)]
    · intro c _ _ _ _ hc hne
      have hlen : v * s.voice_params + j < s.voice_control_sources.length := by
        rcases Nat.lt_or_ge (v * s.voice_params + j) s.voice_control_sources.length with h | h
        · exact h
        · rw [List.getElem?_eq_none h] at hc; cases hc
      show (s.voice_control_sources.set (v * s.voice_params + j) _)[v * s.voice_params + j]?
        = _
      rw [List.getElem?_set_self hlen, hc]
      rfl

theorem point_at_zero_after_set (c : ControlSource) (d v : GValue) :
    ((0 : Nat), v) ∈ gst_interpolation_control_source_set c 0 (some d) ↔ v = d := by
  simp only [gst_interpolation_control_source_set, if_neg zero_valid, mem_cs_insert,
    List.mem_filter]
  constructor
  · rintro (h | ⟨_, h⟩)
    · exact (Prod.mk.inj h).2
    · simp at h
  · intro h
    exact Or.inl (by rw [h])

theorem voice_defaults_inner (env : GstEnv) (s0 : ParamMachine) (v : Nat)
    (P : ParamMachine → Prop)
    (hP : ∀ s i, i < s0.voice_params → SameParams s0 s → P s →
      P (bt_machine_set_voice_param_default env s v i)) :
    ∀ s, SameParams s0 s → P s →
      P ((List.range s.voice_params).foldl
        (fun s i => bt_machine_set_voice_param_default env s v i) s) ∧
      SameParams s0 ((List.range s.voice_params).foldl
        (fun s i => bt_machine_set_voice_param_default env s v i) s) := by
  intro s hs hp
  have hvp : s.voice_params = s0.voice_params := hs.2.2.2.1
  rw [hvp]
  exact foldl_preserve (fun s i => bt_machine_set_voice_param_default env s v i)
    (SameParams s0) P (List.range s0.voice_params)
    (fun s j h => (voice_default_step env s0 s v j h).1)
    (fun s j hj h1 h2 => hP s j (List.mem_range.1 hj) h1 h2) s hs hp

theorem voice_defaults_outer (env : GstEnv) (s0 : ParamMachine) (voice_controller : Nat → Bool)
    (P : ParamMachine → Prop)
    (hP : ∀ s v i, i < s0.voice_params → SameParams s0 s → P s →
      P (bt_machine_set_voice_param_default env s v i)) (l : List Nat) :
    ∀ s, SameParams s0 s → P s →
      P (l.foldl
        (fun s j =>
          if voice_controller j then
            (List.range s.voice_params).foldl
              (fun s i => bt_machine_set_voice_param_default env s j i) s
          else s) s) ∧
      SameParams s0 (l.foldl
        (fun s j =>
          if voice_controller j then
            (List.range s.voice_params).foldl
              (fun s i => bt_machine_set_voice_param_default env s j i) s
          else s) s) := by
  have key : ∀ s j, SameParams s0 s → P s →
      P (if voice_controller j then
          (List.range s.voice_params).foldl
            (fun s i => bt_machine_set_voice_param_default env s j i) s
        else s) ∧
      SameParams s0 (if voice_controller j then
          (List.range s.voice_params).foldl
            (fun s i => bt_machine_set_voice_param_default env s j i) s
        else s) := by
    intro s j hs hp
    cases voice_controller j
    · exact ⟨hp, hs⟩
    · exact voice_defaults_inner env s0 j P (fun s i => hP s j i) s hs hp
  intro s hs hp
  have := foldl_preserve
    (fun s j =>
      if voice_controller j then
        (List.range s.voice_params).foldl
          (fun s i => bt_machine_set_voice_param_default env s j i) s
      else s)
    (fun s => SameParams s0 s ∧ P s) (fun _ => True) l
    (fun s j h => ⟨(key s j h.1 h.2).2, (key s j h.1 h.2).1⟩)
    (fun _ _ _ _ _ => trivial) s ⟨hs, hp⟩ trivial
  exact ⟨this.2.2, this.2.1⟩

theorem voice_entry_step (env : GstEnv) (s0 s : ParamMachine) (v i v0 i0 : Nat)
    (hi0 : i0 < s0.voice_params) (hne : ¬ (v = v0 ∧ i = i0)) (hs : SameParams s0 s)
    (X : Option (Option ControlSource))
    (h : s.voice_control_sources[v0 * s0.voice_params + i0]? = X) :
    (bt_machine_set_voice_param_default env s v i).voice_control_sources[
      v0 * s0.voice_params + i0]? = X := by
  have hvp : s.voice_params = s0.voice_params := hs.2.2.2.1
  obtain ⟨_, _, h3, h4, _⟩ := voice_default_step env s0 s v i hs
  by_cases hi : i < s.voice_params
  · rw [h3 _ (by
      rw [hvp]
      exact Ne.symm (voice_index_ne s0.voice_params v i v0 i0 (hvp ▸ hi) hi0 hne))]
    exact h
  · rw [h4 hi]; exact h

/-- Claim C24, as amended: after `bt_machine_set_param_defaults` every global
parameter of a unit with a controller, and every voice parameter of a voice
child with a controller, that has a control source with control points and
whose default-is-synthetic flag is set carries at timestamp 0 the live value of
the property (State) or the no-value (Trigger), and no other value. -/
theorem set_param_defaults_refreshes_live_value (env : GstEnv) (self : ParamMachine)
    (unit_controller : Bool) (voice_controller : Nat → Bool) :
    (∀ (i : Nat) (c : ControlSource), unit_controller = true → i < self.global_params →
      self.global_default i = true →
      self.global_control_sources[i]? = some (some c) → c ≠ [] →
      (bt_machine_set_param_defaults env unit_controller voice_controller
        self).global_control_sources[i]?
        = some (some (gst_interpolation_control_source_set c 0
            (if self.global_state i then some (self.global_value i)
              else self.global_no_val i)))) ∧
    (∀ (v i : Nat) (c : ControlSource), voice_controller v = true →
      self.child_bin = true → v < self.voices → i < self.voice_params →
      self.voice_default v i = true →
      self.voice_control_sources[v * self.voice_params + i]? = some (some c) → c ≠ [] →
      (bt_machine_set_param_defaults env unit_controller voice_controller
        self).voice_control_sources[v * self.voice_params + i]?
        = some (some (gst_interpolation_control_source_set c 0
            (if self.voice_state i then some (self.voice_value v i)
              else self.voice_no_val i)))) ∧
    (∀ (c : ControlSource) (d w : GValue),
      ((0 : Nat), w) ∈ gst_interpolation_control_source_set c 0 (some d) ↔ w = d) := by
  refine ⟨?_, ?_, point_at_zero_after_set⟩
  · intro i c huc hi hf hc hne
    unfold bt_machine_set_param_defaults
    simp only [huc, if_true]
    have hg := foldl_reach (fun s i => bt_machine_set_global_param_default env s i)
      (SameParams self)
      (fun s => s.global_control_sources[i]? = some (some c))
      (fun s => s.global_control_sources[i]?
        = some (some (gst_interpolation_control_source_set c 0
            (if self.global_state i then some (self.global_value i)
              else self.global_no_val i))))
      i (List.range self.global_params) (List.nodup_range _) (List.mem_range.2 hi)
      (fun s j h => (global_default_step env self s j h).1)
      (fun s j hj h hp => by
        show (bt_machine_set_global_param_default env s j).global_control_sources[i]? = _
        rw [(global_default_step env self s j h).2.2.1 i (Ne.symm hj)]; exact hp)
      (fun s j hj h hp => by
        show (bt_machine_set_global_param_default env s j).global_control_sources[i]? = _
        rw [(global_default_step env self s j h).2.2.1 i (Ne.symm hj)]; exact hp)
      (fun s h hp => by
        obtain ⟨a1, a2, a3, a4, a5, a6, a7, a8, a9, a10, a11, a12⟩ := h
        have := (global_default_step env self s i
          ⟨a1, a2, a3, a4, a5, a6, a7, a8, a9, a10, a11, a12⟩).2.2.2 c
          (by rw [a3]; exact hi) (by rw [a11]; exact hf) hp hne
        rw [a5, a9, a7] at this
        exact this)
      self (same_params_refl self) hc
    exact (voice_defaults_outer env self voice_controller
      (fun s => s.global_control_sources[i]?
        = some (some (gst_interpolation_control_source_set c 0
            (if self.global_state i then some (self.global_value i)
              else self.global_no_val i))))
      (fun s v j _ h hp => by
        show (bt_machine_set_voice_param_default env s v j).global_control_sources[i]? = _
        rw [(voice_default_step env self s v j h).2.1]; exact hp)
      _ _ hg.2 hg.1).1
  · intro v i c hvc hpoly hv hi hf hc hne
    unfold bt_machine_set_param_defaults
    -- the loop over the global parameters leaves the voice entries alone
    have hg : ∀ l : List Nat,
        (l.foldl (fun s i => bt_machine_set_global_param_default env s i)
          self).voice_control_sources[v * self.voice_params + i]? = some (some c) ∧
        SameParams self (l.foldl (fun s i => bt_machine_set_global_param_default env s i)
          self) := fun l =>
      foldl_preserve (fun s i => bt_machine_set_global_param_default env s i)
        (SameParams self)
        (fun s => s.voice_control_sources[v * self.voice_params + i]? = some (some c)) l
        (fun s j h => (global_default_step env self s j h).1)
        (fun s j _ h hp => by
          show (bt_machine_set_global_param_default env s j).voice_control_sources[_]? = _
          rw [(global_default_step env self s j h).2.1]; exact hp)
        self (same_params_refl self) hc
    have hstart : ∀ s1 : ParamMachine,
        s1.voice_control_sources[v * self.voice_params + i]? = some (some c) →
        SameParams self s1 →
        ((List.range s1.voices).foldl
          (fun s j =>
            if voice_controller j then
              (List.range s.voice_params).foldl
                (fun s i => bt_machine_set_voice_param_default env s j i) s
            else s) s1).voice_control_sources[v * self.voice_params + i]?
          = some (some (gst_interpolation_control_source_set c 0
              (if self.voice_state i then some (self.voice_value v i)
                else self.voice_no_val i))) := by
      intro s1 hc1 hs1
      have hvo : s1.voices = self.voices := hs1.2.1
      rw [hvo]
      refine (foldl_reach
        (fun s j =>
          if voice_controller j then
            (List.range s.voice_params).foldl
              (fun s i => bt_machine_set_voice_param_default env s j i) s
          else s)
        (SameParams self)
        (fun s => s.voice_control_sources[v * self.voice_params + i]? = some (some c))
        (fun s => s.voice_control_sources[v * self.voice_params + i]?
          = some (some (gst_interpolation_control_source_set c 0
              (if self.voice_state i then some (self.voice_value v i)
                else self.voice_no_val i))))
        v (List.range self.voices) (List.nodup_range _) (List.mem_range.2 hv)
        ?_ ?_ ?_ ?_ s1 hs1 hc1).1
      · intro s j h
        dsimp only
        cases hvj : voice_controller j
        · simp only [Bool.false_eq_true, if_false]; exact h
        · simp only [if_true]
          exact (voice_defaults_inner env self j (fun _ => True)
            (fun _ _ _ _ _ => trivial) s h trivial).2
      · intro s j hj h hp
        dsimp only
        cases hvj : voice_controller j
        · simp only [Bool.false_eq_true, if_false]; exact hp
        · simp only [if_true]
          exact (voice_defaults_inner env self j
            (fun s => s.voice_control_sources[v * self.voice_params + i]? = some (some c))
            (fun s k _ hs hq => voice_entry_step env self s j k v i hi
              (fun e => hj e.1) hs _ hq) s h hp).1
      · intro s j hj h hp
        dsimp only
        cases hvj : voice_controller j
        · simp only [Bool.false_eq_true, if_false]; exact hp
        · simp only [if_true]
          exact (voice_defaults_inner env self j
            (fun s => s.voice_control_sources[v * self.voice_params + i]?
              = some (some (gst_interpolation_control_source_set c 0
                  (if self.voice_state i then some (self.voice_value v i)
                    else self.voice_no_val i))))
            (fun s k _ hs hq => voice_entry_step env self s j k v i hi
              (fun e => hj e.1) hs _ hq) s h hp).1
      · intro s h hp
        dsimp only
        simp only [hvc, if_true]
        have hvp : s.voice_params = self.voice_params := h.2.2.2.1
        rw [hvp]
        exact (foldl_reach (fun s k => bt_machine_set_voice_param_default env s v k)
          (SameParams self)
          (fun s => s.voice_control_sources[v * self.voice_params + i]? = some (some c))
          (fun s => s.voice_control_sources[v * self.voice_params + i]?
            = some (some (gst_interpolation_control_source_set c 0
                (if self.voice_state i then some (self.voice_value v i)
                  else self.voice_no_val i))))
          i (List.range self.voice_params) (List.nodup_range _) (List.mem_range.2 hi)
          (fun s k hs => (voice_default_step env self s v k hs).1)
          (fun s k hk hs hq => voice_entry_step env self s v k v i hi
            (fun e => hk e.2) hs _ hq)
          (fun s k hk hs hq => voice_entry_step env self s v k v i hi
            (fun e => hk e.2) hs _ hq)
          (fun s hs hq => by
            obtain ⟨a1, a2, a3, a4, a5, a6, a7, a8, a9, a10, a11, a12⟩ := hs
            have := (voice_default_step env self s v i
              ⟨a1, a2, a3, a4, a5, a6, a7, a8, a9, a10, a11, a12⟩).2.2.2.2 c
              (by rw [a4]; exact hi) (by rw [a2]; exact hv) (by rw [a1]; exact hpoly)
              (by rw [a12]; exact hf) (by rw [a4]; exact hq) hne
            rw [a6, a10, a8, a4] at this
            exact this)
          s h hp).1
    cases unit_controller
    · simp only [Bool.false_eq_true, if_false]
      exact hstart self hc (same_params_refl self)
    · simp only [if_true]
      exact hstart _ (hg _).1 (hg _).2

theorem write_mute_res (m : SongMachine) (v : Bool) :
    (m.write_mute v).1 = m.mute_flag.isSome := by
  unfold SongMachine.write_mute SongMachine.mute_flag
  by_cases hk : m.kind = BtMachineKind.sink
  · cases hg : m.input_gain <;> simp [hk, hg]
  · cases hg : m.output_gain <;> simp [hk, hg]

theorem write_mute_flag_isSome (m : SongMachine) (v : Bool) :
    ((m.write_mute v).2).mute_flag.isSome = m.mute_flag.isSome := by
  unfold SongMachine.write_mute SongMachine.mute_flag
  by_cases hk : m.kind = BtMachineKind.sink
  · cases hg : m.input_gain <;> simp [hk, hg]
  · cases hg : m.output_gain <;> simp [hk, hg]

theorem write_mute_tag (m : SongMachine) (v : Bool) : ((m.write_mute v).2).tag = m.tag := by
  unfold SongMachine.write_mute SongMachine.tag
  by_cases hk : m.kind = BtMachineKind.sink
  · cases hg : m.input_gain <;> simp [hk, hg]
  · cases hg : m.output_gain <;> simp [hk, hg]

theorem write_mute_state_comm (m : SongMachine) (v : Bool) (s : BtMachineState) :
    ({ m with state := s } : SongMachine).write_mute v
      = ((m.write_mute v).1, { (m.write_mute v).2 with state := s }) := by
  unfold SongMachine.write_mute
  by_cases hk : m.kind = BtMachineKind.sink
  · cases hg : m.input_gain <;> simp [hk, hg]
  · cases hg : m.output_gain <;> simp [hk, hg]

theorem set_mute_res (g : Setup) (i : Nat) : (bt_machine_set_mute g i).1 = can_mute g i := by
  unfold bt_machine_set_mute can_mute
  cases hg : g[i]? <;> simp [write_mute_res]

theorem unset_mute_res (g : Setup) (i : Nat) :
    (bt_machine_unset_mute g i).1 = can_mute g i := by
  unfold bt_machine_unset_mute can_mute
  cases hg : g[i]? <;> simp [write_mute_res]

theorem can_mute_congr (g1 g2 : Setup) (k : Nat)
    (h : (g1[k]?).map (fun m => m.mute_flag.isSome) = (g2[k]?).map (fun m => m.mute_flag.isSome)) :
    can_mute g1 k = can_mute g2 k := by
  unfold can_mute
  cases h1 : g1[k]? <;> cases h2 : g2[k]? <;> simp [h1, h2] at h ⊢
  exact h

theorem can_mute_set_state (g : Setup) (i k : Nat) (s : BtMachineState) :
    can_mute (set_state g i s) k = can_mute g k := by
  apply can_mute_congr
  rw [set_state_get]
  by_cases hk : k = i
  · subst hk
    cases hg : g[k]? <;> simp [hg, SongMachine.mute_flag]
  · simp [hk]

theorem can_mute_set_mute (g : Setup) (i k : Nat) :
    can_mute (bt_machine_set_mute g i).2 k = can_mute g k := by
  apply can_mute_congr
  rw [set_mute_get]
  by_cases hk : k = i
  · subst hk
    cases hg : g[k]? <;> simp [hg, SongMachine.muted, write_mute_flag_isSome]
  · simp [hk]

theorem can_mute_unset_mute (g : Setup) (i k : Nat) :
    can_mute (bt_machine_unset_mute g i).2 k = can_mute g k := by
  apply can_mute_congr
  rw [unset_mute_get]
  by_cases hk : k = i
  · subst hk
    cases hg : g[k]? <;> simp [hg, SongMachine.unmuted, write_mute_flag_isSome]
  · simp [hk]

theorem set_state_set_state (g : Setup) (i : Nat) (s t : BtMachineState) :
    set_state (set_state g i s) i t = set_state g i t := by
  apply List.ext_getElem?
  intro k
  simp only [set_state_get]
  by_cases hk : k = i
  · subst hk
    cases hg : g[k]? <;> simp [hg]
  · simp [hk]

theorem solo_enter_body_res (self machine : Nat) (hm : machine ≠ self) (st : Bool × Setup) :
    (solo_enter_body self machine st).1 =
      (st.1 &&
        (if (st.2[machine]?).map SongMachine.state = some BtMachineState.solo
          then can_mute st.2 self else true) &&
        can_mute st.2 machine) := by
  unfold solo_enter_body
  simp only [ne_eq, hm, not_false_eq_true, if_true, set_mute_res, unset_mute_res]
  by_cases hs : (st.2[machine]?).map SongMachine.state = some BtMachineState.solo
  · simp only [hs, if_true, can_mute_unset_mute, can_mute_set_state]
    cases st.1 <;> cases can_mute st.2 self <;> cases can_mute st.2 machine <;> rfl
  · simp only [hs, if_false]
    cases st.1 <;> cases can_mute st.2 machine <;> rfl

theorem unmuted_state_comm (o : Option SongMachine) (v : BtMachineState) :
    (o.map (fun m => ({ m with state := v } : SongMachine))).map SongMachine.unmuted
      = (o.map SongMachine.unmuted).map (fun m => ({ m with state := v } : SongMachine)) := by
  cases o with
  | none => rfl
  | some m => simp [SongMachine.unmuted, write_mute_state_comm]

theorem muted_state_comm (o : Option SongMachine) (v : BtMachineState) :
    (o.map (fun m => ({ m with state := v } : SongMachine))).map SongMachine.muted
      = (o.map SongMachine.muted).map (fun m => ({ m with state := v } : SongMachine)) := by
  cases o with
  | none => rfl
  | some m => simp [SongMachine.muted, write_mute_state_comm]

theorem solo_enter_body_comm (self machine : Nat) (res : Bool) (g : Setup)
    (v : BtMachineState) :
    solo_enter_body self machine (res, set_state g self v) =
      ((solo_enter_body self machine (res, g)).1,
        set_state (solo_enter_body self machine (res, g)).2 self v) := by
  by_cases hm : machine = self
  · subst hm
    simp [solo_enter_body]
  · have hcond : ((set_state g self v)[machine]?).map SongMachine.state
        = (g[machine]?).map SongMachine.state := by
      rw [set_state_get]; simp [hm]
    apply Prod.ext
    · simp only [solo_enter_body_res self machine hm, hcond, can_mute_set_state]
    · apply List.ext_getElem?
      intro k
      simp only [solo_enter_body_get self machine hm, hcond]
      simp only [set_state_get]
      simp only [solo_enter_body_get self machine hm]
      have hms : (if machine = self then
          (g[self]?).map (fun m => ({ m with state := v } : SongMachine))
          else g[machine]?) = g[machine]? := by simp [hm]
      by_cases hk : k = self
      · subst hk
        by_cases hs : (g[machine]?).map SongMachine.state = some BtMachineState.solo
        · simp only [hs, if_true, unmuted_state_comm]
        · simp only [hs, if_false, if_true]
      · by_cases hk2 : k = machine
        · subst hk2
          simp [hk, hm]
        · simp [hk, hk2]

theorem solo_enter_loop_comm (self : Nat) (ms : List Nat) (res : Bool) (g : Setup)
    (v : BtMachineState) :
    solo_enter_loop self ms (res, set_state g self v) =
      ((solo_enter_loop self ms (res, g)).1,
        set_state (solo_enter_loop self ms (res, g)).2 self v) := by
  induction ms generalizing res g with
  | nil => rfl
  | cons machine node ih =>
    simp only [solo_enter_loop]
    rw [solo_enter_body_comm, ih]

theorem solo_enter_body_lin (self machine : Nat) (res : Bool) (g : Setup) :
    solo_enter_body self machine (res, g) =
      (res && (solo_enter_body self machine (true, g)).1,
        (solo_enter_body self machine (true, g)).2) := by
  unfold solo_enter_body
  by_cases hm : machine = self
  · simp [hm]
  · simp only [ne_eq, hm, not_false_eq_true, if_true]
    by_cases hs : (g[machine]?).map SongMachine.state = some BtMachineState.solo
    · simp only [hs, if_true]
      cases res <;>
        cases (bt_machine_unset_mute (set_state g machine BtMachineState.normal) self).1 <;>
        cases (bt_machine_set_mute
          (bt_machine_unset_mute (set_state g machine BtMachineState.normal) self).2
          machine).1 <;> rfl
    · simp only [hs, if_false]
      cases res <;> cases (bt_machine_set_mute g machine).1 <;> rfl

theorem solo_enter_loop_lin (self : Nat) (ms : List Nat) (res : Bool) (g : Setup) :
    solo_enter_loop self ms (res, g) =
      (res && (solo_enter_loop self ms (true, g)).1,
        (solo_enter_loop self ms (true, g)).2) := by
  induction ms generalizing res g with
  | nil => simp [solo_enter_loop]
  | cons machine node ih =>
    simp only [solo_enter_loop]
    rw [solo_enter_body_lin self machine res g,
      ih (res && (solo_enter_body self machine (true, g)).1),
      ih (solo_enter_body self machine (true, g)).1, Bool.and_assoc]

theorem set_state_kind (g : Setup) (i : Nat) (v : BtMachineState) (k : Nat) :
    ((set_state g i v)[k]?).map SongMachine.kind = (g[k]?).map SongMachine.kind := by
  rw [set_state_get]
  by_cases hk : k = i
  · subst hk
    cases hg : g[k]? <;> simp [hg]
  · simp [hk]

theorem enter_state_comm (g : Setup) (self : Nat) (res : Bool) (v t : BtMachineState) :
    enter_state (set_state g self v) self res t =
      ((enter_state g self res t).1, set_state (enter_state g self res t).2 self v) := by
  cases t with
  | normal => rfl
  | mute =>
    simp only [enter_state, set_mute_res, can_mute_set_state]
    apply Prod.ext
    · rfl
    · apply List.ext_getElem?
      intro k
      simp only [set_mute_get, set_state_get]
      by_cases hk : k = self
      · simp only [hk, if_true, muted_state_comm]
      · simp only [hk, if_false]
  | bypass =>
    simp only [enter_state]
    apply Prod.ext
    · rfl
    · apply List.ext_getElem?
      intro k
      simp only [set_passthrough_get, set_state_get]
      by_cases hk : k = self
      · simp only [hk, if_true]
        cases hg : g[self]? with
        | none => rfl
        | some m => by_cases hb : m.base_transform = true <;> simp [hb]
      · simp only [hk, if_false]
  | solo =>
    simp only [enter_state]
    rw [source_machines_congr (set_state g self v) g (set_state_kind g self v),
      solo_enter_loop_comm]

theorem enter_state_lin (g : Setup) (self : Nat) (res : Bool) (t : BtMachineState) :
    enter_state g self res t =
      (res && (enter_state g self true t).1, (enter_state g self true t).2) := by
  cases t with
  | normal => simp [enter_state]
  | mute =>
    simp only [enter_state]
    cases res <;> cases (bt_machine_set_mute g self).1 <;> rfl
  | bypass => simp [enter_state]
  | solo =>
    simp only [enter_state]
    exact solo_enter_loop_lin _ _ _ _

theorem leave_state_self (g : Setup) (self : Nat) (m : SongMachine) (res : Bool)
    (hm : g[self]? = some m) :
    ∃ m1, (leave_state g self res m.state).2[self]? = some m1 ∧ m1.kind = m.kind := by
  by_cases hs : m.state = BtMachineState.solo
  · rw [hs]
    refine ⟨m, ?_, rfl⟩
    simp only [leave_state]
    rw [solo_leave_loop_get]
    simp [hm]
  · refine ⟨m.left, ?_, left_kind m⟩
    rw [leave_state_get g self m res hm hs]
    simp

theorem leave_state_normal (g : Setup) (self : Nat) (res : Bool) :
    leave_state g self res BtMachineState.normal = (res, g) := rfl

theorem change_state_unfold (g : Setup) (self : Nat) (m : SongMachine) (t : BtMachineState)
    (hm : g[self]? = some m)
    (hb : ¬ (t = BtMachineState.bypass ∧ m.kind ≠ BtMachineKind.processor))
    (hso : ¬ (t = BtMachineState.solo ∧ m.kind = BtMachineKind.sink))
    (hts : m.state ≠ t) :
    bt_machine_change_state g self t =
      ((enter_state (leave_state g self true m.state).2 self
          (leave_state g self true m.state).1 t).1,
        set_state (enter_state (leave_state g self true m.state).2 self
          (leave_state g self true m.state).1 t).2 self t) := by
  unfold bt_machine_change_state
  simp only [hm]
  rw [if_neg hb, if_neg hso, if_neg hts]

/-- Claim C27: for a machine in a state s other than Normal and an accepted
new state t other than s and Normal, `bt_machine_change_state` to t gives the
same setup (states, mute flags, passthrough flags of all machines) and the same
result as the change to Normal followed by the change to t, with the two
results and-ed. -/
theorem change_state_via_normal (g : Setup) (self : Nat) (m : SongMachine)
    (t : BtMachineState) (hm : g[self]? = some m)
    (hb : ¬ (t = BtMachineState.bypass ∧ m.kind ≠ BtMachineKind.processor))
    (hso : ¬ (t = BtMachineState.solo ∧ m.kind = BtMachineKind.sink))
    (hts : t ≠ m.state) (htn : t ≠ BtMachineState.normal)
    (hsn : m.state ≠ BtMachineState.normal) :
    bt_machine_change_state g self t =
      ((bt_machine_change_state g self BtMachineState.normal).1 &&
          (bt_machine_change_state
            (bt_machine_change_state g self BtMachineState.normal).2 self t).1,
        (bt_machine_change_state
          (bt_machine_change_state g self BtMachineState.normal).2 self t).2) := by
  obtain ⟨m1, hm1, hk1⟩ := leave_state_self g self m true hm
  have e0 := change_state_unfold g self m t hm hb hso (Ne.symm hts)
  have e1 := change_state_unfold g self m BtMachineState.normal hm
    (fun h => by cases h.1) (fun h => by cases h.1) hsn
  simp only [enter_state] at e1
  have hA : (set_state (leave_state g self true m.state).2 self BtMachineState.normal)[self]?
      = some { m1 with state := BtMachineState.normal } := by
    rw [set_state_get]; simp [hm1]
  have e2 := change_state_unfold
    (set_state (leave_state g self true m.state).2 self BtMachineState.normal) self
    { m1 with state := BtMachineState.normal } t hA
    (fun h => hb ⟨h.1, by rw [← hk1]; exact h.2⟩)
    (fun h => hso ⟨h.1, by rw [← hk1]; exact h.2⟩) (Ne.symm htn)
  simp only [leave_state_normal] at e2
  rw [e1]
  simp only
  rw [e2, e0, enter_state_comm, set_state_set_state,
    enter_state_lin _ _ (leave_state g self true m.state).1]

theorem muted_tag (m : SongMachine) : m.muted.tag = m.tag := write_mute_tag m true

theorem unmuted_tag (m : SongMachine) : m.unmuted.tag = m.tag := write_mute_tag m false

theorem set_mute_tag (g : Setup) (i k : Nat) :
    ((bt_machine_set_mute g i).2[k]?).map SongMachine.tag = (g[k]?).map SongMachine.tag := by
  rw [set_mute_get]
  by_cases hk : k = i
  · subst hk
    cases hg : g[k]? <;> simp [hg, muted_tag]
  · simp [hk]

theorem unset_mute_tag (g : Setup) (i k : Nat) :
    ((bt_machine_unset_mute g i).2[k]?).map SongMachine.tag = (g[k]?).map SongMachine.tag := by
  rw [unset_mute_get]
  by_cases hk : k = i
  · subst hk
    cases hg : g[k]? <;> simp [hg, unmuted_tag]
  · simp [hk]

theorem set_passthrough_tag (g : Setup) (i k : Nat) (v : Bool) :
    ((set_passthrough g i v)[k]?).map SongMachine.tag = (g[k]?).map SongMachine.tag := by
  rw [set_passthrough_get]
  by_cases hk : k = i
  · subst hk
    cases hg : g[k]? with
    | none => simp
    | some m => by_cases hb : m.base_transform = true <;> simp [hb, SongMachine.tag]
  · simp [hk]

theorem solo_leave_loop_tag (self : Nat) (ms : List Nat) (st : Bool × Setup) (k : Nat) :
    ((solo_leave_loop self ms st).2[k]?).map SongMachine.tag
      = (st.2[k]?).map SongMachine.tag := by
  rw [solo_leave_loop_get]
  split
  · cases hg : st.2[k]? <;> simp [unmuted_tag]
  · rfl

theorem leave_state_tag (g : Setup) (self : Nat) (res : Bool) (s : BtMachineState) (k : Nat) :
    ((leave_state g self res s).2[k]?).map SongMachine.tag = (g[k]?).map SongMachine.tag := by
  cases s with
  | normal => rfl
  | mute => simp only [leave_state, unset_mute_tag]
  | solo => simp only [leave_state, solo_leave_loop_tag]
  | bypass => simp only [leave_state, set_passthrough_tag]

theorem solo_enter_loop_tag (self : Nat) (ms : List Nat) (hnd : ms.Nodup)
    (st : Bool × Setup) (k : Nat) :
    ((solo_enter_loop self ms st).2[k]?).map SongMachine.tag =
      if k ≠ self ∧ k ∈ ms then (st.2[k]?).map (fun m => m.unsolo.tag)
      else (st.2[k]?).map SongMachine.tag := by
  rw [solo_enter_loop_get self ms hnd]
  by_cases hk : k = self
  · subst hk
    simp only [if_true, ne_eq, not_true_eq_false, false_and, if_false]
    split
    · cases hg : st.2[k]? <;> simp [unmuted_tag]
    · rfl
  · by_cases hkm : k ∈ ms
    · simp only [hk, hkm, if_false, if_true, ne_eq, not_false_eq_true, and_self]
      cases hg : st.2[k]? <;> simp [muted_tag]
    · simp [hk, hkm]

theorem enter_state_tag (g : Setup) (self : Nat) (res : Bool) (t : BtMachineState) (k : Nat) :
    ((enter_state g self res t).2[k]?).map SongMachine.tag =
      if k ≠ self ∧ t = BtMachineState.solo ∧
          (g[k]?).map SongMachine.kind = some BtMachineKind.source
        then (g[k]?).map (fun m => m.unsolo.tag)
      else (g[k]?).map SongMachine.tag := by
  cases t with
  | normal => simp [enter_state]
  | mute => simp [enter_state, set_mute_tag]
  | bypass => simp [enter_state, set_passthrough_tag]
  | solo =>
    simp only [enter_state]
    rw [solo_enter_loop_tag self _ (source_machines_nodup g)]
    simp only [mem_source_machines, true_and]

theorem tag_kind (o1 o2 : Option SongMachine)
    (h : o1.map SongMachine.tag = o2.map SongMachine.tag) :
    o1.map SongMachine.kind = o2.map SongMachine.kind := by
  cases o1 <;> cases o2 <;> simp [SongMachine.tag] at h ⊢
  exact h.1

theorem change_state_tag (g : Setup) (self : Nat) (m : SongMachine) (t : BtMachineState)
    (hm : g[self]? = some m)
    (hb : ¬ (t = BtMachineState.bypass ∧ m.kind ≠ BtMachineKind.processor))
    (hso : ¬ (t = BtMachineState.solo ∧ m.kind = BtMachineKind.sink))
    (hts : m.state ≠ t) (k : Nat) :
    ((bt_machine_change_state g self t).2[k]?).map SongMachine.tag =
      if k = self then some (m.kind, t)
      else if t = BtMachineState.solo ∧
          (g[k]?).map SongMachine.kind = some BtMachineKind.source
        then (g[k]?).map (fun m => m.unsolo.tag)
      else (g[k]?).map SongMachine.tag := by
  rw [change_state_unfold g self m t hm hb hso hts]
  simp only [set_state_get]
  have hl := leave_state_tag g self true m.state
  have he := enter_state_tag (leave_state g self true m.state).2 self
    (leave_state g self true m.state).1 t
  by_cases hk : k = self
  · subst hk
    simp only [if_true]
    have h1 := he k
    simp only [ne_eq, not_true_eq_false, false_and, if_false] at h1
    rw [hl k, hm] at h1
    cases hx : (enter_state (leave_state g k true m.state).2 k
        (leave_state g k true m.state).1 t).2[k]? with
    | none => rw [hx] at h1; simp at h1
    | some m2 =>
      rw [hx] at h1
      simp only [Option.map_some', Option.some.injEq, SongMachine.tag, Prod.mk.injEq] at h1 ⊢
      exact ⟨h1.1, trivial⟩
  · simp only [hk, if_false]
    rw [he k]
    have hkind := tag_kind _ _ (hl k)
    simp only [ne_eq, hk, not_false_eq_true, true_and, hkind]
    split
    · have h2 := hl k
      cases hx : (leave_state g self true m.state).2[k]? with
      | none => rw [hx] at h2; cases hg : g[k]? <;> simp [hg] at h2 ⊢
      | some a =>
        rw [hx] at h2
        cases hg : g[k]? with
        | none => rw [hg] at h2; simp at h2
        | some b =>
          rw [hg] at h2
          simp only [Option.map_some', Option.some.injEq, SongMachine.tag, Prod.mk.injEq] at h2 ⊢
          simp only [SongMachine.unsolo, h2.2]
          split <;> simp [h2.1, h2.2]
    · exact hl k

theorem change_state_same (g : Setup) (self : Nat) (m : SongMachine) (t : BtMachineState)
    (hm : g[self]? = some m)
    (h : (t = BtMachineState.bypass ∧ m.kind ≠ BtMachineKind.processor) ∨
      (t = BtMachineState.solo ∧ m.kind = BtMachineKind.sink) ∨ m.state = t) :
    (bt_machine_change_state g self t).2 = g := by
  unfold bt_machine_change_state
  simp only [hm]
  by_cases hb : t = BtMachineState.bypass ∧ m.kind ≠ BtMachineKind.processor
  · rw [if_pos hb]
  · rw [if_neg hb]
    by_cases hso : t = BtMachineState.solo ∧ m.kind = BtMachineKind.sink
    · rw [if_pos hso]
    · rw [if_neg hso]
      rcases h with h | h | h
      · exact absurd h hb
      · exact absurd h hso
      · rw [if_pos h]

/-- Claim C30: when the new state passes the two checks and differs from the
state of the machine, after `bt_machine_change_state` the state of the machine
is the new state, whatever the result; when a check rejects the request or the
new state is the state of the machine, the setup stays as it is. -/
theorem change_state_sets_state (g : Setup) (self : Nat) (m : SongMachine)
    (t : BtMachineState) (hm : g[self]? = some m) :
    (¬ (t = BtMachineState.bypass ∧ m.kind ≠ BtMachineKind.processor) →
      ¬ (t = BtMachineState.solo ∧ m.kind = BtMachineKind.sink) → m.state ≠ t →
      ((bt_machine_change_state g self t).2[self]?).map SongMachine.state = some t) ∧
    ((t = BtMachineState.bypass ∧ m.kind ≠ BtMachineKind.processor) ∨
      (t = BtMachineState.solo ∧ m.kind = BtMachineKind.sink) ∨ m.state = t →
      (bt_machine_change_state g self t).2 = g) := by
  refine ⟨fun hb hso hts => ?_, change_state_same g self m t hm⟩
  have h := change_state_tag g self m t hm hb hso hts self
  simp only [if_true] at h
  cases hx : (bt_machine_change_state g self t).2[self]? with
  | none => rw [hx] at h; simp at h
  | some m2 =>
    rw [hx] at h
    simp only [Option.map_some', Option.some.injEq, SongMachine.tag, Prod.mk.injEq] at h ⊢
    exact h.2

theorem change_state_kind (g : Setup) (self : Nat) (t : BtMachineState) (k : Nat) :
    ((bt_machine_change_state g self t).2[k]?).map SongMachine.kind
      = (g[k]?).map SongMachine.kind := by
  cases hm : g[self]? with
  | none =>
    have : bt_machine_change_state g self t = (false, g) := by
      simp [bt_machine_change_state, hm]
    rw [this]
  | some m =>
    by_cases hrej : (t = BtMachineState.bypass ∧ m.kind ≠ BtMachineKind.processor) ∨
        (t = BtMachineState.solo ∧ m.kind = BtMachineKind.sink) ∨ m.state = t
    · rw [change_state_same g self m t hm hrej]
    · have htag := change_state_tag g self m t hm (fun h => hrej (Or.inl h))
        (fun h => hrej (Or.inr (Or.inl h))) (fun h => hrej (Or.inr (Or.inr h))) k
      by_cases hk : k = self
      · rw [if_pos hk] at htag
        rw [hk] at htag ⊢
        rw [hm]
        cases hr : (bt_machine_change_state g self t).2[self]? with
        | none => rw [hr] at htag; simp at htag
        | some mk =>
          rw [hr] at htag
          simp only [Option.map_some', Option.some.injEq, SongMachine.tag,
            Prod.mk.injEq] at htag
          simp [htag.1]
      · rw [if_neg hk] at htag
        split at htag
        · cases hr : (bt_machine_change_state g self t).2[k]? <;>
            cases hg : g[k]? <;> simp [hr, hg, SongMachine.tag] at htag ⊢
          rw [htag.1]
          unfold SongMachine.unsolo
          split <;> rfl
        · exact tag_kind _ _ htag

theorem unsolo_tag_ne (o : Option SongMachine) (kd : BtMachineKind) :
    o.map (fun m => m.unsolo.tag) ≠ some (kd, BtMachineState.solo) := by
  cases o with
  | none => simp
  | some m =>
    simp only [Option.map_some', ne_eq, Option.some.injEq, SongMachine.tag, SongMachine.unsolo]
    by_cases hs : m.state = BtMachineState.solo
    · simp [hs]
    · simp [hs]

theorem change_state_one_solo (g : Setup) (self : Nat) (t : BtMachineState)
    (hinv : ∀ i j : Nat,
      (g[i]?).map SongMachine.tag = some (BtMachineKind.source, BtMachineState.solo) →
      (g[j]?).map SongMachine.tag = some (BtMachineKind.source, BtMachineState.solo) →
      i = j) :
    ∀ i j : Nat,
      ((bt_machine_change_state g self t).2[i]?).map SongMachine.tag
        = some (BtMachineKind.source, BtMachineState.solo) →
      ((bt_machine_change_state g self t).2[j]?).map SongMachine.tag
        = some (BtMachineKind.source, BtMachineState.solo) →
      i = j := by
  cases hm : g[self]? with
  | none =>
    have : bt_machine_change_state g self t = (false, g) := by
      simp [bt_machine_change_state, hm]
    rw [this]; exact hinv
  | some m =>
    by_cases hrej : (t = BtMachineState.bypass ∧ m.kind ≠ BtMachineKind.processor) ∨
        (t = BtMachineState.solo ∧ m.kind = BtMachineKind.sink) ∨ m.state = t
    · rw [change_state_same g self m t hm hrej]; exact hinv
    · have hb : ¬ (t = BtMachineState.bypass ∧ m.kind ≠ BtMachineKind.processor) :=
        fun h => hrej (Or.inl h)
      have hso : ¬ (t = BtMachineState.solo ∧ m.kind = BtMachineKind.sink) :=
        fun h => hrej (Or.inr (Or.inl h))
      have hts : m.state ≠ t := fun h => hrej (Or.inr (Or.inr h))
      have htag := change_state_tag g self m t hm hb hso hts
      have key : ∀ k : Nat,
          ((bt_machine_change_state g self t).2[k]?).map SongMachine.tag
            = some (BtMachineKind.source, BtMachineState.solo) →
          (k = self ∧ t = BtMachineState.solo) ∨
          (k ≠ self ∧ t ≠ BtMachineState.solo ∧
            (g[k]?).map SongMachine.tag
              = some (BtMachineKind.source, BtMachineState.solo)) := by
        intro k hk
        rw [htag k] at hk
        by_cases hks : k = self
        · simp only [hks, if_true, Option.some.injEq, Prod.mk.injEq] at hk
          exact Or.inl ⟨hks, hk.2⟩
        · simp only [hks, if_false] at hk
          by_cases hsolo : t = BtMachineState.solo
          · exfalso
            by_cases hsrc : (g[k]?).map SongMachine.kind = some BtMachineKind.source
            · rw [if_pos ⟨hsolo, hsrc⟩] at hk
              exact unsolo_tag_ne _ _ hk
            · rw [if_neg (fun h => hsrc h.2)] at hk
              exact hsrc (by
                have := tag_kind (g[k]?) (some
                  { kind := BtMachineKind.source, state := BtMachineState.solo,
                    input_gain := none, output_gain := none, base_transform := false,
                    passthrough := false }) (by rw [hk]; rfl)
                simpa using this)
          · rw [if_neg (fun h => hsolo h.1)] at hk
            exact Or.inr ⟨hks, hsolo, hk⟩
      intro i j hi hj
      rcases key i hi with ⟨h1, h2⟩ | ⟨h1, h2, h3⟩ <;>
        rcases key j hj with ⟨h4, h5⟩ | ⟨h4, h5, h6⟩
      · rw [h1, h4]
      · exact absurd h2 h5
      · exact absurd h5 h2
      · exact hinv i j h3 h6

/-- Claim C29: starting from a setup with no machine in Solo, after every
sequence of `bt_machine_change_state` calls at most one source machine is in
state Solo. -/
theorem at_most_one_solo_source (g : Setup) (calls : List (Nat × BtMachineState))
    (hstart : ∀ m ∈ g, m.state ≠ BtMachineState.solo) :
    ∀ (i j : Nat) (mi mj : SongMachine),
      (run_state_calls g calls)[i]? = some mi → (run_state_calls g calls)[j]? = some mj →
      mi.kind = BtMachineKind.source → mj.kind = BtMachineKind.source →
      mi.state = BtMachineState.solo → mj.state = BtMachineState.solo → i = j := by
  have hinv0 : ∀ i j : Nat,
      (g[i]?).map SongMachine.tag = some (BtMachineKind.source, BtMachineState.solo) →
      (g[j]?).map SongMachine.tag = some (BtMachineKind.source, BtMachineState.solo) →
      i = j := by
    intro i j hi _
    cases hx : g[i]? with
    | none => rw [hx] at hi; simp at hi
    | some m =>
      rw [hx] at hi
      simp only [Option.map_some', Option.some.injEq, SongMachine.tag, Prod.mk.injEq] at hi
      exact absurd hi.2 (hstart m (List.getElem?_mem hx))
  have hrun : ∀ (calls : List (Nat × BtMachineState)) (g : Setup),
      (∀ i j : Nat,
        (g[i]?).map SongMachine.tag = some (BtMachineKind.source, BtMachineState.solo) →
        (g[j]?).map SongMachine.tag = some (BtMachineKind.source, BtMachineState.solo) →
        i = j) →
      ∀ i j : Nat,
        ((run_state_calls g calls)[i]?).map SongMachine.tag
          = some (BtMachineKind.source, BtMachineState.solo) →
        ((run_state_calls g calls)[j]?).map SongMachine.tag
          = some (BtMachineKind.source, BtMachineState.solo) →
        i = j := by
    intro calls
    induction calls with
    | nil => intro g h; exact h
    | cons c rest ih =>
      intro g h
      simp only [run_state_calls, List.foldl_cons]
      exact ih _ (change_state_one_solo g c.1 c.2 h)
  intro i j mi mj hi hj hki hkj hsi hsj
  apply hrun calls g hinv0 i j
  · rw [hi]; simp [SongMachine.tag, hki, hsi]
  · rw [hj]; simp [SongMachine.tag, hkj, hsj]

theorem source_muted (m : SongMachine) (hk : m.kind = BtMachineKind.source)
    (hg : m.output_gain ≠ none) :
    m.muted.output_gain = some true ∧ m.muted.state = m.state ∧ m.muted.kind = m.kind := by
  unfold SongMachine.muted SongMachine.write_mute
  cases hx : m.output_gain with
  | none => exact absurd hx hg
  | some b => simp [hk]

theorem source_unmuted (m : SongMachine) (hk : m.kind = BtMachineKind.source)
    (hg : m.output_gain ≠ none) :
    m.unmuted.output_gain = some false ∧ m.unmuted.state = m.state ∧
      m.unmuted.kind = m.kind := by
  unfold SongMachine.unmuted SongMachine.write_mute
  cases hx : m.output_gain with
  | none => exact absurd hx hg
  | some b => simp [hk]

theorem unsolo_fields (m : SongMachine) :
    m.unsolo.kind = m.kind ∧ m.unsolo.output_gain = m.output_gain ∧
      m.unsolo.state ≠ BtMachineState.solo ∧
      (m.state = BtMachineState.normal ∨ m.state = BtMachineState.solo →
        m.unsolo.state = BtMachineState.normal) := by
  unfold SongMachine.unsolo
  by_cases hs : m.state = BtMachineState.solo
  · simp [hs]
  · simp [hs]

theorem left_normal (m : SongMachine) (h : m.state = BtMachineState.normal) : m.left = m := by
  simp [SongMachine.left, h]

theorem solo_normal_step (g0 g : Setup) (x : Nat) (t : BtMachineState)
    (hx : (g0[x]?).map SongMachine.kind = some BtMachineKind.source)
    (ht : t = BtMachineState.solo ∨ t = BtMachineState.normal)
    (hK : ∀ k : Nat, (g[k]?).map SongMachine.kind = (g0[k]?).map SongMachine.kind)
    (hS : ∀ (k : Nat) (m : SongMachine), g[k]? = some m → m.kind = BtMachineKind.source →
      m.output_gain ≠ none ∧
        (m.state = BtMachineState.normal ∨ m.state = BtMachineState.solo))
    (hM : ∀ (a b : Nat) (ma mb : SongMachine), g[a]? = some ma → g[b]? = some mb →
      ma.kind = BtMachineKind.source → mb.kind = BtMachineKind.source →
      ma.state = BtMachineState.solo → a ≠ b →
      mb.output_gain = some true ∧ mb.state ≠ BtMachineState.solo) :
    (∀ k : Nat, ((bt_machine_change_state g x t).2[k]?).map SongMachine.kind
      = (g0[k]?).map SongMachine.kind) ∧
    (∀ (k : Nat) (m : SongMachine), (bt_machine_change_state g x t).2[k]? = some m →
      m.kind = BtMachineKind.source →
      m.output_gain ≠ none ∧
        (m.state = BtMachineState.normal ∨ m.state = BtMachineState.solo)) ∧
    (∀ (a b : Nat) (ma mb : SongMachine), (bt_machine_change_state g x t).2[a]? = some ma →
      (bt_machine_change_state g x t).2[b]? = some mb →
      ma.kind = BtMachineKind.source → mb.kind = BtMachineKind.source →
      ma.state = BtMachineState.solo → a ≠ b →
      mb.output_gain = some true ∧ mb.state ≠ BtMachineState.solo) := by
  have hxk := hK x
  rw [hx] at hxk
  cases hgx : g[x]? with
  | none => rw [hgx] at hxk; simp at hxk
  | some m =>
    rw [hgx] at hxk
    have hkind : m.kind = BtMachineKind.source := by simpa using hxk
    obtain ⟨hgain, hstate⟩ := hS x m hgx hkind
    by_cases hsame : m.state = t
    · rw [change_state_same g x m t hgx (Or.inr (Or.inr hsame))]
      exact ⟨hK, hS, hM⟩
    rcases ht with ht | ht
    · -- Normal to Solo
      subst ht
      have hnorm : m.state = BtMachineState.normal := by
        rcases hstate with h | h
        · exact h
        · exact absurd h hsame
      have hget := change_state_solo_get g x m hgx (by rw [hkind]; decide) hsame
      have hnew : ∀ (k : Nat) (mk : SongMachine),
          (bt_machine_change_state g x BtMachineState.solo).2[k]? = some mk →
          mk.kind = BtMachineKind.source →
          (k = x ∧ mk.state = BtMachineState.solo ∧ mk.output_gain ≠ none) ∨
          (k ≠ x ∧ mk.state = BtMachineState.normal ∧ mk.output_gain = some true) := by
        intro k mk hk hsrc
        rw [hget k] at hk
        by_cases hkx : k = x
        · left
          simp only [hkx, if_true, Option.some.injEq] at hk
          rw [left_normal m hnorm] at hk
          refine ⟨hkx, ?_, ?_⟩
          · rw [← hk]
          · rw [← hk]
            by_cases ho : other_solo g x (bt_setup_get_source_machines g) = true
            · simp only [ho, if_true]
              rw [(source_unmuted m hkind hgain).1]; simp
            · simp only [ho, if_false]; exact hgain
        · right
          simp only [hkx, if_false] at hk
          cases hg : g[k]? with
          | none => simp [hg] at hk
          | some b =>
            by_cases hb : b.kind = BtMachineKind.source
            · simp only [hg, Option.map_some', hb, if_true, Option.some.injEq] at hk
              obtain ⟨hbg, hbs⟩ := hS k b hg hb
              obtain ⟨u1, u2, _, u4⟩ := unsolo_fields b
              obtain ⟨v1, v2, _⟩ := source_muted b.unsolo (by rw [u1]; exact hb)
                (by rw [u2]; exact hbg)
              refine ⟨hkx, ?_, ?_⟩
              · rw [← hk, v2]; exact u4 hbs
              · rw [← hk]; exact v1
            · simp only [hg, Option.map_some', Option.some.injEq, hb, if_false] at hk
              rw [hk] at hb
              exact absurd hsrc hb
      refine ⟨fun k => (change_state_kind g x _ k).trans (hK k), ?_, ?_⟩
      · intro k mk hk hsrc
        rcases hnew k mk hk hsrc with ⟨_, h2, h3⟩ | ⟨_, h2, h3⟩
        · exact ⟨h3, Or.inr h2⟩
        · exact ⟨by rw [h3]; simp, Or.inl h2⟩
      · intro a b ma mb ha hb hka hkb hsa hab
        rcases hnew a ma ha hka with ⟨h1, _, _⟩ | ⟨_, h2, _⟩
        · rcases hnew b mb hb hkb with ⟨h4, _, _⟩ | ⟨_, h5, h6⟩
          · exact absurd (h1.trans h4.symm) hab
          · exact ⟨h6, by rw [h5]; decide⟩
        · rw [h2] at hsa; cases hsa
    · -- Solo to Normal
      subst ht
      have hsolo : m.state = BtMachineState.solo := by
        rcases hstate with h | h
        · exact absurd h hsame
        · exact h
      have hget := change_state_solo_normal_get g x m hgx hsolo
      have hnew : ∀ (k : Nat) (mk : SongMachine),
          (bt_machine_change_state g x BtMachineState.normal).2[k]? = some mk →
          mk.kind = BtMachineKind.source →
          mk.state = BtMachineState.normal ∧ mk.output_gain ≠ none := by
        intro k mk hk hsrc
        rw [hget k] at hk
        by_cases hkx : k = x
        · simp only [hkx, if_true, Option.some.injEq] at hk
          rw [← hk]
          exact ⟨rfl, hgain⟩
        · simp only [hkx, if_false] at hk
          cases hg : g[k]? with
          | none => simp [hg] at hk
          | some b =>
            by_cases hb : b.kind = BtMachineKind.source
            · simp only [hg, Option.map_some', hb, if_true, Option.some.injEq] at hk
              obtain ⟨hbg, hbs⟩ := hS k b hg hb
              obtain ⟨v1, v2, _⟩ := source_unmuted b hb hbg
              have hbn := (hM x k m b hgx hg hkind hb hsolo (Ne.symm hkx)).2
              refine ⟨?_, ?_⟩
              · rw [← hk, v2]
                rcases hbs with h | h
                · exact h
                · exact absurd h hbn
              · rw [← hk, v1]; simp
            · simp only [hg, Option.map_some', Option.some.injEq, hb, if_false] at hk
              rw [hk] at hb
              exact absurd hsrc hb
      refine ⟨fun k => (change_state_kind g x _ k).trans (hK k), ?_, ?_⟩
      · intro k mk hk hsrc
        obtain ⟨h1, h2⟩ := hnew k mk hk hsrc
        exact ⟨h2, Or.inl h1⟩
      · intro a b ma mb ha hb hka hkb hsa hab
        rw [(hnew a ma ha hka).1] at hsa
        cases hsa

/-- Claim C28, as amended: starting from a setup of Normal machines whose
source machines all have an output gain, after every sequence of
`bt_machine_change_state` calls that switch source machines to Solo or to
Normal, whenever a source machine is Solo the mute flag of the output gain of
every other source machine is TRUE. -/
theorem solo_keeps_other_sources_muted (g0 : Setup) (calls : List (Nat × BtMachineState))
    (hstart : ∀ m ∈ g0, m.state = BtMachineState.normal ∧
      (m.kind = BtMachineKind.source → m.output_gain ≠ none))
    (hcalls : ∀ c ∈ calls, (g0[c.1]?).map SongMachine.kind = some BtMachineKind.source ∧
      (c.2 = BtMachineState.solo ∨ c.2 = BtMachineState.normal)) :
    ∀ (a b : Nat) (ma mb : SongMachine),
      (run_state_calls g0 calls)[a]? = some ma → (run_state_calls g0 calls)[b]? = some mb →
      ma.kind = BtMachineKind.source → mb.kind = BtMachineKind.source →
      ma.state = BtMachineState.solo → a ≠ b → mb.output_gain = some true := by
  have hrun : ∀ (calls : List (Nat × BtMachineState)) (g : Setup),
      (∀ c ∈ calls, (g0[c.1]?).map SongMachine.kind = some BtMachineKind.source ∧
        (c.2 = BtMachineState.solo ∨ c.2 = BtMachineState.normal)) →
      (∀ k : Nat, (g[k]?).map SongMachine.kind = (g0[k]?).map SongMachine.kind) →
      (∀ (k : Nat) (m : SongMachine), g[k]? = some m → m.kind = BtMachineKind.source →
        m.output_gain ≠ none ∧
          (m.state = BtMachineState.normal ∨ m.state = BtMachineState.solo)) →
      (∀ (a b : Nat) (ma mb : SongMachine), g[a]? = some ma → g[b]? = some mb →
        ma.kind = BtMachineKind.source → mb.kind = BtMachineKind.source →
        ma.state = BtMachineState.solo → a ≠ b →
        mb.output_gain = some true ∧ mb.state ≠ BtMachineState.solo) →
      ∀ (a b : Nat) (ma mb : SongMachine),
        (run_state_calls g calls)[a]? = some ma → (run_state_calls g calls)[b]? = some mb →
        ma.kind = BtMachineKind.source → mb.kind = BtMachineKind.source →
        ma.state = BtMachineState.solo → a ≠ b →
        mb.output_gain = some true ∧ mb.state ≠ BtMachineState.solo := by
    intro calls
    induction calls with
    | nil => intro g _ _ _ hM; exact hM
    | cons c rest ih =>
      intro g hc hK hS hM
      simp only [run_state_calls, List.foldl_cons]
      obtain ⟨h1, h2⟩ := hc c (List.mem_cons_self _ _)
      obtain ⟨k1, k2, k3⟩ := solo_normal_step g0 g c.1 c.2 h1 h2 hK hS hM
      exact ih _ (fun d hd => hc d (List.mem_cons_of_mem _ hd)) k1 k2 k3
  intro a b ma mb ha hb hka hkb hsa hab
  exact (hrun calls g0 hcalls (fun _ => rfl)
    (fun k m hk hsrc => ⟨(hstart m (List.getElem?_mem hk)).2 hsrc,
      Or.inl (hstart m (List.getElem?_mem hk)).1⟩)
    (fun a _ ma _ ha _ _ _ hsa _ => by
      rw [(hstart ma (List.getElem?_mem ha)).1] at hsa; cases hsa)
    a b ma mb ha hb hka hkb hsa hab).1

theorem solo_keeps_other_sources_muted_witness :
    run_state_calls
      [source_machine BtMachineState.normal false, source_machine BtMachineState.normal false]
      [(0, BtMachineState.solo), (0, BtMachineState.normal), (1, BtMachineState.solo)]
      = [source_machine BtMachineState.normal true,
          source_machine BtMachineState.solo false] ∧
    (source_machine BtMachineState.normal true).output_gain = some true :=
  ⟨by decide,
   solo_keeps_other_sources_muted
    [source_machine BtMachineState.normal false, source_machine BtMachineState.normal false]
    [(0, BtMachineState.solo), (0, BtMachineState.normal), (1, BtMachineState.solo)]
    (by decide) (by decide) 1 0
    (source_machine BtMachineState.solo false) (source_machine BtMachineState.normal true)
    (by decide) (by decide) rfl rfl rfl (by decide)⟩

/-- Claim C28 as stated fails: with two unmuted Normal source machines,
after machine 0 is switched to Solo and machine 1 to Mute and back to Normal,
machine 0 is Solo and the mute flag of machine 1 is FALSE. -/
theorem solo_sibling_unmuted_by_mute_round_trip :
    run_state_calls
      [source_machine BtMachineState.normal false, source_machine BtMachineState.normal false]
      [(0, BtMachineState.solo), (1, BtMachineState.mute), (1, BtMachineState.normal)]
      = [source_machine BtMachineState.solo false,
          source_machine BtMachineState.normal false] ∧
    run_state_calls
      [source_machine BtMachineState.normal false, source_machine BtMachineState.normal false]
      [(0, BtMachineState.solo)]
      = [source_machine BtMachineState.solo false,
          source_machine BtMachineState.normal true] := by
  decide

theorem set_param_defaults_refreshes_live_value_witness :
    (bt_machine_set_param_defaults gst_env true (fun _ => true)
      (bt_machine_set_global_param_value
        (bt_machine_global_controller_change_value gst_env
          (bt_machine_global_controller_change_value gst_env mono_machine 0 0 none)
          0 1000 (some 5))
        0 (some 9))).global_control_sources[0]?
      = some (some [(0, 9), (1000, 5)]) :=
  ((set_param_defaults_refreshes_live_value gst_env
    (bt_machine_set_global_param_value
      (bt_machine_global_controller_change_value gst_env
        (bt_machine_global_controller_change_value gst_env mono_machine 0 0 none)
        0 1000 (some 5))
      0 (some 9)) true (fun _ => true)).1 0 [(0, 3), (1000, 5)] rfl (by decide) (by decide)
    (by decide) (by decide)).trans (by decide)

/-- Claim C24 as stated fails: with the declared default 0, the synthetic
point (0, 3) and the live value 9, `bt_machine_set_param_defaults` leaves the
point (0, 9) at timestamp 0. -/
theorem set_param_defaults_not_declared_default :
    (bt_machine_set_global_param_value
      (bt_machine_global_controller_change_value gst_env
        (bt_machine_global_controller_change_value gst_env mono_machine 0 0 none)
        0 1000 (some 5))
      0 (some 9)).global_control_sources = [some [(0, 3), (1000, 5)]] ∧
    (bt_machine_set_global_param_value
      (bt_machine_global_controller_change_value gst_env
        (bt_machine_global_controller_change_value gst_env mono_machine 0 0 none)
        0 1000 (some 5))
      0 (some 9)).global_default 0 = true ∧
    (mono_machine.global_props[0]?).map GParamSpec.default_value = some 0 ∧
    (bt_machine_set_param_defaults gst_env true (fun _ => true)
      (bt_machine_set_global_param_value
        (bt_machine_global_controller_change_value gst_env
          (bt_machine_global_controller_change_value gst_env mono_machine 0 0 none)
          0 1000 (some 5))
        0 (some 9))).global_control_sources = [some [(0, 9), (1000, 5)]] :=
  ⟨by decide, by decide, by decide, by decide⟩

theorem change_state_via_normal_witness :
    bt_machine_change_state
      [source_machine BtMachineState.mute true, source_machine BtMachineState.normal false]
      0 BtMachineState.solo =
      ((bt_machine_change_state
          [source_machine BtMachineState.mute true,
            source_machine BtMachineState.normal false] 0 BtMachineState.normal).1 &&
        (bt_machine_change_state
          (bt_machine_change_state
            [source_machine BtMachineState.mute true,
              source_machine BtMachineState.normal false] 0 BtMachineState.normal).2
          0 BtMachineState.solo).1,
        (bt_machine_change_state
          (bt_machine_change_state
            [source_machine BtMachineState.mute true,
              source_machine BtMachineState.normal false] 0 BtMachineState.normal).2
          0 BtMachineState.solo).2) :=
  change_state_via_normal
    [source_machine BtMachineState.mute true, source_machine BtMachineState.normal false]
    0 (source_machine BtMachineState.mute true) BtMachineState.solo rfl
    (by decide) (by decide) (by decide) (by decide) (by decide)

theorem at_most_one_solo_source_witness :
    run_state_calls
      [source_machine BtMachineState.normal false,
        source_machine BtMachineState.mute true, sink_machine]
      [(0, BtMachineState.solo), (1, BtMachineState.solo), (2, BtMachineState.solo)]
      = [source_machine BtMachineState.normal true,
          source_machine BtMachineState.solo false, sink_machine] ∧
    ∀ (i j : Nat) (mi mj : SongMachine),
      (run_state_calls
        [source_machine BtMachineState.normal false,
          source_machine BtMachineState.mute true, sink_machine]
        [(0, BtMachineState.solo), (1, BtMachineState.solo),
          (2, BtMachineState.solo)])[i]? = some mi →
      (run_state_calls
        [source_machine BtMachineState.normal false,
          source_machine BtMachineState.mute true, sink_machine]
        [(0, BtMachineState.solo), (1, BtMachineState.solo),
          (2, BtMachineState.solo)])[j]? = some mj →
      mi.kind = BtMachineKind.source → mj.kind = BtMachineKind.source →
      mi.state = BtMachineState.solo → mj.state = BtMachineState.solo → i = j :=
  ⟨by decide,
   at_most_one_solo_source
    [source_machine BtMachineState.normal false, source_machine BtMachineState.mute true,
      sink_machine]
    [(0, BtMachineState.solo), (1, BtMachineState.solo), (2, BtMachineState.solo)]
    (by decide)⟩

theorem change_state_sets_state_witness :
    (bt_machine_change_state
      [{ source_machine BtMachineState.normal false with output_gain := none }]
      0 BtMachineState.mute).1 = false ∧
    ((bt_machine_change_state
      [{ source_machine BtMachineState.normal false with output_gain := none }]
      0 BtMachineState.mute).2[0]?).map SongMachine.state = some BtMachineState.mute :=
  ⟨by decide,
   (change_state_sets_state
      [{ source_machine BtMachineState.normal false with output_gain := none }] 0
      { source_machine BtMachineState.normal false with output_gain := none }
      BtMachineState.mute rfl).1 (by decide) (by decide) (by decide)⟩

/-! ## Properties of the calls that insert an element -/

theorem present_in_range (ms : Nat → Bool) (p : Pad) (h : Pad.present ms p = true) :
    p.in_range = true := by
  cases p with
  | src i =>
    simp only [Pad.present, Bool.and_eq_true] at h
    simp only [Pad.in_range, Bool.and_eq_true]
    exact h.1
  | sink i =>
    simp only [Pad.present, Bool.and_eq_true] at h
    simp only [Pad.in_range, Bool.and_eq_true]
    exact h.1
  | ext n => rfl

theorem present_sink_nat (ms : Nat → Bool) (k : Nat)
    (h : Pad.present ms (Pad.sink (k : Int)) = true) : k < PART_COUNT ∧ ms k = true := by
  simp only [Pad.present, Bool.and_eq_true, decide_eq_true_eq, Int.toNat_ofNat] at h
  have c : PART_COUNT = 11 := rfl
  exact ⟨by omega, h.2⟩

theorem present_src_nat (ms : Nat → Bool) (k : Nat)
    (h : Pad.present ms (Pad.src (k : Int)) = true) : k < PART_COUNT ∧ ms k = true := by
  simp only [Pad.present, Bool.and_eq_true, decide_eq_true_eq, Int.toNat_ofNat] at h
  have c : PART_COUNT = 11 := rfl
  exact ⟨by omega, h.2⟩

theorem scan_post_ne_of_present (ms : Nat → Bool) (i n k : Nat) (h1 : i ≤ k) (h2 : k < i + n)
    (hk : ms k = true) : scan_post ms i n ≠ -1 := by
  rcases scan_post_cases ms n i with ⟨-, hall⟩ | ⟨p, e, -, -, -, -⟩
  · have := hall k h1 h2
    rw [hk] at this
    cases this
  · rw [e]; omega

theorem scan_pre_ne_of_present (ms : Nat → Bool) (n k : Nat) (h : k < n) (hk : ms k = true) :
    scan_pre ms n ≠ -1 := by
  rcases scan_pre_cases ms n with ⟨-, hall⟩ | ⟨p, e, -, -, -⟩
  · have := hall k h
    rw [hk] at this
    cases this
  · rw [e]; omega

theorem caller_finds_neighbour (self : Machine) (peer : Pad) (part : Nat)
    (hwf : PadsPresent self)
    (hcall :
      (part < PART_MACHINE ∧
        peer_of_sink self (Pad.sink (scan_tix_up self.machines (part + 1)
          (PART_MACHINE + 1 - (part + 1)))) = some peer) ∨
      (PART_MACHINE < part ∧ part < PART_COUNT ∧
        peer_of_src self (Pad.src (scan_tix_down self.machines (part - PART_MACHINE)))
          = some peer)) :
    part < PART_COUNT ∧ peer.in_range = true ∧
      (scan_pre self.machines part ≠ -1 ∨
        scan_post self.machines (part + 1) (PART_COUNT - (part + 1)) ≠ -1) := by
  have c6 : PART_MACHINE = 6 := rfl
  have c11 : PART_COUNT = 11 := rfl
  rcases hcall with ⟨hp, hpeer⟩ | ⟨hp1, hp2, hpeer⟩
  · have hmem := peer_of_sink_some self _ peer hpeer
    have hpr := hwf _ hmem
    have ht := present_sink_nat self.machines _ hpr.2
    refine ⟨by omega, present_in_range _ _ hpr.1, Or.inr ?_⟩
    have hgt : part + 1 ≤ scan_tix_up self.machines (part + 1)
        (PART_MACHINE + 1 - (part + 1)) := by
      rcases scan_tix_up_cases self.machines (PART_MACHINE + 1 - (part + 1)) (part + 1) with
        ⟨e, -⟩ | ⟨h1, -, -, -⟩
      · rw [e]; omega
      · exact h1
    exact scan_post_ne_of_present self.machines _ _ _ hgt (by omega) ht.2
  · have hmem := peer_of_src_some self _ peer hpeer
    have hpr := hwf _ hmem
    have ht := present_src_nat self.machines _ hpr.1
    refine ⟨hp2, present_in_range _ _ hpr.2, Or.inl ?_⟩
    have hlt : scan_tix_down self.machines (part - PART_MACHINE) < part := by
      rcases scan_tix_down_cases self.machines (part - PART_MACHINE) with
        ⟨e, -⟩ | ⟨-, h2, -, -⟩
      · rw [e]; omega
      · omega
    exact scan_pre_ne_of_present self.machines _ _ hlt ht.2

theorem present_set_part_true (ms : Nat → Bool) (part : Nat) (p : Pad)
    (h : Pad.present ms p = true) : Pad.present (set_part ms part true) p = true := by
  cases p with
  | src i =>
    simp only [Pad.present, Bool.and_eq_true, set_part] at h ⊢
    refine ⟨h.1, ?_⟩
    split
    · rfl
    · exact h.2
  | sink i =>
    simp only [Pad.present, Bool.and_eq_true, set_part] at h ⊢
    refine ⟨h.1, ?_⟩
    split
    · rfl
    · exact h.2
  | ext n => rfl

theorem set_part_false_eq (ms : Nat → Bool) (part : Nat) (h : ms part = false) :
    set_part ms part false = ms := by
  funext i
  simp only [set_part]
  split
  · next hi => rw [hi, h]
  · rfl

theorem links_present_set_part (ms : Nat → Bool) (links : List (Pad × Pad)) (part : Nat)
    (h : LinksPresent ms links) : LinksPresent (set_part ms part true) links :=
  fun l hl => ⟨present_set_part_true ms part _ (h l hl).1,
    present_set_part_true ms part _ (h l hl).2⟩

theorem present_nat_src (ms : Nat → Bool) (k : Nat) (h1 : k < PART_COUNT) (h2 : ms k = true) :
    Pad.present ms (Pad.src (k : Int)) = true := by
  have c : PART_COUNT = 11 := rfl
  simp only [Pad.present, Bool.and_eq_true, decide_eq_true_eq, Int.toNat_ofNat]
  exact ⟨by omega, h2⟩

theorem present_nat_sink (ms : Nat → Bool) (k : Nat) (h1 : k < PART_COUNT) (h2 : ms k = true) :
    Pad.present ms (Pad.sink (k : Int)) = true := by
  have c : PART_COUNT = 11 := rfl
  simp only [Pad.present, Bool.and_eq_true, decide_eq_true_eq, Int.toNat_ofNat]
  exact ⟨by omega, h2⟩

theorem pads_present_unlink (s : Machine) (a b : Pad) (h : PadsPresent s) :
    PadsPresent (gst_pad_unlink s a b) := by
  intro l hl
  simp only [gst_pad_unlink, List.mem_filter] at hl
  exact h l hl.1

theorem pads_present_link (env : Env) (s : Machine) (a b : Pad) (h : PadsPresent s)
    (ha : Pad.present s.machines a = true) (hb : Pad.present s.machines b = true) :
    PadsPresent (bt_machine_link_elements env s a b).2 := by
  unfold bt_machine_link_elements
  split
  · intro l hl
    simp only [List.mem_append, List.mem_singleton] at hl
    rcases hl with hl | rfl
    · exact h l hl
    · exact ⟨ha, hb⟩
  · exact h

theorem pads_present_reconnect (env : Env) (s : Machine) (hre : WireKeepsPads env)
    (h : PadsPresent s) :
    PadsPresent { s with links := (env.wire_reconnect s.links).2 } :=
  hre s.machines s.links h

theorem insert_element_machines (env : Env) (self : Machine) (peer : Pad) (pos : Nat) :
    (bt_machine_insert_element env self peer pos).2.machines = self.machines := by
  unfold bt_machine_insert_element
  simp only []
  repeat (first | split | simp)

theorem insert_element_pads_present (env : Env) (self : Machine) (peer : Pad) (pos : Nat)
    (hre : WireKeepsPads env) (h : PadsPresent self)
    (hpos : pos < PART_COUNT) (hmpos : self.machines pos = true)
    (hpeer : Pad.present self.machines peer = true)
    (hne : scan_pre self.machines pos ≠ -1 ∨
      scan_post self.machines (pos + 1) (PART_COUNT - (pos + 1)) ≠ -1) :
    PadsPresent (bt_machine_insert_element env self peer pos).2 := by
  have c : PART_COUNT = 11 := rfl
  have hs := present_nat_src self.machines pos hpos hmpos
  have hk := present_nat_sink self.machines pos hpos hmpos
  rcases scan_pre_cases self.machines pos with ⟨e1, -⟩ | ⟨q, e1, hq, hmq, -⟩ <;>
  rcases scan_post_cases self.machines (PART_COUNT - (pos + 1)) (pos + 1) with
    ⟨e2, -⟩ | ⟨p, e2, hp1, hp2, hmp, -⟩
  · rcases hne with h | h
    · exact absurd e1 h
    · exact absurd e2 h
  · have n2 : ((p : Int) ≠ -1) := by omega
    have hkp := present_nat_sink self.machines p (by omega) hmp
    simp only [bt_machine_insert_element, e1, e2]
    simp only [n2, ne_eq, not_true_eq_false, false_and, if_false, if_true]
    repeat' split
    all_goals
      first
      | apply pads_present_reconnect env _ hre
      | skip
    all_goals
      repeat' first
        | apply pads_present_link
        | apply pads_present_unlink
        | exact h
        | simpa using hs
        | simpa using hk
        | simpa using hkp
        | simpa using hpeer
  · have n1 : ((q : Int) ≠ -1) := by omega
    have hsq := present_nat_src self.machines q (by omega) hmq
    simp only [bt_machine_insert_element, e1, e2]
    simp only [n1, ne_eq, not_true_eq_false, not_false_eq_true, and_false, true_and, if_false,
      if_true]
    repeat' split
    all_goals
      first
      | apply pads_present_reconnect env _ hre
      | skip
    all_goals
      repeat' first
        | apply pads_present_link
        | apply pads_present_unlink
        | exact h
        | simpa using hs
        | simpa using hk
        | simpa using hsq
        | simpa using hpeer
  · have n1 : ((q : Int) ≠ -1) := by omega
    have n2 : ((p : Int) ≠ -1) := by omega
    have hsq := present_nat_src self.machines q (by omega) hmq
    have hkp := present_nat_sink self.machines p (by omega) hmp
    simp only [bt_machine_insert_element, e1, e2]
    simp only [n1, n2, ne_eq, not_false_eq_true, and_self, if_true]
    repeat' split
    all_goals
      repeat' first
        | apply pads_present_link
        | apply pads_present_unlink
        | exact h
        | simpa using hs
        | simpa using hk
        | simpa using hsq
        | simpa using hkp

theorem tix_up_present (ms : Nat → Bool) (i n : Nat) (hunit : ms PART_MACHINE = true) :
    ms (scan_tix_up ms i n) = true := by
  rcases scan_tix_up_cases ms n i with ⟨e, -⟩ | ⟨-, -, h3, -⟩
  · rw [e]; exact hunit
  · exact h3

theorem tix_up_ge (ms : Nat → Bool) (i n : Nat) (hi : i ≤ PART_MACHINE) :
    i ≤ scan_tix_up ms i n := by
  rcases scan_tix_up_cases ms n i with ⟨e, -⟩ | ⟨h1, -, -, -⟩
  · rw [e]; exact hi
  · exact h1

theorem tix_up_lt (ms : Nat → Bool) (i n : Nat) (hin : i + n ≤ PART_MACHINE + 1) :
    scan_tix_up ms i n < PART_COUNT := by
  have c6 : PART_MACHINE = 6 := rfl
  have c11 : PART_COUNT = 11 := rfl
  rcases scan_tix_up_cases ms n i with ⟨e, -⟩ | ⟨-, h2, -, -⟩
  · rw [e]; omega
  · omega

theorem tix_down_present (ms : Nat → Bool) (n : Nat) (hunit : ms PART_MACHINE = true) :
    ms (scan_tix_down ms n) = true := by
  rcases scan_tix_down_cases ms n with ⟨e, -⟩ | ⟨-, -, h3, -⟩
  · rw [e]; exact hunit
  · exact h3

theorem tix_down_lt (ms : Nat → Bool) (n : Nat) (hn : 0 < n) :
    scan_tix_down ms n < PART_MACHINE + n := by
  rcases scan_tix_down_cases ms n with ⟨e, -⟩ | ⟨-, h2, -, -⟩
  · rw [e]; omega
  · exact h2

theorem add_input_pads_present (env : Env) (self : Machine) (part : Nat)
    (hre : WireKeepsPads env) (hpart : part < PART_MACHINE)
    (hunit : self.machines PART_MACHINE = true) (hmpart : self.machines part = true)
    (h : PadsPresent self) :
    PadsPresent (bt_machine_add_input_element env self part).2 := by
  have c6 : PART_MACHINE = 6 := rfl
  have c11 : PART_COUNT = 11 := rfl
  unfold bt_machine_add_input_element
  simp only []
  have htl := tix_up_lt self.machines (part + 1) (PART_MACHINE + 1 - (part + 1)) (by omega)
  have htp := tix_up_present self.machines (part + 1) (PART_MACHINE + 1 - (part + 1)) hunit
  cases hpeer : peer_of_sink self (Pad.sink (scan_tix_up self.machines (part + 1)
      (PART_MACHINE + 1 - (part + 1)))) with
  | none =>
    exact pads_present_link env self _ _ h
      (present_nat_src self.machines part (by omega) hmpart)
      (present_nat_sink self.machines _ htl htp)
  | some peer =>
    have hmem := peer_of_sink_some self _ peer hpeer
    exact insert_element_pads_present env self peer part hre h (by omega) hmpart (h _ hmem).1
      (caller_finds_neighbour self peer part h (Or.inl ⟨hpart, hpeer⟩)).2.2

theorem add_output_pads_present (env : Env) (self : Machine) (part : Nat)
    (hre : WireKeepsPads env) (hpart1 : PART_MACHINE < part) (hpart2 : part < PART_COUNT)
    (hunit : self.machines PART_MACHINE = true) (hmpart : self.machines part = true)
    (h : PadsPresent self) :
    PadsPresent (bt_machine_add_output_element env self part).2 := by
  have c6 : PART_MACHINE = 6 := rfl
  have c11 : PART_COUNT = 11 := rfl
  unfold bt_machine_add_output_element
  simp only []
  have htl := tix_down_lt self.machines (part - PART_MACHINE) (by omega)
  have htp := tix_down_present self.machines (part - PART_MACHINE) hunit
  cases hpeer : peer_of_src self (Pad.src (scan_tix_down self.machines
      (part - PART_MACHINE))) with
  | none =>
    exact pads_present_link env self _ _ h
      (present_nat_src self.machines _ (by omega) htp)
      (present_nat_sink self.machines part hpart2 hmpart)
  | some peer =>
    have hmem := peer_of_src_some self _ peer hpeer
    exact insert_element_pads_present env self peer part hre h hpart2 hmpart (h _ hmem).2
      (caller_finds_neighbour self peer part h (Or.inr ⟨hpart1, hpart2, hpeer⟩)).2.2

theorem enable_part_pads_present (env : Env) (self : Machine) (part : Nat)
    (hre : WireKeepsPads env) (hp1 : PART_ADDER_CONVERT < part) (hp2 : part < PART_SPREADER)
    (hp3 : part ≠ PART_MACHINE) (hc : Constructed self) (h : PadsPresent self) :
    Constructed (bt_machine_enable_part env self part).2 ∧
      PadsPresent (bt_machine_enable_part env self part).2 := by
  have c0 : PART_ADDER = 0 := rfl
  have c1 : PART_CAPS_FILTER = 1 := rfl
  have c2 : PART_ADDER_CONVERT = 2 := rfl
  have c6 : PART_MACHINE = 6 := rfl
  have c10 : PART_SPREADER = 10 := rfl
  have c11 : PART_COUNT = 11 := rfl
  obtain ⟨hunit, hadd⟩ := hc
  unfold bt_machine_enable_part
  cases hpres : self.machines part with
  | true => exact ⟨⟨hunit, hadd⟩, h⟩
  | false =>
    simp only [Bool.false_eq_true, if_false, make_result]
    cases hf : env.factory_ok part with
    | false =>
      have hmk : (bt_machine_make_internal_element env self part).2 = self := by
        simp [bt_machine_make_internal_element, hf, set_part_false_eq _ _ hpres]
      simp only [Bool.not_false, if_true, hmk]
      exact ⟨⟨hunit, hadd⟩, h⟩
    | true =>
      have hmk : (bt_machine_make_internal_element env self part).2 =
          { self with machines := set_part self.machines part true } := by
        simp [bt_machine_make_internal_element, hf]
      simp only [Bool.not_true, Bool.false_eq_true, if_false, hmk]
      have hunit2 : set_part self.machines part true PART_MACHINE = true := by
        simp [set_part, hunit]
      have hpart2 : set_part self.machines part true part = true := by simp [set_part]
      have h2 : PadsPresent { self with machines := set_part self.machines part true } :=
        links_present_set_part self.machines self.links part h
      have hc2 : ∀ s : Machine, s.machines = set_part self.machines part true → Constructed s := by
        intro s hs
        refine ⟨by rw [hs]; exact hunit2, ?_⟩
        rw [hs]
        simp only [set_part]
        rw [if_neg (by omega), if_neg (by omega), if_neg (by omega)]
        exact hadd
      by_cases hlt : part < PART_MACHINE
      · simp only [hlt, if_true]
        refine ⟨hc2 _ ?_, add_input_pads_present env _ part hre hlt hunit2 hpart2 h2⟩
        unfold bt_machine_add_input_element
        simp only []
        split
        · simp
        · simp [insert_element_machines]
      · simp only [hlt, if_false]
        refine ⟨hc2 _ ?_, add_output_pads_present env _ part hre (by omega) (by omega)
          hunit2 hpart2 h2⟩
        unfold bt_machine_add_output_element
        simp only []
        split
        · simp
        · simp [insert_element_machines]

theorem activate_spreader_pads_present (env : Env) (self : Machine)
    (hc : Constructed self) (h : PadsPresent self) :
    Constructed (bt_machine_activate_spreader env self).2 ∧
      PadsPresent (bt_machine_activate_spreader env self).2 := by
  have c0 : PART_ADDER = 0 := rfl
  have c1 : PART_CAPS_FILTER = 1 := rfl
  have c2 : PART_ADDER_CONVERT = 2 := rfl
  have c6 : PART_MACHINE = 6 := rfl
  have c9 : PART_OUTPUT_POST_LEVEL = 9 := rfl
  have c10 : PART_SPREADER = 10 := rfl
  have c11 : PART_COUNT = 11 := rfl
  obtain ⟨hunit, hadd⟩ := hc
  unfold bt_machine_activate_spreader
  split
  · exact ⟨⟨hunit, hadd⟩, h⟩
  · cases hpres : self.machines PART_SPREADER with
    | true => simpa using ⟨⟨hunit, hadd⟩, h⟩
    | false =>
      simp only [Bool.not_false, if_true, make_result]
      cases hf : env.factory_ok PART_SPREADER with
      | false =>
        have hmk : (bt_machine_make_internal_element env self PART_SPREADER).2 = self := by
          simp [bt_machine_make_internal_element, hf, set_part_false_eq _ _ hpres]
        simp only [Bool.not_false, if_true, hmk]
        exact ⟨⟨hunit, hadd⟩, h⟩
      | true =>
        have hmk : (bt_machine_make_internal_element env self PART_SPREADER).2 =
            { self with machines := set_part self.machines PART_SPREADER true } := by
          simp [bt_machine_make_internal_element, hf]
        simp only [Bool.not_true, Bool.false_eq_true, if_false, hmk]
        have h2 : PadsPresent
            { self with machines := set_part self.machines PART_SPREADER true } :=
          links_present_set_part self.machines self.links PART_SPREADER h
        have htl := tix_down_lt self.machines (PART_OUTPUT_POST_LEVEL + 1 - PART_MACHINE)
          (by omega)
        have htp := tix_down_present self.machines
          (PART_OUTPUT_POST_LEVEL + 1 - PART_MACHINE) hunit
        refine ⟨⟨?_, ?_⟩, ?_⟩
        · simp [set_part, hunit]
        · simp only [link_machines, set_part]
          simpa using hadd
        · refine pads_present_link env _ _ _ h2 ?_ ?_
          · exact present_set_part_true _ _ _
              (present_nat_src self.machines _ (by omega) htp)
          · exact present_nat_sink _ PART_SPREADER (by omega) (by simp [set_part])

theorem pads_present_make (env : Env) (s : Machine) (part : Nat) (h : PadsPresent s)
    (hpart : s.machines part = false) :
    PadsPresent (bt_machine_make_internal_element env s part).2 := by
  unfold bt_machine_make_internal_element
  split
  · exact links_present_set_part s.machines s.links part h
  · simp only [set_part_false_eq _ _ hpart]
    exact h

theorem activate_adder_constructed (env : Env) (self : Machine) (hc : Constructed self) :
    Constructed (bt_machine_activate_adder env self).2 := by
  obtain ⟨hunit, hadd⟩ := hc
  unfold bt_machine_activate_adder
  by_cases hk : self.kind = BtMachineKind.source
  · simp only [hk, if_true]
    exact ⟨hunit, hadd⟩
  · simp only [hk, if_false]
    cases hpres : self.machines PART_ADDER with
    | true => exact ⟨hunit, hadd⟩
    | false =>
      obtain ⟨hm1, hm2⟩ := hadd hpres
      simp only [Bool.not_false, if_true, make_result]
      repeat' split
      all_goals simp only [Constructed, make_machines, link_machines, unlink_machines]
      all_goals simp_all [set_part]

set_option maxHeartbeats 1000000 in
theorem activate_adder_pads_present (env : Env) (self : Machine)
    (hc : Constructed self) (h : PadsPresent self) :
    PadsPresent (bt_machine_activate_adder env self).2 := by
  have c0 : PART_ADDER = 0 := rfl
  have c1 : PART_CAPS_FILTER = 1 := rfl
  have c2 : PART_ADDER_CONVERT = 2 := rfl
  have c3 : PART_INPUT_PRE_LEVEL = 3 := rfl
  have c6 : PART_MACHINE = 6 := rfl
  have c11 : PART_COUNT = 11 := rfl
  obtain ⟨hunit, hadd⟩ := hc
  unfold bt_machine_activate_adder
  by_cases hk : self.kind = BtMachineKind.source
  · simp only [hk, if_true]
    exact h
  · simp only [hk, if_false]
    cases hpres : self.machines PART_ADDER with
    | true => exact h
    | false =>
      obtain ⟨hm1, hm2⟩ := hadd hpres
      have ht1 := tix_up_ge self.machines PART_INPUT_PRE_LEVEL
        (PART_MACHINE + 1 - PART_INPUT_PRE_LEVEL) (by omega)
      have ht2 := tix_up_lt self.machines PART_INPUT_PRE_LEVEL
        (PART_MACHINE + 1 - PART_INPUT_PRE_LEVEL) (by omega)
      have ht3 := tix_up_present self.machines PART_INPUT_PRE_LEVEL
        (PART_MACHINE + 1 - PART_INPUT_PRE_LEVEL) hunit
      generalize scan_tix_up self.machines PART_INPUT_PRE_LEVEL
        (PART_MACHINE + 1 - PART_INPUT_PRE_LEVEL) = t at ht1 ht2 ht3
      have n0 : t ≠ 0 := by omega
      have n1 : t ≠ 1 := by omega
      have n2 : t ≠ 2 := by omega
      have i0 : (0 : Int) ≤ (t : Int) := by omega
      have i1 : (t : Int) < 11 := by omega
      simp only [Bool.not_false, if_true, make_result]
      repeat' split
      all_goals try dsimp only
      all_goals
        repeat' first
          | with_reducible apply pads_present_link
          | with_reducible apply pads_present_unlink
          | with_reducible apply pads_present_make
          | exact h
      all_goals try simp only [make_machines, link_machines, unlink_machines]
      all_goals simp_all [Pad.present, set_part]

theorem call_pads_present (env : Env) (self : Machine) (call : Call) (hre : WireKeepsPads env)
    (hc : Constructed self) (h : PadsPresent self) :
    Constructed (call.apply env self).2 ∧ PadsPresent (call.apply env self).2 := by
  have c2 : PART_ADDER_CONVERT = 2 := rfl
  have c3 : PART_INPUT_PRE_LEVEL = 3 := rfl
  have c4 : PART_INPUT_GAIN = 4 := rfl
  have c5 : PART_INPUT_POST_LEVEL = 5 := rfl
  have c6 : PART_MACHINE = 6 := rfl
  have c7 : PART_OUTPUT_PRE_LEVEL = 7 := rfl
  have c8 : PART_OUTPUT_GAIN = 8 := rfl
  have c9 : PART_OUTPUT_POST_LEVEL = 9 := rfl
  have c10 : PART_SPREADER = 10 := rfl
  cases call with
  | enable_input_pre_level =>
    simp only [Call.apply, bt_machine_enable_input_pre_level]
    split
    · exact ⟨hc, h⟩
    · exact enable_part_pads_present env self _ hre (by omega) (by omega) (by omega) hc h
  | enable_input_gain =>
    simp only [Call.apply, bt_machine_enable_input_gain]
    split
    · exact ⟨hc, h⟩
    · exact enable_part_pads_present env self _ hre (by omega) (by omega) (by omega) hc h
  | enable_input_post_level =>
    simp only [Call.apply, bt_machine_enable_input_post_level]
    split
    · exact ⟨hc, h⟩
    · exact enable_part_pads_present env self _ hre (by omega) (by omega) (by omega) hc h
  | enable_output_pre_level =>
    simp only [Call.apply, bt_machine_enable_output_pre_level]
    split
    · exact ⟨hc, h⟩
    · exact enable_part_pads_present env self _ hre (by omega) (by omega) (by omega) hc h
  | enable_output_gain =>
    simp only [Call.apply, bt_machine_enable_output_gain]
    split
    · exact ⟨hc, h⟩
    · exact enable_part_pads_present env self _ hre (by omega) (by omega) (by omega) hc h
  | enable_output_post_level =>
    simp only [Call.apply, bt_machine_enable_output_post_level]
    split
    · exact ⟨hc, h⟩
    · exact enable_part_pads_present env self _ hre (by omega) (by omega) (by omega) hc h
  | activate_adder =>
    exact ⟨activate_adder_constructed env self hc, activate_adder_pads_present env self hc h⟩
  | activate_spreader => exact activate_spreader_pads_present env self hc h

/-- On a machine as constructed, whatever the factories and the pad links
answer, the linked pads belong to elements that exist after every sequence of
calls. -/
theorem run_calls_pads_present (env : Env) (self : Machine) (calls : List Call)
    (hre : WireKeepsPads env) (hc : Constructed self) (h : PadsPresent self) :
    Constructed (run_calls env self calls) ∧ PadsPresent (run_calls env self calls) := by
  induction calls generalizing self with
  | nil => exact ⟨hc, h⟩
  | cons c cs ih =>
    have step := call_pads_present env self c hre hc h
    exact ih _ step.1 step.2

theorem unit_wired_in_pads_present : PadsPresent unit_wired_in := by
  unfold PadsPresent LinksPresent
  decide

theorem env_with_links_keeps_pads (link_ok : Nat → Bool) :
    WireKeepsPads (env_with_links link_ok) :=
  fun _ _ h => h

end Buzztrax
